import Mathlib

/-!
# grbl / Bungard latch bus and limit handling

A shallow embedding of `bungard.c`, of the limit handling of `limits.c` and of
`spindle_get_state` of `spindle_control.c`.

Conventions of the embedding:

* a `uint8_t` is a `Nat`; every store to an 8-bit object reduces the stored value
  modulo 256, and a `uint8_t` parameter is reduced modulo 256 on entry;
* `x & ~m` on bytes is written `x &&& (255 ^^^ m)`;
* the AVR port registers and the file-static variables of `bungard.c` are the
  fields of `Bel`; the functions are state transformers `Bel → Bel`;
* the `nop()` delays have no effect on the state and are left out;
* `trace` is a ghost field: it records, newest first, every store to a port
  register and every return of `bel_write_byte` / `bel_write_latch`.
-/

namespace Bungard

/-! ## Constants of `bungard.c` -/

def BEL_LATCH1_WRITE_MASK : Nat := 0x80
def BEL_SPINDLE_SPEED_MASK : Nat := 0xF
def BEL_SPINDLE_ENABLE_MASK : Nat := 0x10
def BEL_LATCH2_WRITE_MASK : Nat := 0xC0
def BEL_SPINDLE_BRAKE_MASK : Nat := 0x2
def BEL_STEPPERS_MICROSTEP_MASK : Nat := 0xC
def BEL_STEPPERS_ENABLE_MASK : Nat := 0x10
def BEL_LATCH1 : Nat := 0
def BEL_LATCH2 : Nat := 1

/-! ## State and ghost trace -/

/-- The byte seen by the machine on the parallel data lines: D7..D6 are PORTB
bits 1..0 and D5..D0 are PORTD bits 7..2. -/
def bus_byte (portb portd : Nat) : Nat :=
  ((portb &&& 0x3) <<< 6) ||| (portd >>> 2)

/-- Events of the ghost trace. -/
inductive Ev where
  /-- A store to PORTB or PORTD; the contents of both ports after the store. -/
  | store (portb portd : Nat) : Ev
  /-- Return of `bel_write_byte(data)`, with the byte then on the data lines. -/
  | write_byte (data bus : Nat) : Ev
  /-- Return of `bel_write_latch(latch, data)`, with the byte then on the data lines. -/
  | write_latch (latch data bus : Nat) : Ev
deriving DecidableEq

/-- Registers and static variables used by `bungard.c`, with the ghost trace. -/
structure Bel where
  PORTB : Nat := 0
  PORTD : Nat := 0
  latch1 : Nat := 0
  latch2 : Nat := 0
  stepper_limits_override_flag : Nat := 0
  trace : List Ev := []
deriving DecidableEq

/-- State after reset: `latch1 = latch2 = 0`, override flag 0, ports cleared. -/
def power_on : Bel := {}

/-- Store to the 8-bit register PORTB. -/
def set_PORTB (v : Nat) (s : Bel) : Bel :=
  { s with PORTB := v % 256, trace := Ev.store (v % 256) s.PORTD :: s.trace }

/-- Store to the 8-bit register PORTD. -/
def set_PORTD (v : Nat) (s : Bel) : Bel :=
  { s with PORTD := v % 256, trace := Ev.store s.PORTB (v % 256) :: s.trace }

/-! ## Functions of `bungard.c` -/

/-- Embedding of `bel_write_byte`. -/
def bel_write_byte (data : Nat) (s : Bel) : Bel :=
  let data := data % 256
  -- PORTB = (PORTB & 0xFC) | data >> 6;
  let s := set_PORTB ((s.PORTB &&& 0xFC) ||| (data >>> 6)) s
  -- PORTD = (PORTD & 0x3) | data << 2;
  let s := set_PORTD ((s.PORTD &&& 0x3) ||| (data <<< 2)) s
  -- PORTB |= 0x20;
  let s := set_PORTB (s.PORTB ||| 0x20) s
  -- PORTB &= ~0x20;
  let s := set_PORTB (s.PORTB &&& (255 ^^^ 0x20)) s
  { s with trace := Ev.write_byte data (bus_byte s.PORTB s.PORTD) :: s.trace }

/-- Embedding of `bel_write_latch`. -/
def bel_write_latch (latch data : Nat) (s : Bel) : Bel :=
  let latch := latch % 256
  let data := data % 256
  -- PORTB = (PORTB & 0xFC) | latch | 0x2;
  let s := set_PORTB ((s.PORTB &&& 0xFC) ||| latch ||| 0x2) s
  -- PORTD = (PORTD & 0x3) | data << 2;
  let s := set_PORTD ((s.PORTD &&& 0x3) ||| (data <<< 2)) s
  -- PORTB |= 0x20;
  let s := set_PORTB (s.PORTB ||| 0x20) s
  -- PORTB &= ~0x20;
  let s := set_PORTB (s.PORTB &&& (255 ^^^ 0x20)) s
  { s with trace := Ev.write_latch latch data (bus_byte s.PORTB s.PORTD) :: s.trace }

/-- Embedding of `bel_set_steppers_enable`. -/
def bel_set_steppers_enable (enable : Bool) (s : Bel) : Bel :=
  -- latch2 &= ~BEL_STEPPERS_MICROSTEP_MASK;
  let s := { s with latch2 := (s.latch2 &&& (255 ^^^ BEL_STEPPERS_MICROSTEP_MASK)) % 256 }
  let s :=
    if enable then { s with latch2 := (s.latch2 ||| BEL_STEPPERS_ENABLE_MASK) % 256 }
    else { s with latch2 := (s.latch2 &&& (255 ^^^ BEL_STEPPERS_ENABLE_MASK)) % 256 }
  bel_write_latch BEL_LATCH2 s.latch2 s

/-- Embedding of `bel_steppers_step`. -/
def bel_steppers_step (data : Nat) (s : Bel) : Bel :=
  let data := data % 256
  -- bel_write_byte(data & 0x3F | stepper_limits_override_flag);
  bel_write_byte ((data &&& 0x3F) ||| s.stepper_limits_override_flag) s

/-- Embedding of `bel_set_steppers_limit_override_enable`. -/
def bel_set_steppers_limit_override_enable (enable : Bool) (s : Bel) : Bel :=
  if enable then { s with stepper_limits_override_flag := 0x40 }
  else { s with stepper_limits_override_flag := 0 }

/-- Embedding of `bel_set_spindle_enable`. -/
def bel_set_spindle_enable (enable : Bool) (s : Bel) : Bel :=
  let _latch := s.latch1
  let _latch :=
    if enable then (_latch ||| BEL_SPINDLE_ENABLE_MASK) % 256
    else (_latch &&& (255 ^^^ BEL_SPINDLE_ENABLE_MASK)) % 256
  if _latch ≠ s.latch1 then
    let s := { s with latch1 := _latch }
    bel_write_latch BEL_LATCH1 s.latch1 s
  else s

/-- Embedding of `bel_set_spindle_speed`. -/
def bel_set_spindle_speed (speed : Nat) (s : Bel) : Bel :=
  let speed := speed % 256
  let _latch := (s.latch1 &&& (255 ^^^ BEL_SPINDLE_SPEED_MASK)) % 256
  let _latch := (_latch ||| ((speed &&& BEL_SPINDLE_SPEED_MASK) ||| BEL_SPINDLE_ENABLE_MASK)) % 256
  if _latch ≠ s.latch1 then
    let s := { s with latch1 := _latch }
    bel_write_latch BEL_LATCH1 s.latch1 s
  else s

/-- Embedding of `bel_set_spindle_brake`: its body is commented out in the source. -/
def bel_set_spindle_brake (_enable : Bool) (s : Bel) : Bel := s

/-- Embedding of `bel_get_spindle_enable`. -/
def bel_get_spindle_enable (s : Bel) : Bool :=
  (s.latch1 &&& BEL_SPINDLE_ENABLE_MASK) ≠ 0

/-! ## Runs of the interface and observations on the trace -/

/-- A call of one of the functions that `bungard.h` offers to the rest of the firmware:
the five setters and the step output. -/
inductive Op where
  | steppers_enable (enable : Bool) : Op
  | steppers_step (data : Nat) : Op
  | steppers_limit_override_enable (enable : Bool) : Op
  | spindle_enable (enable : Bool) : Op
  | spindle_speed (speed : Nat) : Op
  | spindle_brake (enable : Bool) : Op
deriving DecidableEq

/-- The state transformer of a call. -/
def Op.apply : Op → Bel → Bel
  | Op.steppers_enable e => bel_set_steppers_enable e
  | Op.steppers_step d => bel_steppers_step d
  | Op.steppers_limit_override_enable e => bel_set_steppers_limit_override_enable e
  | Op.spindle_enable e => bel_set_spindle_enable e
  | Op.spindle_speed v => bel_set_spindle_speed v
  | Op.spindle_brake e => bel_set_spindle_brake e

/-- The state after a sequence of calls, first call first. -/
def run (ops : List Op) (s : Bel) : Bel := ops.foldl (fun s op => op.apply s) s

/-- The argument of the last `bel_set_steppers_limit_override_enable` of a sequence of
calls, `false` when there is none. -/
def last_override (ops : List Op) : Bool :=
  ops.foldl (fun b op => match op with
    | Op.steppers_limit_override_enable e => e
    | _ => b) false

/-- The byte on the data lines in a state. -/
def bus (s : Bel) : Nat := bus_byte s.PORTB s.PORTD

/-- The strobe line: PORTB bit 5. -/
def strobe (portb : Nat) : Bool := portb.testBit 5

/-- The bits of PORTB that are not bus lines (2-4 and 6-7; bits 0-1 are D6-D7 and
bit 5 is the strobe). -/
def portb_rest (portb : Nat) : Nat := portb &&& 0xDC

/-- The bits of PORTD that are not bus lines (0-1). -/
def portd_rest (portd : Nat) : Nat := portd &&& 0x3

/-- The events recorded between two states of one run, newest first. -/
def new_events (s s' : Bel) : List Ev := s'.trace.take (s'.trace.length - s.trace.length)

/-- The port contents `(PORTB, PORTD)` after each store of a list of events, oldest first. -/
def stores (evs : List Ev) : List (Nat × Nat) :=
  evs.reverse.filterMap fun
    | Ev.store b d => some (b, d)
    | _ => none

/-- The arguments `(latch, data)` of the calls of `bel_write_latch` in a list of events,
oldest first. -/
def latch_writes (evs : List Ev) : List (Nat × Nat) :=
  evs.reverse.filterMap fun
    | Ev.write_latch l d _ => some (l, d)
    | _ => none

/-- What the events of one bus write must look like, from state `s` to state `s'`: exactly
four stores; after each of them the bits of PORTB and PORTD that are not bus lines are as in
`s`; the strobe keeps the level it had in `s` during the two data stores, is high after the
third store and low after the fourth; the data lines do not change from the second store on;
and the ports of `s'` are those left by the fourth store. -/
def bus_write_ok (s s' : Bel) : Prop :=
  let st := stores (new_events s s')
  st.length = 4 ∧
  (∀ p ∈ st, portb_rest p.1 = portb_rest s.PORTB ∧ portd_rest p.2 = portd_rest s.PORTD) ∧
  st.map (fun p => strobe p.1) = [strobe s.PORTB, strobe s.PORTB, true, false] ∧
  (st.drop 1).map (fun p => bus_byte p.1 p.2) = [bus s', bus s', bus s'] ∧
  st.getLast? = some (s'.PORTB, s'.PORTD)

instance (s s' : Bel) : Decidable (bus_write_ok s s') := by
  unfold bus_write_ok
  infer_instance

/-- The 6-bit payload (bus bits 5..0) that the most recent `bel_write_latch` for latch `id`
left on the bus, `none` when that latch has not been written. -/
def last_latch_payload (id : Nat) : List Ev → Option Nat
  | [] => none
  | Ev.write_latch l _ b :: t => if l = id then some (b &&& 0x3F) else last_latch_payload id t
  | _ :: t => last_latch_payload id t

end Bungard

namespace Limits

/-! ## Configuration and state used by `limits.c`

`limits.c` includes `grbl.h`; the headers that declare its constants, pin maps and
the `sys` / `settings` objects are not among the analysed sources, so they are the
fields of `Config` (compile-time values) and `Sys` (run-time objects).  External
procedures are recorded in the ghost list `calls`, newest first. -/

/-- Compile-time constants and pin maps that `limits.c` takes from its headers. -/
structure Config where
  N_AXIS : Nat
  X_AXIS : Nat
  Y_AXIS : Nat
  Z_AXIS : Nat
  LIMIT_MASK : Nat
  /-- The value of the macro, or `none` when it is not defined (`#ifdef`). -/
  INVERT_LIMIT_PIN_MASK : Option Nat
  get_limit_pin_mask : Nat → Nat
  STEP_MASK : Nat
  get_step_pin_mask : Nat → Nat
  BITFLAG_INVERT_LIMIT_PINS : Nat
  /-- Whether `ENABLE_SOFTWARE_DEBOUNCE` is defined. -/
  ENABLE_SOFTWARE_DEBOUNCE : Bool
  /-- Whether `HARD_LIMIT_FORCE_STATE_CHECK` is defined. -/
  HARD_LIMIT_FORCE_STATE_CHECK : Bool
  /-- Bit number of the watchdog interrupt enable in `WDTCSR`. -/
  WDIE : Nat
  STATE_ALARM : Nat
  EXEC_RESET : Nat
  EXEC_SAFETY_DOOR : Nat
  EXEC_CYCLE_STOP : Nat
  EXEC_ALARM_HARD_LIMIT : Nat
  EXEC_ALARM_HOMING_FAIL_RESET : Nat
  EXEC_ALARM_HOMING_FAIL_DOOR : Nat
  EXEC_ALARM_HOMING_FAIL_APPROACH : Nat
  N_HOMING_LOCATE_CYCLE : Nat
  STEP_CONTROL_NORMAL_OP : Nat
  STEP_CONTROL_EXECUTE_SYS_MOTION : Nat
  STATE_IDLE : Nat
  STATE_CYCLE : Nat
  EXEC_FEED_HOLD : Nat
  EXEC_ALARM_SOFT_LIMIT : Nat
  /-- The conversion done per axis by `system_convert_array_steps_to_mpos(target,steps)`:
  the position in mm of axis `idx` for the step counts `steps`. -/
  system_convert_axis_steps_to_mpos : List Int → Nat → ℚ

/-- Snapshot (ghost) of the variables that the step generator works with, taken when
`limits_go_home` starts a motion or begins a pass through its poll loop.  A `float` is kept
as an exact rational: no claim depends on rounding. -/
structure Mark where
  /-- Local `n_cycle`. -/
  n_cycle : Nat
  /-- Group index `i` of the `for` loop: 0 is Z, 1 is X and Y. -/
  i : Nat
  /-- Local `approach`. -/
  approach : Bool
  /-- Field `sys.homing_axis_lock`. -/
  homing_axis_lock : Nat
  /-- Variable `stepper_limits_override_flag` of `bungard.c`. -/
  override_flag : Nat
  /-- Field `sys.step_control`. -/
  step_control : Nat
  /-- Field `pl_data->feed_rate` of the planned block. -/
  feed_rate : ℚ
  /-- Local array `target`. -/
  target : List ℚ
  sys_position : List Int
deriving DecidableEq

/-- Entries of the ghost log: the procedures called by `limits.c`, with their arguments, and
the snapshots. -/
inductive Call where
  | mc_reset : Call
  | system_set_exec_alarm (code : Nat) : Call
  | system_clear_exec_state_flag (mask : Nat) : Call
  | protocol_execute_realtime : Call
  | st_prep_buffer : Call
  | system_set_exec_state_flag (mask : Nat) : Call
  | bel_set_steppers_limit_override_enable (enable : Bool) : Call
  | plan_buffer_line (target : List ℚ) (feed_rate : ℚ) : Call
  /-- The call `st_wake_up()`, with the snapshot at the call. -/
  | st_wake_up (m : Mark) : Call
  | st_reset : Call
  | delay_ms (ms : Nat) : Call
  /-- No call: the snapshot at the top of a pass through the poll-loop body. -/
  | poll (m : Mark) : Call
deriving DecidableEq

/-- Run-time objects read or written by the limit code, with the ghost call list. -/
structure Sys where
  /-- Field `sys.state`. -/
  state : Nat := 0
  /-- Field `sys.homing_axis_lock`. -/
  homing_axis_lock : Nat := 0
  sys_rt_exec_state : Nat := 0
  sys_rt_exec_alarm : Nat := 0
  /-- Field `settings.flags`. -/
  settings_flags : Nat := 0
  /-- Input register read as `LIMIT_PIN`. -/
  LIMIT_PIN : Nat := 0
  PINB : Nat := 0
  WDTCSR : Nat := 0
  calls : List Call := []
  /-- Field `sys.abort`. -/
  abort : Bool := false
  /-- Field `sys.step_control`. -/
  step_control : Nat := 0
  /-- Field `sys.soft_limit`. -/
  soft_limit : Bool := false
  /-- Array `sys_position`, one step count per axis. -/
  sys_position : List Int := []
  /-- The state of `bungard.c`. -/
  bel : Bungard.Bel := {}
deriving DecidableEq

/-- The macro `bit_isfalse(x,mask)`, that is `((x & mask) == 0)`. -/
def bit_isfalse (x mask : Nat) : Bool := (x &&& mask) == 0

/-- Modelled from the spec: `mc_reset` is defined outside the analysed sources; the spec
lists it as the consumed operation "full-system motion stop".  Only the fact that it was
called is recorded. -/
def mc_reset (s : Sys) : Sys := { s with calls := Call.mc_reset :: s.calls }

/-- Modelled from the spec: `system_set_exec_alarm` is defined outside the analysed
sources; by the spec the alarm state is one enumerated cause code, set by the raiser, so
the call stores `code` in `sys_rt_exec_alarm` (0 means no alarm pending). -/
def system_set_exec_alarm (code : Nat) (s : Sys) : Sys :=
  { s with sys_rt_exec_alarm := code % 256, calls := Call.system_set_exec_alarm code :: s.calls }

/-- Modelled from the spec: `system_clear_exec_state_flag` is defined outside the analysed
sources; it clears the bits of `mask` in `sys_rt_exec_state` ("clear the pending stop
condition"). -/
def system_clear_exec_state_flag (mask : Nat) (s : Sys) : Sys :=
  { s with sys_rt_exec_state := (s.sys_rt_exec_state &&& (255 ^^^ mask)) % 256,
           calls := Call.system_clear_exec_state_flag mask :: s.calls }

/-- Modelled from the spec: `protocol_execute_realtime` is defined outside the analysed
sources (the "realtime executor"); only the call is recorded. -/
def protocol_execute_realtime (s : Sys) : Sys :=
  { s with calls := Call.protocol_execute_realtime :: s.calls }

/-- Modelled from the spec: `st_prep_buffer` is defined outside the analysed sources
("step-segment prepare"); only the call is recorded. -/
def st_prep_buffer (s : Sys) : Sys := { s with calls := Call.st_prep_buffer :: s.calls }

/-! ## `limits_get_state` -/

/-- Value of local `pin` of `limits_get_state` when the axis loop is reached. -/
def limits_pin (c : Config) (LIMIT_PIN flags : Nat) : Nat :=
  -- uint8_t pin = (LIMIT_PIN & LIMIT_MASK);
  let pin := (LIMIT_PIN &&& c.LIMIT_MASK) % 256
  -- #ifdef INVERT_LIMIT_PIN_MASK  pin ^= INVERT_LIMIT_PIN_MASK;
  let pin := match c.INVERT_LIMIT_PIN_MASK with
    | some m => (pin ^^^ m) % 256
    | none => pin
  -- if (bit_isfalse(settings.flags,BITFLAG_INVERT_LIMIT_PINS)) { pin ^= LIMIT_MASK; }
  if bit_isfalse flags c.BITFLAG_INVERT_LIMIT_PINS then (pin ^^^ c.LIMIT_MASK) % 256 else pin

/-- Embedding of `limits_get_state`, as a function of the value read from `LIMIT_PIN`
and of `settings.flags`. -/
def limits_get_state (c : Config) (LIMIT_PIN flags : Nat) : Nat :=
  let limit_state := 0
  let pin := limits_pin c LIMIT_PIN flags
  if pin ≠ 0 then
    -- for (idx=0; idx<N_AXIS; idx++)
    (List.range c.N_AXIS).foldl
      (fun limit_state idx =>
        -- if (pin & get_limit_pin_mask(idx)) { limit_state |= (1 << idx); }
        if pin &&& c.get_limit_pin_mask idx ≠ 0 then (limit_state ||| (1 <<< idx)) % 256
        else limit_state)
      limit_state
  else limit_state

/-! ## Hard-limit interrupt handlers -/

/-- The two statements `mc_reset(); system_set_exec_alarm(EXEC_ALARM_HARD_LIMIT);`. -/
def hard_limit_kill (c : Config) (s : Sys) : Sys :=
  system_set_exec_alarm c.EXEC_ALARM_HARD_LIMIT (mc_reset s)

/-- Embedding of `ISR(LIMIT_INT_vect)`, in the variant selected by the configuration. -/
def ISR_LIMIT_INT_vect (c : Config) (s : Sys) : Sys :=
  if c.ENABLE_SOFTWARE_DEBOUNCE = false then
    if s.state ≠ c.STATE_ALARM then
      if s.sys_rt_exec_alarm = 0 then
        if c.HARD_LIMIT_FORCE_STATE_CHECK then
          if limits_get_state c s.LIMIT_PIN s.settings_flags ≠ 0 then hard_limit_kill c s
          else s
        else hard_limit_kill c s
      else s
    else s
  else
    -- if (!(WDTCSR & (1<<WDIE))) { WDTCSR |= (1<<WDIE); }
    if s.WDTCSR &&& (1 <<< c.WDIE) = 0 then
      { s with WDTCSR := (s.WDTCSR ||| (1 <<< c.WDIE)) % 256 }
    else s

/-- Embedding of `ISR(WDT_vect)`, which exists when `ENABLE_SOFTWARE_DEBOUNCE` is defined. -/
def ISR_WDT_vect (c : Config) (s : Sys) : Sys :=
  -- WDTCSR &= ~(1<<WDIE);
  let s := { s with WDTCSR := (s.WDTCSR &&& (255 ^^^ (1 <<< c.WDIE))) % 256 }
  if s.state ≠ c.STATE_ALARM then
    if s.sys_rt_exec_alarm = 0 then
      if limits_get_state c s.LIMIT_PIN s.settings_flags ≠ 0 then hard_limit_kill c s
      else s
    else s
  else s

/-! ## The poll loop of `limits_go_home` -/

/-- How one pass through the body of the inner `do { ... } while (STEP_MASK & axislock)`
of `limits_go_home` leaves it. -/
inductive Ctl where
  /-- The statement `return;`: `limits_go_home` is left. -/
  | returned : Ctl
  /-- The statement `break;`: the poll loop is left, `st_reset()` follows. -/
  | broke : Ctl
  /-- The end of the body: the loop condition `STEP_MASK & axislock` is tested next. -/
  | test : Ctl
deriving DecidableEq

/-- One pass through the body of the poll loop of `limits_go_home` (source lines 229-261),
for group index `i` (0 is Z, 1 is X and Y), phase `approach` and local `axislock`.
Returns how the body is left, the new `axislock` and the new state. -/
def homing_poll_body (c : Config) (i : Nat) (approach : Bool) (axislock : Nat) (s : Sys) :
    Ctl × Nat × Sys :=
  -- if (approach && PINB & 0x4)
  let axislock :=
    if approach && (s.PINB &&& 0x4 != 0) then
      let a := (axislock &&& (255 ^^^ c.get_step_pin_mask c.X_AXIS)) % 256
      let a := (a &&& (255 ^^^ c.get_step_pin_mask c.Y_AXIS)) % 256
      (a &&& (255 ^^^ c.get_step_pin_mask c.Z_AXIS)) % 256
    else axislock
  -- sys.homing_axis_lock = axislock;
  let s := { s with homing_axis_lock := axislock }
  let s := st_prep_buffer s
  if s.sys_rt_exec_state &&& (c.EXEC_SAFETY_DOOR ||| c.EXEC_RESET ||| c.EXEC_CYCLE_STOP) ≠ 0 then
    let rt_exec := s.sys_rt_exec_state
    let s := if rt_exec &&& c.EXEC_RESET ≠ 0
      then system_set_exec_alarm c.EXEC_ALARM_HOMING_FAIL_RESET s else s
    let s := if rt_exec &&& c.EXEC_SAFETY_DOOR ≠ 0
      then system_set_exec_alarm c.EXEC_ALARM_HOMING_FAIL_DOOR s else s
    let s := if i = 1 ∧ approach = true ∧ rt_exec &&& c.EXEC_CYCLE_STOP ≠ 0
      then system_set_exec_alarm c.EXEC_ALARM_HOMING_FAIL_APPROACH s else s
    if s.sys_rt_exec_alarm ≠ 0 then
      (Ctl.returned, axislock, protocol_execute_realtime (mc_reset s))
    else
      (Ctl.broke, axislock, system_clear_exec_state_flag c.EXEC_CYCLE_STOP s)
  else (Ctl.test, axislock, s)

/-- The alarm codes passed to `system_set_exec_alarm` in a call list, oldest first. -/
def alarms_raised (calls : List Call) : List Nat :=
  calls.reverse.filterMap fun
    | Call.system_set_exec_alarm code => some code
    | _ => none

/-- The calls made between two states of one run, newest first. -/
def new_calls (s s' : Sys) : List Call := s'.calls.take (s'.calls.length - s.calls.length)

/-- A configuration for concrete evaluation: three axes with axis `idx` on limit pin bit
`idx` and hardware invert mask `0b100`; the remaining values are those of grbl 1.1 on the
ATmega328P. -/
def cfg328 : Config where
  N_AXIS := 3
  X_AXIS := 0
  Y_AXIS := 1
  Z_AXIS := 2
  LIMIT_MASK := 0b00000111
  INVERT_LIMIT_PIN_MASK := some 0b00000100
  get_limit_pin_mask := fun idx => 1 <<< idx
  STEP_MASK := 0b00011100
  get_step_pin_mask := fun idx => 1 <<< (idx + 2)
  BITFLAG_INVERT_LIMIT_PINS := 0b01000000
  ENABLE_SOFTWARE_DEBOUNCE := false
  HARD_LIMIT_FORCE_STATE_CHECK := false
  WDIE := 6
  STATE_ALARM := 0b00000001
  EXEC_RESET := 0b00010000
  EXEC_SAFETY_DOOR := 0b00100000
  EXEC_CYCLE_STOP := 0b00000100
  EXEC_ALARM_HARD_LIMIT := 1
  EXEC_ALARM_HOMING_FAIL_RESET := 6
  EXEC_ALARM_HOMING_FAIL_DOOR := 7
  EXEC_ALARM_HOMING_FAIL_APPROACH := 9
  N_HOMING_LOCATE_CYCLE := 1
  STEP_CONTROL_NORMAL_OP := 0
  STEP_CONTROL_EXECUTE_SYS_MOTION := 0b00000100
  STATE_IDLE := 0
  STATE_CYCLE := 0b00001000
  EXEC_FEED_HOLD := 0b00001000
  EXEC_ALARM_SOFT_LIMIT := 2
  system_convert_axis_steps_to_mpos := fun steps idx => (steps.getD idx 0 : ℚ) / 250

/-- A state for concrete evaluation: not in alarm, no alarm pending, all limit pins reading
high (with the invert mask of `cfg328` that is the Z limit asserted), watchdog interrupt
enabled. -/
def sys_z_limit : Sys := { LIMIT_PIN := 0b00000111, WDTCSR := 0b01000000 }

/-- A state for concrete evaluation: EXEC_RESET and EXEC_CYCLE_STOP (values of `cfg328`)
both set in `sys_rt_exec_state`, no alarm pending. -/
def sys_reset_stop : Sys := { sys_rt_exec_state := 0b00010100 }

/-! ## `limits_go_home`

The homing cycle polls hardware and flags that interrupt handlers change.  What it sees is
given by a list of observations, one for each pass through the poll-loop body; a run whose
list is used up inside a poll loop is cut off there (`Run.starved`).  The `printPgmString`
and `print_uint8_base2_ndigit` calls (status text) and the `plan_line_data_t` fields other
than `feed_rate` have no effect on the modelled state and are left out. -/

/-- Homing axis search distance multiplier, as defined in `limits.c`. -/
def HOMING_AXIS_SEARCH_SCALAR : ℚ := 1.125

/-- Homing axis locate distance multiplier, as defined in `limits.c`. -/
def HOMING_AXIS_LOCATE_SCALAR : ℚ := 1.25

/-- The fields of `settings` that `limits_go_home` reads. -/
structure Settings where
  homing_seek_rate : ℚ
  homing_feed_rate : ℚ
  homing_pulloff : ℚ
  /-- Array `settings.max_travel`. -/
  max_travel : Nat → ℚ
  homing_debounce_delay : Nat

/-- What one pass through the poll-loop body sees: the input register PINB, the realtime
flags as interrupt handlers have left them, and the steps that the step generator has made
on each axis since the pass before. -/
structure Obs where
  PINB : Nat
  sys_rt_exec_state : Nat
  steps : Nat → Int

/-- The locals of `limits_go_home` that live across groups and passes (`n_cycle` apart). -/
structure Locals where
  approach : Bool
  homing_rate : ℚ
  axislock : Nat
  max_travel : ℚ
  /-- Array `target`. -/
  target : Nat → ℚ

/-- How a run of a piece of `limits_go_home` or of `limits_soft_check` ends. -/
inductive Run where
  /-- Control reaches the end of the piece. -/
  | finished : Run
  /-- A `return` statement inside the piece is executed. -/
  | returned : Run
  /-- The observations are used up inside a loop: the run is cut off. -/
  | starved : Run
deriving DecidableEq

/-- Result of a run of a piece of `limits_go_home`: how it ends, the locals, the state and
the observations not yet used. -/
structure Res where
  run : Run
  loc : Locals
  sys : Sys
  env : List Obs

/-- The macro `bit(n)`, that is `(1 << n)`. -/
def bit (n : Nat) : Nat := 1 <<< n

/-- The macro `bit_istrue(x,mask)`, that is `((x & mask) != 0)`. -/
def bit_istrue (x mask : Nat) : Bool := (x &&& mask) != 0

/-- Modelled from the spec: `st_reset` is defined outside the analysed sources ("step-segment
reset"); only the call is recorded. -/
def st_reset (s : Sys) : Sys := { s with calls := Call.st_reset :: s.calls }

/-- Modelled from the spec: `delay_ms` is defined outside the analysed sources ("millisecond
delay"); only the call is recorded. -/
def delay_ms (ms : Nat) (s : Sys) : Sys := { s with calls := Call.delay_ms ms :: s.calls }

/-- Modelled from the spec: `plan_buffer_line` is defined outside the analysed sources
("motion-block enqueue"); only the call, with the target and the feed rate of the block, is
recorded. -/
def plan_buffer_line (target : List ℚ) (feed_rate : ℚ) (s : Sys) : Sys :=
  { s with calls := Call.plan_buffer_line target feed_rate :: s.calls }

/-- Modelled from the spec: `system_set_exec_state_flag` is defined outside the analysed
sources; it sets the bits of `mask` in `sys_rt_exec_state`. -/
def system_set_exec_state_flag (mask : Nat) (s : Sys) : Sys :=
  { s with sys_rt_exec_state := (s.sys_rt_exec_state ||| mask) % 256,
           calls := Call.system_set_exec_state_flag mask :: s.calls }

/-- The call `bel_set_steppers_limit_override_enable(enable)` made by `limits_go_home`: the
function of `bungard.c` on the latch-bus state, and the record of the call. -/
def set_limit_override (enable : Bool) (s : Sys) : Sys :=
  { s with bel := Bungard.bel_set_steppers_limit_override_enable enable s.bel,
           calls := Call.bel_set_steppers_limit_override_enable enable :: s.calls }

/-- The snapshot of the current pass, group, locals and state. -/
def homing_mark (c : Config) (n_cycle i : Nat) (l : Locals) (s : Sys) : Mark :=
  { n_cycle := n_cycle, i := i, approach := l.approach,
    homing_axis_lock := s.homing_axis_lock,
    override_flag := s.bel.stepper_limits_override_flag,
    step_control := s.step_control, feed_rate := l.homing_rate,
    target := (List.range c.N_AXIS).map l.target, sys_position := s.sys_position }

/-- Modelled from the spec: `st_wake_up` is defined outside the analysed sources ("step-segment
wake"); the call is recorded with the snapshot at the call. -/
def st_wake_up (m : Mark) (s : Sys) : Sys := { s with calls := Call.st_wake_up m :: s.calls }

/-- What the interrupt handlers and the hardware do between two passes through the poll-loop
body: PINB and the realtime flags take the observed values and the step counts advance. -/
def observe (o : Obs) (s : Sys) : Sys :=
  { s with PINB := o.PINB, sys_rt_exec_state := o.sys_rt_exec_state,
           sys_position := s.sys_position.mapIdx fun idx p => p + o.steps idx }

/-- The poll loop `do { ... } while (STEP_MASK & axislock);` of `limits_go_home`. -/
def homing_poll_loop (c : Config) (n_cycle i : Nat) : List Obs → Locals → Sys → Res
  | [], l, s => ⟨Run.starved, l, s, []⟩
  | o :: env, l, s =>
    let s := observe o s
    let s := { s with calls := Call.poll (homing_mark c n_cycle i l s) :: s.calls }
    match homing_poll_body c i l.approach l.axislock s with
    | (Ctl.returned, a, s) => ⟨Run.returned, { l with axislock := a }, s, env⟩
    | (Ctl.broke, a, s) => ⟨Run.finished, { l with axislock := a }, s, env⟩
    | (Ctl.test, a, s) =>
      -- while (STEP_MASK & axislock)
      if c.STEP_MASK &&& a ≠ 0 then homing_poll_loop c n_cycle i env { l with axislock := a } s
      else ⟨Run.finished, { l with axislock := a }, s, env⟩

/-- The body of `if (bit_istrue(cycle_mask,bit(idx))) { ... }` in the axis loop of
`limits_go_home` (source lines 197-210). -/
def homing_axis_setup (c : Config) (st : Settings) (n_cycle idx : Nat) (l : Locals) (s : Sys) :
    Locals × Sys :=
  -- sys_position[idx] = 0;
  let s := { s with sys_position := s.sys_position.set idx 0 }
  -- if (n_cycle == 2*N_HOMING_LOCATE_CYCLE+1) max_travel = (-HOMING_AXIS_SEARCH_SCALAR)*...
  let l :=
    if n_cycle = 2 * c.N_HOMING_LOCATE_CYCLE + 1 then
      { l with max_travel := (-HOMING_AXIS_SEARCH_SCALAR) * st.max_travel idx }
    else l
  let l :=
    if idx ≠ c.Z_AXIS then
      if l.approach then { l with target := fun j => if j = idx then -l.max_travel else l.target j }
      else { l with target := fun j => if j = idx then l.max_travel else l.target j }
    else
      if l.approach then { l with target := fun j => if j = idx then l.max_travel else l.target j }
      else { l with target := fun j => if j = idx then -l.max_travel else l.target j }
  -- axislock |= step_pin[idx];
  let l := { l with axislock := (l.axislock ||| (c.get_step_pin_mask idx % 256)) % 256 }
  (l, s)

/-- The value of `cycle_mask` for group `i`:
`(i == 0) ? bit(Z_AXIS) : bit(X_AXIS) | bit(Y_AXIS)`. -/
def homing_cycle_mask (c : Config) (i : Nat) : Nat :=
  (if i = 0 then bit c.Z_AXIS else bit c.X_AXIS ||| bit c.Y_AXIS) % 256

/-- The axis loop `for (idx=0; idx<N_AXIS; idx++)` inside the group loop of `limits_go_home`
(source lines 192-212). -/
def homing_axis_loop (c : Config) (st : Settings) (n_cycle i : Nat) (l : Locals) (s : Sys) :
    Locals × Sys :=
  let cycle_mask := homing_cycle_mask c i
  (List.range c.N_AXIS).foldl
    (fun (p : Locals × Sys) idx =>
      if bit_istrue cycle_mask (bit idx) then homing_axis_setup c st n_cycle idx p.1 p.2 else p)
    (l, s)

/-- The statements between the axis loop and the poll loop (source lines 218-227): axis lock,
planned block, step control, `st_prep_buffer()`, `st_wake_up()`. -/
def homing_motion_start (c : Config) (n_cycle i : Nat) (l : Locals) (s : Sys) : Sys :=
  -- sys.homing_axis_lock = axislock;
  let s := { s with homing_axis_lock := l.axislock }
  let s := plan_buffer_line ((List.range c.N_AXIS).map l.target) l.homing_rate s
  let s := { s with step_control := c.STEP_CONTROL_EXECUTE_SYS_MOTION }
  let s := st_prep_buffer s
  st_wake_up (homing_mark c n_cycle i l s) s

/-- The part of the body of the group loop of `limits_go_home` that comes before the poll
loop (source lines 192-227). -/
def homing_group_setup (c : Config) (st : Settings) (n_cycle i : Nat) (l : Locals) (s : Sys) :
    Locals × Sys :=
  let p := homing_axis_loop c st n_cycle i l s
  (p.1, homing_motion_start c n_cycle i p.1 p.2)

/-- The body of the group loop `for (uint8_t i = 0; i<2; i++)` of `limits_go_home`. -/
def homing_group (c : Config) (st : Settings) (n_cycle i : Nat) (l : Locals) (env : List Obs)
    (s : Sys) : Res :=
  let p := homing_group_setup c st n_cycle i l s
  match homing_poll_loop c n_cycle i env p.1 p.2 with
  | ⟨Run.finished, l, s, env⟩ => ⟨Run.finished, l, st_reset s, env⟩
  | r => r

/-- The statements after the group loop in the body of the outer loop (source lines
265-277): debounce delay, phase flip, new travel and rate. -/
def homing_pass_end (st : Settings) (l : Locals) (s : Sys) : Locals × Sys :=
  let s := delay_ms st.homing_debounce_delay s
  -- approach = !approach;
  let l := { l with approach := !l.approach }
  if l.approach then
    ({ l with max_travel := st.homing_pulloff * HOMING_AXIS_LOCATE_SCALAR,
              homing_rate := st.homing_feed_rate }, s)
  else
    ({ l with max_travel := st.homing_pulloff, homing_rate := st.homing_seek_rate }, s)

/-- The body of the outer loop `do { ... } while (n_cycle-- > 0);` of `limits_go_home`. -/
def homing_pass (c : Config) (st : Settings) (n_cycle : Nat) (l : Locals) (env : List Obs)
    (s : Sys) : Res :=
  -- system_convert_array_steps_to_mpos(target,sys_position);
  let l := { l with target := c.system_convert_axis_steps_to_mpos s.sys_position }
  -- axislock = 0;
  let l := { l with axislock := 0 }
  -- bel_set_steppers_limit_override_enable(!approach);
  let s := set_limit_override (!l.approach) s
  match homing_group c st n_cycle 0 l env s with
  | ⟨Run.finished, l, s, env⟩ =>
    match homing_group c st n_cycle 1 l env s with
    | ⟨Run.finished, l, s, env⟩ =>
      let p := homing_pass_end st l s
      ⟨Run.finished, p.1, p.2, env⟩
    | r => r
  | r => r

/-- The outer loop `do { ... } while (n_cycle-- > 0);` of `limits_go_home`, entered with the
given value of `n_cycle`. -/
def homing_passes (c : Config) (st : Settings) : Nat → Locals → List Obs → Sys → Res
  | 0, l, env, s => homing_pass c st 0 l env s
  | n + 1, l, env, s =>
    match homing_pass c st (n + 1) l env s with
    | ⟨Run.finished, l, s, env⟩ => homing_passes c st n l env s
    | r => r

/-- Embedding of `limits_go_home`.  The result has the locals at the end of the run. -/
def limits_go_home (c : Config) (st : Settings) (env : List Obs) (s : Sys) : Res :=
  let l0 : Locals :=
    { approach := true, homing_rate := st.homing_seek_rate, axislock := 0, max_travel := 0,
      target := fun _ => 0 }
  -- if (sys.abort) { return; }
  if s.abort then ⟨Run.returned, l0, s, env⟩
  else
    -- uint8_t n_cycle = (2*N_HOMING_LOCATE_CYCLE+1);
    match homing_passes c st ((2 * c.N_HOMING_LOCATE_CYCLE + 1) % 256) l0 env s with
    | ⟨Run.finished, l, s, env⟩ =>
      -- for (idx=0; idx<N_AXIS; idx++) sys_position[idx] = 0;
      let s := { s with sys_position :=
        (List.range c.N_AXIS).foldl (fun p idx => p.set idx 0) s.sys_position }
      let s := set_limit_override true s
      let s := { s with step_control := c.STEP_CONTROL_NORMAL_OP }
      ⟨Run.finished, l, s, env⟩
    | r => r

/-- The snapshots of the `st_wake_up()` calls in a log, oldest first. -/
def wake_ups (calls : List Call) : List Mark :=
  calls.reverse.filterMap fun
    | Call.st_wake_up m => some m
    | _ => none

/-- The snapshots of a log, of `st_wake_up()` calls and of poll-loop passes alike. -/
def marks (calls : List Call) : List Mark :=
  calls.reverse.filterMap fun
    | Call.st_wake_up m => some m
    | Call.poll m => some m
    | _ => none

/-- The numbering of the axes in grbl (0, 1, 2 for X, Y, Z; three axes), as the comment of
`limits_get_state` gives it. -/
def Config.std_axes (c : Config) : Prop :=
  c.N_AXIS = 3 ∧ c.X_AXIS = 0 ∧ c.Y_AXIS = 1 ∧ c.Z_AXIS = 2

instance (c : Config) : Decidable c.std_axes := by
  unfold Config.std_axes
  infer_instance

/-- The entry `step_pin[idx]` of the local array of `limits_go_home`. -/
def step_pin (c : Config) (idx : Nat) : Nat := c.get_step_pin_mask idx % 256

/-- The value of `axislock` after the three statements
`axislock &= ~get_step_pin_mask(X_AXIS); ... (Y_AXIS); ... (Z_AXIS);` of the poll loop. -/
def clear_locks (c : Config) (axislock : Nat) : Nat :=
  (((axislock &&& (255 ^^^ c.get_step_pin_mask c.X_AXIS)) % 256
    &&& (255 ^^^ c.get_step_pin_mask c.Y_AXIS)) % 256
    &&& (255 ^^^ c.get_step_pin_mask c.Z_AXIS)) % 256

/-- The phase of the pass that runs with the given value of `n_cycle`: `true` (approach) for
the first pass, where `n_cycle` is `2*N_HOMING_LOCATE_CYCLE+1`, then alternating. -/
def homing_phase (c : Config) (n_cycle : Nat) : Bool :=
  (2 * c.N_HOMING_LOCATE_CYCLE + 1 - n_cycle) % 2 == 0

/-- The travel that a pass with `n_cycle = n` and phase `ap` sets up for axis `idx`: the local
`max_travel` when the target of the axis is assigned. -/
def homing_travel (c : Config) (st : Settings) (n : Nat) (ap : Bool) (idx : Nat) : ℚ :=
  if n = 2 * c.N_HOMING_LOCATE_CYCLE + 1 then (-HOMING_AXIS_SEARCH_SCALAR) * st.max_travel idx
  else if ap then st.homing_pulloff * HOMING_AXIS_LOCATE_SCALAR
  else st.homing_pulloff

/-- The feed rate that a pass with `n_cycle = n` and phase `ap` plans its motions with. -/
def homing_rate_of (c : Config) (st : Settings) (n : Nat) (ap : Bool) : ℚ :=
  if n = 2 * c.N_HOMING_LOCATE_CYCLE + 1 then st.homing_seek_rate
  else if ap then st.homing_feed_rate
  else st.homing_seek_rate

/-- The axis lock with all three step pins, as the axis loops build it:
`(step_pin[Z] | step_pin[X]) | step_pin[Y]`. -/
def all_step_pins (c : Config) : Nat :=
  ((step_pin c c.Z_AXIS ||| step_pin c c.X_AXIS) % 256 ||| step_pin c c.Y_AXIS) % 256

/-- The axis lock with the X and Y step pins: `step_pin[X] | step_pin[Y]`. -/
def xy_step_pins (c : Config) : Nat :=
  (step_pin c c.X_AXIS ||| step_pin c c.Y_AXIS) % 256

/-- Invariant of the outer loop, at the start of the pass with `n_cycle = n`: the phase, the
rate, and after the first pass the travel, are those of the pass. -/
def Locals.inv (c : Config) (st : Settings) (n : Nat) (l : Locals) : Prop :=
  n ≤ 2 * c.N_HOMING_LOCATE_CYCLE + 1 ∧ l.approach = homing_phase c n ∧
  l.homing_rate = homing_rate_of c st n l.approach ∧
  (n ≠ 2 * c.N_HOMING_LOCATE_CYCLE + 1 → l.max_travel = homing_travel c st n l.approach 0)

/-- What holds of every snapshot of a run: pass and group in range, the phase that of the
pass, the override flag set exactly in a retreat. -/
def Mark.poll_ok (c : Config) (m : Mark) : Prop :=
  m.n_cycle ≤ 2 * c.N_HOMING_LOCATE_CYCLE + 1 ∧ m.i ≤ 1 ∧
  m.approach = homing_phase c m.n_cycle ∧
  m.override_flag = (if m.approach then 0 else 0x40)

/-- What holds of the snapshot at every `st_wake_up()` of a run that starts with `len` entries
in `sys_position`: rate and step control, and with the axes numbered 0, 1, 2 the targets, the
axis lock and the zeroed positions of the axes of the group. -/
def Mark.wake_ok (c : Config) (st : Settings) (len : Nat) (m : Mark) : Prop :=
  m.feed_rate = homing_rate_of c st m.n_cycle m.approach ∧
  m.step_control = c.STEP_CONTROL_EXECUTE_SYS_MOTION ∧
  m.sys_position.length = len ∧
  (c.std_axes →
    (m.i = 0 →
      m.target[2]? = some (if m.approach then homing_travel c st m.n_cycle m.approach 2
        else -homing_travel c st m.n_cycle m.approach 2) ∧
      m.homing_axis_lock = step_pin c 2 ∧
      (2 < len → m.sys_position[2]? = some 0)) ∧
    (m.i = 1 →
      m.target[0]? = some (if m.approach then -homing_travel c st m.n_cycle m.approach 0
        else homing_travel c st m.n_cycle m.approach 0) ∧
      m.target[1]? = some (if m.approach then -homing_travel c st m.n_cycle m.approach 1
        else homing_travel c st m.n_cycle m.approach 1) ∧
      (m.homing_axis_lock = all_step_pins c ∨ m.homing_axis_lock = xy_step_pins c) ∧
      (m.approach = false → m.homing_axis_lock = all_step_pins c) ∧
      (1 < len → m.sys_position[0]? = some 0 ∧ m.sys_position[1]? = some 0)))

/-- The pass, group and phase of a snapshot. -/
def Mark.key (m : Mark) : Nat × Nat × Bool := (m.n_cycle, m.i, m.approach)

/-- The passes and groups of the outer loop entered with `n_cycle = n`, in order: for each
value of `n_cycle` from `n` down to 0 the Z group and the X/Y group, in the phase of the
pass. -/
def homing_schedule (c : Config) : Nat → List (Nat × Nat × Bool)
  | 0 => [(0, 0, homing_phase c 0), (0, 1, homing_phase c 0)]
  | n + 1 => (n + 1, 0, homing_phase c (n + 1)) :: (n + 1, 1, homing_phase c (n + 1)) ::
      homing_schedule c n

/-- An observation that ends a motion: EXEC_CYCLE_STOP alone, home-status line low. -/
def obs_cycle_stop (c : Config) : Obs :=
  { PINB := 0, sys_rt_exec_state := c.EXEC_CYCLE_STOP, steps := fun _ => 0 }

/-- An observation that ends an approach: the home-status input (PINB bit 2) asserted, no
realtime flag. -/
def obs_home_status : Obs := { PINB := 0b00000100, sys_rt_exec_state := 0, steps := fun _ => 0 }

/-- Observations for one pass in phase `ap`, one for each group: the Z motion ends with
EXEC_CYCLE_STOP, the X/Y motion with the home-status input in an approach and with
EXEC_CYCLE_STOP in a retreat. -/
def pass_env (c : Config) (ap : Bool) : List Obs :=
  [obs_cycle_stop c, if ap then obs_home_status else obs_cycle_stop c]

/-- Observations for the passes from `n_cycle = n` down to 0. -/
def homing_env (c : Config) : Nat → List Obs
  | 0 => pass_env c (homing_phase c 0)
  | n + 1 => pass_env c (homing_phase c (n + 1)) ++ homing_env c n

/-! ## `limits_soft_check` -/

/-- What a call of `protocol_execute_realtime()` in the feed-hold wait leaves in `sys.state`
and `sys.abort`. -/
structure RtObs where
  state : Nat
  abort : Bool

/-- The wait `do { protocol_execute_realtime(); if (sys.abort) { return; } }
while ( sys.state != STATE_IDLE );` of `limits_soft_check`.  Each call of
`protocol_execute_realtime` uses up one observation. -/
def soft_limit_wait (c : Config) : List RtObs → Sys → Run × Sys × List RtObs
  | [], s => (Run.starved, s, [])
  | o :: env, s =>
    let s := protocol_execute_realtime s
    let s := { s with state := o.state, abort := o.abort }
    if s.abort then (Run.returned, s, env)
    else if s.state ≠ c.STATE_IDLE then soft_limit_wait c env s
    else (Run.finished, s, env)

/-- Embedding of `limits_soft_check`; `violates` is the value returned by the external
`system_check_travel_limits(target)`.  The result is `Run.returned` for the `return` inside
the wait and `Run.finished` for the other ways out of the function. -/
def limits_soft_check (c : Config) (violates : Bool) (env : List RtObs) (s : Sys) :
    Run × Sys × List RtObs :=
  if violates then
    let s := { s with soft_limit := true }
    let r :=
      if s.state = c.STATE_CYCLE then
        soft_limit_wait c env (system_set_exec_state_flag c.EXEC_FEED_HOLD s)
      else (Run.finished, s, env)
    match r with
    | (Run.finished, s, env) =>
      let s := mc_reset s
      let s := system_set_exec_alarm c.EXEC_ALARM_SOFT_LIMIT s
      let s := protocol_execute_realtime s
      (Run.finished, s, env)
    | r => r
  else (Run.finished, s, env)

/-- Settings for concrete evaluation: the default homing settings of grbl 1.1, with 200 mm of
travel (stored negative) on every axis. -/
def st328 : Settings where
  homing_seek_rate := 500
  homing_feed_rate := 25
  homing_pulloff := 1
  max_travel := fun _ => -200
  homing_debounce_delay := 250

/-- An observation for concrete evaluation: the motion has ended (EXEC_CYCLE_STOP of
`cfg328`), home-status line low, no steps. -/
def obs_stop : Obs := { PINB := 0, sys_rt_exec_state := 0b00000100, steps := fun _ => 0 }

/-- An observation for concrete evaluation: home-status line (PINB bit 2) high, no realtime
flag, ten steps made on every axis. -/
def obs_home : Obs := { PINB := 0b00000100, sys_rt_exec_state := 0, steps := fun _ => 10 }

/-- A state for concrete evaluation: three axes at step counts 7, 8, 9, nothing pending. -/
def sys_xyz : Sys := { sys_position := [7, 8, 9] }

/-- An observation for concrete evaluation: the home-status input asserted while
EXEC_CYCLE_STOP (value of `cfg328`) is set. -/
def obs_home_stop : Obs :=
  { PINB := 0b00000100, sys_rt_exec_state := 0b00000100, steps := fun _ => 0 }

/-- Locals for concrete evaluation: the search approach of the X/Y group of `cfg328`, both
locks set. -/
def loc_xy_approach : Locals :=
  { approach := true, homing_rate := 500, axislock := 0b00001100, max_travel := 225,
    target := fun _ => 0 }

/-- Observations for concrete evaluation of a whole homing cycle with `cfg328`: four passes,
one observation for each group; the Z motions and the retreats end with EXEC_CYCLE_STOP, the
X/Y approaches with the home-status input. -/
def env_home : List Obs :=
  [obs_stop, obs_home, obs_stop, obs_stop, obs_stop, obs_home, obs_stop, obs_stop]

/-- A state for concrete evaluation: a cycle is running (STATE_CYCLE of `cfg328`). -/
def sys_cycle : Sys := { state := 0b00001000 }

/-- What `protocol_execute_realtime()` leaves while the cycle is still running. -/
def rt_cycle : RtObs := { state := 0b00001000, abort := false }

/-- What `protocol_execute_realtime()` leaves once the machine is idle. -/
def rt_idle : RtObs := { state := 0, abort := false }

/-- What `protocol_execute_realtime()` leaves when a reset has been processed. -/
def rt_abort : RtObs := { state := 0b00001000, abort := true }

/-- A state for concrete evaluation: as `sys_xyz`, with `sys.abort` set. -/
def sys_abort : Sys := { abort := true, sys_position := [7, 8, 9] }

/-- An observation for concrete evaluation: home-status line low, no realtime flag, ten steps
made on every axis. -/
def obs_idle : Obs := { PINB := 0, sys_rt_exec_state := 0, steps := fun _ => 10 }

/-- Locals for concrete evaluation: the search approach of the Z group of `cfg328`, lock
set. -/
def loc_z_approach : Locals :=
  { approach := true, homing_rate := 500, axislock := 0b00010000, max_travel := 225,
    target := fun _ => 0 }

/-- Observations for concrete evaluation of a homing cycle with `cfg328` that fails: the Z
approach and then the X/Y approach of the first pass end with EXEC_CYCLE_STOP; one more
observation is left over. -/
def env_fail : List Obs := [obs_stop, obs_stop, obs_home]

end Limits

namespace Spindle

/-! ## `spindle_control.c` -/

/-- Constants of `spindle_control.h`, which is outside the analysed sources. -/
structure Config where
  SPINDLE_STATE_DISABLE : Nat
  SPINDLE_STATE_CW : Nat

/-- Embedding of `spindle_get_state`, with the state of `bungard.c` that
`bel_get_spindle_enable` reads; the result is a `uint8_t`. -/
def spindle_get_state (c : Config) (s : Bungard.Bel) : Nat :=
  (if Bungard.bel_get_spindle_enable s then c.SPINDLE_STATE_CW
    else c.SPINDLE_STATE_DISABLE) % 256

/-- Embedding of `spindle_stop`. -/
def spindle_stop (s : Bungard.Bel) : Bungard.Bel :=
  Bungard.bel_set_spindle_enable false (Bungard.bel_set_spindle_brake true s)

/-- The constants of grbl 1.1: `SPINDLE_STATE_DISABLE` is 0 and `SPINDLE_STATE_CW` is
`bit(0)`. -/
def spindle_cfg : Config := { SPINDLE_STATE_DISABLE := 0, SPINDLE_STATE_CW := 1 }

/-- A state for concrete evaluation: cached `latch1` with bits 7, 6, 5, 2 and 0 set, spindle
off. -/
def bel_E5 : Bungard.Bel := { latch1 := 0xE5 }

end Spindle

/-! # Theorems: the latch bus -/

namespace Bungard

set_option maxRecDepth 1000000 in
/-- Exhaustive check over bytes: storing `(PORTB & 0xFC) | k` with `k < 4`. -/
theorem byte_portb_data : ∀ m : Fin 256, ∀ k : Fin 4,
    (((m.val &&& 0xFC) ||| k.val) % 256) &&& 0x3 = k.val ∧
    (((m.val &&& 0xFC) ||| k.val) % 256) &&& 0xDC = m.val &&& 0xDC ∧
    (((m.val &&& 0xFC) ||| k.val) % 256).testBit 5 = m.val.testBit 5 := by decide

set_option maxRecDepth 1000000 in
/-- Exhaustive check over bytes: storing `(PORTD & 0x3) | data << 2`. -/
theorem byte_portd_data : ∀ q : Fin 4, ∀ d : Fin 256,
    ((q.val ||| (d.val <<< 2)) % 256) &&& 0x3 = q.val ∧
    ((q.val ||| (d.val <<< 2)) % 256) >>> 2 = d.val &&& 0x3F := by decide

set_option maxRecDepth 1000000 in
/-- Exhaustive check over bytes: `PORTB |= 0x20` followed by `PORTB &= ~0x20`. -/
theorem byte_strobe : ∀ x : Fin 256,
    ((x.val ||| 0x20) % 256) &&& 0x3 = x.val &&& 0x3 ∧
    ((x.val ||| 0x20) % 256) &&& 0xDC = x.val &&& 0xDC ∧
    ((x.val ||| 0x20) % 256).testBit 5 = true ∧
    ((((x.val ||| 0x20) % 256) &&& (255 ^^^ 0x20)) % 256) &&& 0x3 = x.val &&& 0x3 ∧
    ((((x.val ||| 0x20) % 256) &&& (255 ^^^ 0x20)) % 256) &&& 0xDC = x.val &&& 0xDC ∧
    ((((x.val ||| 0x20) % 256) &&& (255 ^^^ 0x20)) % 256).testBit 5 = false := by decide

set_option maxRecDepth 1000000 in
/-- Exhaustive check over bytes: a byte is its two top bits and its six low bits. -/
theorem byte_split : ∀ d : Fin 256,
    d.val >>> 6 < 4 ∧ ((d.val >>> 6) <<< 6) ||| (d.val &&& 0x3F) = d.val := by decide

theorem and_3F_mod (d : Nat) : (d % 256) &&& 0x3F = d &&& 0x3F := by
  have h1 := Nat.and_pow_two_sub_one_eq_mod d 6
  have h2 := Nat.and_pow_two_sub_one_eq_mod (d % 256) 6
  norm_num at h1 h2
  omega

/-- The store `PORTB = (PORTB & 0xFC) | k` for a two-bit `k`, whatever PORTB held. -/
theorem portb_data_store (pb k : Nat) (hk : k < 4) :
    (((pb &&& 0xFC) ||| k) % 256) &&& 0x3 = k ∧
    portb_rest (((pb &&& 0xFC) ||| k) % 256) = portb_rest pb ∧
    strobe (((pb &&& 0xFC) ||| k) % 256) = strobe pb := by
  have hm : pb &&& 0xFC < 256 := by
    have := @Nat.and_le_right pb 0xFC
    omega
  have e : pb &&& 0xFC = (pb &&& 0xFC) &&& 0xFC := by rw [Nat.and_assoc]; rfl
  obtain ⟨h1, h2, h3⟩ := byte_portb_data ⟨pb &&& 0xFC, hm⟩ ⟨k, hk⟩
  simp only [← e] at h1 h2 h3
  refine ⟨h1, ?_, ?_⟩
  · unfold portb_rest
    rw [h2, Nat.and_assoc]; rfl
  · unfold strobe
    rw [h3, Nat.testBit_and]
    have : Nat.testBit 0xFC 5 = true := by decide
    simp [this]

/-- The store `PORTD = (PORTD & 0x3) | d << 2` for a byte `d`, whatever PORTD held. -/
theorem portd_data_store (pd d : Nat) (hd : d < 256) :
    portd_rest (((pd &&& 0x3) ||| (d <<< 2)) % 256) = portd_rest pd ∧
    (((pd &&& 0x3) ||| (d <<< 2)) % 256) >>> 2 = d &&& 0x3F := by
  have hq : pd &&& 0x3 < 4 := by
    have := @Nat.and_le_right pd 0x3
    omega
  obtain ⟨h1, h2⟩ := byte_portd_data ⟨pd &&& 0x3, hq⟩ ⟨d, hd⟩
  exact ⟨h1, h2⟩

/-- The bus byte after the four stores of a bus write whose first store put `x` in PORTB
and whose second store put `y` in PORTD. -/
theorem bus_after_strobe (x y : Nat) (hx : x < 256) :
    bus_byte ((((x ||| 0x20) % 256) &&& (255 ^^^ 0x20)) % 256) y = bus_byte x y := by
  obtain ⟨_, _, _, h, _, _⟩ := byte_strobe ⟨x, hx⟩
  simp only [bus_byte]
  simp only [] at h
  rw [h]

theorem bel_write_latch_bus_eq (s : Bel) (latch data : Nat) (hl : latch = 0 ∨ latch = 1) :
    bus (bel_write_latch latch data s) = ((latch ||| 0x2) <<< 6) ||| (data &&& 0x3F) := by
  have hd : data % 256 < 256 := Nat.mod_lt _ (by decide)
  obtain ⟨_, hD⟩ := portd_data_store s.PORTD (data % 256) hd
  have hk : (latch % 256 ||| 0x2) < 4 := by rcases hl with rfl | rfl <;> decide
  have hlm : latch % 256 = latch := by rcases hl with rfl | rfl <;> rfl
  obtain ⟨hB, _, _⟩ := portb_data_store s.PORTB (latch % 256 ||| 0x2) hk
  rw [← Nat.or_assoc] at hB
  show bus_byte _ _ = _
  simp only [bel_write_latch, set_PORTB, set_PORTD]
  rw [bus_after_strobe _ _ (Nat.mod_lt _ (by decide))]
  simp only [bus_byte]
  rw [hB, hD, and_3F_mod, hlm]


theorem new_events_cons5 (s s' : Bel) (a b c d e : Ev) (h : s'.trace = a :: b :: c :: d :: e :: s.trace) :
    new_events s s' = [a, b, c, d, e] := by
  unfold new_events
  rw [h]
  have : (a :: b :: c :: d :: e :: s.trace).length - s.trace.length = 5 := by
    simp only [List.length_cons]
    omega
  rw [this]
  simp

/-- Frame and strobe discipline of the four stores of a bus write. -/
theorem four_stores_ok (s s' : Bel) (k d : Nat) (ev : Ev) (hk : k < 4) (hd : d < 256)
    (hev : ∀ p q, ev ≠ Ev.store p q)
    (hB : s'.PORTB = (((((s.PORTB &&& 0xFC) ||| k) % 256 ||| 0x20) % 256) &&& (255 ^^^ 0x20)) % 256)
    (hD : s'.PORTD = ((s.PORTD &&& 0x3) ||| (d <<< 2)) % 256)
    (ht : s'.trace = ev ::
      Ev.store ((((((s.PORTB &&& 0xFC) ||| k) % 256 ||| 0x20) % 256) &&& (255 ^^^ 0x20)) % 256)
        (((s.PORTD &&& 0x3) ||| (d <<< 2)) % 256) ::
      Ev.store ((((s.PORTB &&& 0xFC) ||| k) % 256 ||| 0x20) % 256)
        (((s.PORTD &&& 0x3) ||| (d <<< 2)) % 256) ::
      Ev.store (((s.PORTB &&& 0xFC) ||| k) % 256) (((s.PORTD &&& 0x3) ||| (d <<< 2)) % 256) ::
      Ev.store (((s.PORTB &&& 0xFC) ||| k) % 256) s.PORTD :: s.trace) :
    bus_write_ok s s' := by
  obtain ⟨b1, b2, b3⟩ := portb_data_store s.PORTB k hk
  obtain ⟨d1, d2⟩ := portd_data_store s.PORTD d hd
  have hx : ((s.PORTB &&& 0xFC) ||| k) % 256 < 256 := Nat.mod_lt _ (by decide)
  obtain ⟨s1, s2, s3, s4, s5, s6⟩ := byte_strobe ⟨_, hx⟩
  simp only [] at s1 s2 s3 s4 s5 s6
  unfold bus_write_ok
  rw [new_events_cons5 s s' _ _ _ _ _ ht]
  cases ev with
  | store p q => exact absurd rfl (hev p q)
  | write_byte _ _ => 
    simp [stores, bus, hB, hD, portb_rest, portd_rest, strobe, bus_byte] at *
    simp [*]
  | write_latch _ _ _ => 
    simp [stores, bus, hB, hD, portb_rest, portd_rest, strobe, bus_byte] at *
    simp [*]


/-- C6: for every content of PORTB and PORTD, every data byte and latch id 0 or 1,
`bel_write_byte` and `bel_write_latch` make exactly four port stores that all leave PORTD
bits 0-1 and PORTB bits 2-4 and 6-7 as they were; the strobe (PORTB bit 5) keeps its level
during the two data stores, is driven high by the third store, when the data lines already
carry their final value, and is low after the fourth. -/
theorem bus_write_frame (s : Bel) (data latch : Nat) (hl : latch = 0 ∨ latch = 1) :
    bus_write_ok s (bel_write_byte data s) ∧ bus_write_ok s (bel_write_latch latch data s) := by
  have hd : data % 256 < 256 := Nat.mod_lt _ (by decide)
  constructor
  · exact four_stores_ok s _ ((data % 256) >>> 6) (data % 256) _
      (byte_split ⟨data % 256, hd⟩).1 hd (fun _ _ h => Ev.noConfusion h) rfl rfl rfl
  · have hk : (latch % 256 ||| 0x2) < 4 := by rcases hl with rfl | rfl <;> decide
    have e : (s.PORTB &&& 0xFC) ||| latch % 256 ||| 0x2
        = (s.PORTB &&& 0xFC) ||| (latch % 256 ||| 0x2) := Nat.or_assoc _ _ _
    refine four_stores_ok s _ (latch % 256 ||| 0x2) (data % 256)
      (Ev.write_latch (latch % 256) (data % 256) (bus (bel_write_latch latch data s))) hk hd
      (fun _ _ h => Ev.noConfusion h) ?_ rfl ?_
    · rw [← e]; rfl
    · rw [← e]; rfl

/-- The claim C6 with all frame bits set, data `0xA5` and latch 2 (id 1). -/
theorem bus_write_frame_witness :
    (1 = 0 ∨ 1 = 1) ∧
    bus_write_ok ({ PORTB := 0xDC, PORTD := 0x3 } : Bel)
      (bel_write_byte 0xA5 { PORTB := 0xDC, PORTD := 0x3 }) ∧
    bus_write_ok ({ PORTB := 0xDC, PORTD := 0x3 } : Bel)
      (bel_write_latch 1 0xA5 { PORTB := 0xDC, PORTD := 0x3 }) :=
  ⟨Or.inr rfl, bus_write_frame { PORTB := 0xDC, PORTD := 0x3 } 0xA5 1 (Or.inr rfl)⟩


set_option maxRecDepth 1000000 in
/-- Exhaustive check over 6-bit payloads: the select bits sit above the payload. -/
theorem byte_select : ∀ e : Fin 64,
    ((0x2 <<< 6) ||| e.val).testBit 7 = true ∧ ((0x2 <<< 6) ||| e.val).testBit 6 = false ∧
    ((0x2 <<< 6) ||| e.val) &&& 0x3F = e.val ∧ ((0x2 <<< 6) ||| e.val) < 256 ∧
    ((0x3 <<< 6) ||| e.val).testBit 7 = true ∧ ((0x3 <<< 6) ||| e.val).testBit 6 = true ∧
    ((0x3 <<< 6) ||| e.val) &&& 0x3F = e.val ∧ ((0x3 <<< 6) ||| e.val) < 256 ∧
    (e.val ||| 0x40).testBit 7 = false ∧ (e.val ||| 0x40).testBit 6 = true ∧
    (e.val ||| 0x40) &&& 0x3F = e.val ∧ (e.val ||| 0x40) < 256 ∧
    (e.val ||| 0).testBit 7 = false ∧ (e.val ||| 0).testBit 6 = false ∧
    (e.val ||| 0) &&& 0x3F = e.val ∧ (e.val ||| 0) < 256 := by decide

theorem and_3F_lt (d : Nat) : d &&& 0x3F < 64 := by
  have h1 := Nat.and_pow_two_sub_one_eq_mod d 6
  norm_num at h1
  omega

theorem and_3F_idem (d : Nat) : (d &&& 0x3F) &&& 0x3F = d &&& 0x3F := by
  rw [Nat.and_assoc]; rfl

/-- The six low bus bits after `bel_write_latch` are the six low bits of the data. -/
theorem bel_write_latch_payload (s : Bel) (latch data : Nat) (hl : latch = 0 ∨ latch = 1) :
    bus (bel_write_latch latch data s) &&& 0x3F = data &&& 0x3F := by
  rw [bel_write_latch_bus_eq s latch data hl]
  obtain ⟨_, _, a3, _, _, _, b3, _⟩ := byte_select ⟨data &&& 0x3F, and_3F_lt data⟩
  rcases hl with rfl | rfl
  · exact a3
  · exact b3

/-- C5: for latch id 0 or 1, `bel_write_latch(id, d)` leaves on the bus a byte with bit 7
(register select) set, bit 6 equal to the id and bits 5..0 equal to `d & 0x3F`, whatever the
ports held; bits 6-7 of `d` do not reach the bus: the bus byte is the one written for
`d & 0x3F`. -/
theorem bel_write_latch_bus (s : Bel) (latch data : Nat) (hl : latch = 0 ∨ latch = 1) :
    (bus (bel_write_latch latch data s)).testBit 7 = true ∧
    (bus (bel_write_latch latch data s)).testBit 6 = decide (latch = 1) ∧
    bus (bel_write_latch latch data s) &&& 0x3F = data &&& 0x3F ∧
    bus (bel_write_latch latch data s) < 256 ∧
    bus (bel_write_latch latch data s) = bus (bel_write_latch latch (data &&& 0x3F) s) := by
  rw [bel_write_latch_bus_eq s latch data hl, bel_write_latch_bus_eq s latch _ hl, and_3F_idem]
  obtain ⟨a1, a2, a3, a4, b1, b2, b3, b4, _⟩ := byte_select ⟨data &&& 0x3F, and_3F_lt data⟩
  rcases hl with rfl | rfl
  · exact ⟨a1, by simpa using a2, a3, a4, rfl⟩
  · exact ⟨b1, by simpa using b2, b3, b4, rfl⟩

/-- The claim C5 at latch 2 (id 1), payload `0xFF`, ports all ones. -/
theorem bel_write_latch_bus_witness :
    (1 = 0 ∨ 1 = 1) ∧
    (bus (bel_write_latch 1 0xFF { PORTB := 0xFF, PORTD := 0xFF })).testBit 7 = true ∧
    (bus (bel_write_latch 1 0xFF { PORTB := 0xFF, PORTD := 0xFF })).testBit 6 = decide (1 = 1) ∧
    bus (bel_write_latch 1 0xFF { PORTB := 0xFF, PORTD := 0xFF }) &&& 0x3F = 0xFF &&& 0x3F ∧
    bus (bel_write_latch 1 0xFF { PORTB := 0xFF, PORTD := 0xFF }) < 256 ∧
    bus (bel_write_latch 1 0xFF { PORTB := 0xFF, PORTD := 0xFF })
      = bus (bel_write_latch 1 (0xFF &&& 0x3F) { PORTB := 0xFF, PORTD := 0xFF }) :=
  ⟨Or.inr rfl, bel_write_latch_bus { PORTB := 0xFF, PORTD := 0xFF } 1 0xFF (Or.inr rfl)⟩

/-- The byte on the bus after `bel_write_byte(data)` is `data`, whatever the ports held. -/
theorem bel_write_byte_bus (s : Bel) (data : Nat) :
    bus (bel_write_byte data s) = data % 256 := by
  have hd : data % 256 < 256 := Nat.mod_lt _ (by decide)
  obtain ⟨hk, hsplit⟩ := byte_split ⟨data % 256, hd⟩
  obtain ⟨_, hD⟩ := portd_data_store s.PORTD (data % 256) hd
  obtain ⟨hB, _, _⟩ := portb_data_store s.PORTB ((data % 256) >>> 6) hk
  show bus_byte _ _ = _
  simp only [bel_write_byte, set_PORTB, set_PORTD]
  rw [bus_after_strobe _ _ (Nat.mod_lt _ (by decide))]
  simp only [bus_byte]
  rw [hB, hD]
  exact hsplit

theorem run_append (ops : List Op) (op : Op) (s : Bel) :
    run (ops ++ [op]) s = op.apply (run ops s) := by
  simp [run, List.foldl_append]

theorem last_override_append (ops : List Op) (op : Op) :
    last_override (ops ++ [op]) = match op with
      | Op.steppers_limit_override_enable e => e
      | _ => last_override ops := by
  simp [last_override, List.foldl_append]

theorem bel_write_latch_flag (l d : Nat) (s : Bel) :
    (bel_write_latch l d s).stepper_limits_override_flag = s.stepper_limits_override_flag := rfl

theorem bel_set_steppers_enable_flag (e : Bool) (s : Bel) :
    (bel_set_steppers_enable e s).stepper_limits_override_flag
      = s.stepper_limits_override_flag := by
  cases e <;> rfl

theorem bel_set_spindle_enable_flag (e : Bool) (s : Bel) :
    (bel_set_spindle_enable e s).stepper_limits_override_flag
      = s.stepper_limits_override_flag := by
  unfold bel_set_spindle_enable
  dsimp only
  split <;> split <;> rfl

theorem bel_set_spindle_speed_flag (v : Nat) (s : Bel) :
    (bel_set_spindle_speed v s).stepper_limits_override_flag
      = s.stepper_limits_override_flag := by
  unfold bel_set_spindle_speed
  dsimp only
  split <;> rfl

/-- The override flag is 0x40 or 0 according to the last call of its setter. -/
theorem run_override_flag (ops : List Op) (s0 : Bel) (h0 : s0.stepper_limits_override_flag = 0) :
    (run ops s0).stepper_limits_override_flag = if last_override ops then 0x40 else 0 := by
  induction ops using List.reverseRecOn with
  | nil => simpa [run, last_override] using h0
  | append_singleton ops op ih =>
    rw [run_append, last_override_append]
    cases op with
    | steppers_enable e => exact (bel_set_steppers_enable_flag e _).trans ih
    | steppers_step d => exact ih
    | steppers_limit_override_enable e =>
      cases e <;> simp [Op.apply, bel_set_steppers_limit_override_enable]
    | spindle_enable e => exact (bel_set_spindle_enable_flag e _).trans ih
    | spindle_speed v => exact (bel_set_spindle_speed_flag v _).trans ih
    | spindle_brake e => exact ih

/-- C4: after any sequence of interface calls from a state whose override flag is 0 (as at
power-on), whatever the ports hold, `bel_steppers_step(d)` leaves on the bus a byte whose
bit 7 (register select) is 0, whose bit 6 is the argument of the last call of
`bel_set_steppers_limit_override_enable` (0 when there was none) and whose bits 0-5 are
`d & 0x3F`. -/
theorem bel_steppers_step_bus (ops : List Op) (s0 : Bel) (d : Nat)
    (h0 : s0.stepper_limits_override_flag = 0) :
    (bus (bel_steppers_step d (run ops s0))).testBit 7 = false ∧
    (bus (bel_steppers_step d (run ops s0))).testBit 6 = last_override ops ∧
    bus (bel_steppers_step d (run ops s0)) &&& 0x3F = d &&& 0x3F := by
  have hf := run_override_flag ops s0 h0
  have hb : bus (bel_steppers_step d (run ops s0))
      = (((d % 256) &&& 0x3F) ||| (run ops s0).stepper_limits_override_flag) % 256 :=
    bel_write_byte_bus _ _
  rw [hb, hf, and_3F_mod]
  obtain ⟨_, _, _, _, _, _, _, _, a1, a2, a3, a4, b1, b2, b3, b4⟩ :=
    byte_select ⟨d &&& 0x3F, and_3F_lt d⟩
  simp only [] at a1 a2 a3 a4 b1 b2 b3 b4
  cases hlo : last_override ops
  · simp only [Bool.false_eq_true, if_false, Nat.mod_eq_of_lt b4]
    exact ⟨b1, b2, b3⟩
  · simp only [if_true, Nat.mod_eq_of_lt a4]
    exact ⟨a1, a2, a3⟩


/-- The claim C4 at power-on followed by an override enable and a spindle command. -/
theorem bel_steppers_step_bus_witness :
    power_on.stepper_limits_override_flag = 0 ∧
    (bus (bel_steppers_step 0xFF
      (run [Op.steppers_limit_override_enable true, Op.spindle_speed 5] power_on))).testBit 7
        = false ∧
    (bus (bel_steppers_step 0xFF
      (run [Op.steppers_limit_override_enable true, Op.spindle_speed 5] power_on))).testBit 6
        = last_override [Op.steppers_limit_override_enable true, Op.spindle_speed 5] ∧
    bus (bel_steppers_step 0xFF
      (run [Op.steppers_limit_override_enable true, Op.spindle_speed 5] power_on)) &&& 0x3F
        = 0xFF &&& 0x3F :=
  ⟨rfl, bel_steppers_step_bus
    [Op.steppers_limit_override_enable true, Op.spindle_speed 5] power_on 0xFF rfl⟩

theorem new_events_append (s s' : Bel) (l : List Ev) (h : s'.trace = l ++ s.trace) :
    new_events s s' = l := by
  unfold new_events
  rw [h, List.length_append, Nat.add_sub_cancel, List.take_left']
  rfl

/-- The events added by `bel_write_latch`: the call record on top of four stores. -/
theorem bel_write_latch_trace (l d : Nat) (s : Bel) :
    ∃ a1 a2 a3 a4 a5 a6 a7 a8 : Nat, (bel_write_latch l d s).trace =
      [Ev.write_latch (l % 256) (d % 256) (bus (bel_write_latch l d s)),
        Ev.store a1 a2, Ev.store a3 a4, Ev.store a5 a6, Ev.store a7 a8] ++ s.trace :=
  ⟨_, _, _, _, _, _, _, _, rfl⟩

theorem latch_writes_append (a b : List Ev) :
    latch_writes (a ++ b) = latch_writes b ++ latch_writes a := by
  simp [latch_writes, List.reverse_append, List.filterMap_append]

theorem latch_writes_write (l d c a1 a2 a3 a4 a5 a6 a7 a8 : Nat) :
    latch_writes [Ev.write_latch l d c, Ev.store a1 a2, Ev.store a3 a4, Ev.store a5 a6,
      Ev.store a7 a8] = [(l, d)] := by
  simp [latch_writes]

set_option maxRecDepth 1000000 in
/-- Exhaustive check over bytes: the two updates of `latch2` in `bel_set_steppers_enable`. -/
theorem byte_steppers_enable : ∀ m : Fin 256,
    ((((m.val &&& (255 ^^^ 0xC)) % 256) ||| 0x10) % 256) &&& 0xC = 0 ∧
    ((((m.val &&& (255 ^^^ 0xC)) % 256) ||| 0x10) % 256).testBit 4 = true ∧
    ((((m.val &&& (255 ^^^ 0xC)) % 256) ||| 0x10) % 256) &&& 0xE3 = m.val &&& 0xE3 ∧
    ((((m.val &&& (255 ^^^ 0xC)) % 256) ||| 0x10) % 256) < 256 ∧
    ((((m.val &&& (255 ^^^ 0xC)) % 256) &&& (255 ^^^ 0x10)) % 256) &&& 0xC = 0 ∧
    ((((m.val &&& (255 ^^^ 0xC)) % 256) &&& (255 ^^^ 0x10)) % 256).testBit 4 = false ∧
    ((((m.val &&& (255 ^^^ 0xC)) % 256) &&& (255 ^^^ 0x10)) % 256) &&& 0xE3 = m.val &&& 0xE3 ∧
    ((((m.val &&& (255 ^^^ 0xC)) % 256) &&& (255 ^^^ 0x10)) % 256) < 256 := by decide

set_option maxRecDepth 1000000 in
/-- Exhaustive check over bytes: `bel_set_steppers_enable` keeps a `latch2` it has produced. -/
theorem byte_steppers_enable_idem : ∀ x : Fin 256, x.val &&& 0xC = 0 →
    (x.val.testBit 4 = true → (((x.val &&& (255 ^^^ 0xC)) % 256) ||| 0x10) % 256 = x.val) ∧
    (x.val.testBit 4 = false →
      (((x.val &&& (255 ^^^ 0xC)) % 256) &&& (255 ^^^ 0x10)) % 256 = x.val) := by decide

/-- The cached `latch2` after `bel_set_steppers_enable`. -/
theorem bel_set_steppers_enable_latch2 (s : Bel) (b : Bool) :
    (bel_set_steppers_enable b s).latch2 &&& BEL_STEPPERS_MICROSTEP_MASK = 0 ∧
    (bel_set_steppers_enable b s).latch2.testBit 4 = b ∧
    (bel_set_steppers_enable b s).latch2 &&& 0xE3 = s.latch2 &&& 0xE3 ∧
    (bel_set_steppers_enable b s).latch2 < 256 := by
  have hm : s.latch2 &&& (255 ^^^ 0xC) < 256 := by
    have := @Nat.and_le_right s.latch2 (255 ^^^ 0xC)
    have e : (255 ^^^ 0xC) = 243 := by decide
    omega
  have e : s.latch2 &&& (255 ^^^ 0xC) = (s.latch2 &&& (255 ^^^ 0xC)) &&& (255 ^^^ 0xC) := by
    rw [Nat.and_assoc]; rfl
  have e2 : (s.latch2 &&& (255 ^^^ 0xC)) &&& 0xE3 = s.latch2 &&& 0xE3 := by
    rw [Nat.and_assoc]; rfl
  obtain ⟨a1, a2, a3, a4, b1, b2, b3, b4⟩ := byte_steppers_enable ⟨_, hm⟩
  simp only [← e, e2] at a1 a2 a3 a4 b1 b2 b3 b4
  cases b
  · exact ⟨b1, b2, b3, b4⟩
  · exact ⟨a1, a2, a3, a4⟩

/-- C3: `bel_set_steppers_enable(b)` clears bits 2-3 of the cached `latch2`, makes bit 4 equal
to `b`, leaves bits 0, 1, 5, 6, 7 of `latch2`, `latch1` and the override flag as they were, and
calls `bel_write_latch` exactly once, for latch 2 with the new cached value (whose low six
bits then are on the bus behind the select bits `11`); a second call with the same `b` calls
it once more with the same value, two writes in all. -/
theorem bel_set_steppers_enable_effect (s : Bel) (b : Bool) :
    (bel_set_steppers_enable b s).latch2 &&& BEL_STEPPERS_MICROSTEP_MASK = 0 ∧
    (bel_set_steppers_enable b s).latch2.testBit 4 = b ∧
    (bel_set_steppers_enable b s).latch2 &&& 0xE3 = s.latch2 &&& 0xE3 ∧
    (bel_set_steppers_enable b s).latch1 = s.latch1 ∧
    (bel_set_steppers_enable b s).stepper_limits_override_flag
      = s.stepper_limits_override_flag ∧
    latch_writes (new_events s (bel_set_steppers_enable b s))
      = [(BEL_LATCH2, (bel_set_steppers_enable b s).latch2)] ∧
    bus (bel_set_steppers_enable b s)
      = 0xC0 ||| ((bel_set_steppers_enable b s).latch2 &&& 0x3F) ∧
    latch_writes (new_events s (bel_set_steppers_enable b (bel_set_steppers_enable b s)))
      = [(BEL_LATCH2, (bel_set_steppers_enable b s).latch2),
         (BEL_LATCH2, (bel_set_steppers_enable b s).latch2)] := by
  obtain ⟨h1, h2, h3, h4⟩ := bel_set_steppers_enable_latch2 s b
  have key : ∀ t : Bel, latch_writes (new_events t (bel_set_steppers_enable b t))
        = [(BEL_LATCH2, (bel_set_steppers_enable b t).latch2)] ∧
      ∃ l, (bel_set_steppers_enable b t).trace = l ++ t.trace ∧
        new_events t (bel_set_steppers_enable b t) = l := by
    intro t
    have h4t := (bel_set_steppers_enable_latch2 t b).2.2.2
    have hw : bel_set_steppers_enable b t = bel_write_latch BEL_LATCH2
        (bel_set_steppers_enable b t).latch2
        { t with latch2 := (bel_set_steppers_enable b t).latch2 } := by
      cases b <;> rfl
    obtain ⟨a1, a2, a3, a4, a5, a6, a7, a8, ht⟩ := bel_write_latch_trace BEL_LATCH2
        (bel_set_steppers_enable b t).latch2
        { t with latch2 := (bel_set_steppers_enable b t).latch2 }
    rw [← hw] at ht
    rw [Nat.mod_eq_of_lt h4t] at ht
    have hne := new_events_append t _ _ ht
    exact ⟨by rw [hne, latch_writes_write]; rfl, _, ht, hne⟩
  refine ⟨h1, h2, h3, by cases b <;> rfl, bel_set_steppers_enable_flag b s, ?_, ?_, ?_⟩
  · exact (key s).1
  · have hb : bus (bel_set_steppers_enable b s)
        = bus (bel_write_latch 1 (bel_set_steppers_enable b s).latch2 s) := by
      cases b <;> rfl
    rw [hb, bel_write_latch_bus_eq _ _ _ (Or.inr rfl)]
    rfl
  · obtain ⟨hw1, l1, ht1, hn1⟩ := key s
    obtain ⟨hw2, l2, ht2, hn2⟩ := key (bel_set_steppers_enable b s)
    have hidem : (bel_set_steppers_enable b (bel_set_steppers_enable b s)).latch2
        = (bel_set_steppers_enable b s).latch2 := by
      obtain ⟨i1, i0⟩ := byte_steppers_enable_idem ⟨_, h4⟩ h1
      cases b
      · exact i0 h2
      · exact i1 h2
    rw [ht1, ← List.append_assoc] at ht2
    rw [new_events_append s _ _ ht2, latch_writes_append, ← hn1, ← hn2, hw1, hw2, hidem]
    rfl


/-- C2, counterexample: at power-on the spindle-enable bit is already 0, and two calls of
`bel_set_spindle_enable(false)` issue no call of `bel_write_latch` at all, not one. -/
theorem bel_set_spindle_enable_twice_counterexample :
    (latch_writes (new_events power_on
      (bel_set_spindle_enable false (bel_set_spindle_enable false power_on)))).length = 0 ∧
    (latch_writes (new_events power_on
      (bel_set_spindle_enable false (bel_set_spindle_enable false power_on)))).length ≠ 1 := by
  decide

set_option maxRecDepth 1000000 in
/-- Exhaustive check over bytes: the update of `latch1` in `bel_set_spindle_enable`. -/
theorem byte_spindle_enable : ∀ x : Fin 256,
    ((x.val ||| 0x10) % 256 = x.val ↔ x.val &&& 0x10 ≠ 0) ∧
    ((x.val &&& (255 ^^^ 0x10)) % 256 = x.val ↔ x.val &&& 0x10 = 0) ∧
    (((x.val ||| 0x10) % 256) ||| 0x10) % 256 = (x.val ||| 0x10) % 256 ∧
    (((x.val &&& (255 ^^^ 0x10)) % 256) &&& (255 ^^^ 0x10)) % 256
      = (x.val &&& (255 ^^^ 0x10)) % 256 := by decide

/-- Amended C2: for a byte in the cached `latch1`, two calls of `bel_set_spindle_enable(b)` in
a row issue exactly one call of `bel_write_latch` (for latch 1, with the new cached value)
when the cached enable bit differs from `b` before the first call, and none when it already
equals `b`; the second call never writes and leaves the state as the first call left it. -/
theorem bel_set_spindle_enable_twice (s : Bel) (b : Bool) (h : s.latch1 < 256) :
    latch_writes (new_events s (bel_set_spindle_enable b (bel_set_spindle_enable b s)))
      = (if bel_get_spindle_enable s = b then []
         else [(BEL_LATCH1, (bel_set_spindle_enable b s).latch1)]) ∧
    bel_set_spindle_enable b (bel_set_spindle_enable b s) = bel_set_spindle_enable b s := by
  obtain ⟨t1, t0, i1, i0⟩ := byte_spindle_enable ⟨s.latch1, h⟩
  have e239 : (255 ^^^ 0x10 : Nat) = 239 := by decide
  simp only [e239] at t1 t0 i1 i0
  have hnil : new_events s s = [] := new_events_append s s [] rfl
  cases b
  · by_cases hc : (s.latch1 &&& 239) % 256 = s.latch1
    · have e1 : bel_set_spindle_enable false s = s := by
        simp [bel_set_spindle_enable, BEL_SPINDLE_ENABLE_MASK, hc]
      have hg : bel_get_spindle_enable s = false := by
        simp [bel_get_spindle_enable, BEL_SPINDLE_ENABLE_MASK, t0.mp hc]
      rw [e1, e1, hnil, hg]
      simp [latch_writes]
    · have e1 : bel_set_spindle_enable false s = bel_write_latch BEL_LATCH1
          ((s.latch1 &&& 239) % 256)
          { s with latch1 := (s.latch1 &&& 239) % 256 } := by
        simp [bel_set_spindle_enable, BEL_SPINDLE_ENABLE_MASK, hc]
      have hl : (bel_set_spindle_enable false s).latch1 = (s.latch1 &&& 239) % 256 := by
        rw [e1]; rfl
      have e2 : bel_set_spindle_enable false (bel_set_spindle_enable false s)
          = bel_set_spindle_enable false s := by
        generalize bel_set_spindle_enable false s = s1 at hl ⊢
        simp [bel_set_spindle_enable, BEL_SPINDLE_ENABLE_MASK, hl, i0]
      have hg : bel_get_spindle_enable s = true := by
        simp [bel_get_spindle_enable, BEL_SPINDLE_ENABLE_MASK]
        exact fun h0 => hc (t0.mpr h0)
      obtain ⟨a1, a2, a3, a4, a5, a6, a7, a8, ht⟩ := bel_write_latch_trace BEL_LATCH1
          ((s.latch1 &&& 239) % 256)
          { s with latch1 := (s.latch1 &&& 239) % 256 }
      rw [← e1] at ht
      rw [e2, new_events_append s _ _ ht, latch_writes_write, hg, hl]
      simp [BEL_LATCH1]
  · by_cases hc : (s.latch1 ||| 0x10) % 256 = s.latch1
    · have e1 : bel_set_spindle_enable true s = s := by
        simp [bel_set_spindle_enable, BEL_SPINDLE_ENABLE_MASK, hc]
      have hg : bel_get_spindle_enable s = true := by
        simp [bel_get_spindle_enable, BEL_SPINDLE_ENABLE_MASK]
        exact t1.mp hc
      rw [e1, e1, hnil, hg]
      simp [latch_writes]
    · have e1 : bel_set_spindle_enable true s = bel_write_latch BEL_LATCH1
          ((s.latch1 ||| 0x10) % 256) { s with latch1 := (s.latch1 ||| 0x10) % 256 } := by
        simp [bel_set_spindle_enable, BEL_SPINDLE_ENABLE_MASK, hc]
      have hl : (bel_set_spindle_enable true s).latch1 = (s.latch1 ||| 0x10) % 256 := by
        rw [e1]; rfl
      have e2 : bel_set_spindle_enable true (bel_set_spindle_enable true s)
          = bel_set_spindle_enable true s := by
        generalize bel_set_spindle_enable true s = s1 at hl ⊢
        simp [bel_set_spindle_enable, BEL_SPINDLE_ENABLE_MASK, hl, i1]
      have hg : bel_get_spindle_enable s = false := by
        simp [bel_get_spindle_enable, BEL_SPINDLE_ENABLE_MASK]
        by_contra h0
        exact hc (t1.mpr h0)
      obtain ⟨a1, a2, a3, a4, a5, a6, a7, a8, ht⟩ := bel_write_latch_trace BEL_LATCH1
          ((s.latch1 ||| 0x10) % 256) { s with latch1 := (s.latch1 ||| 0x10) % 256 }
      rw [← e1] at ht
      rw [e2, new_events_append s _ _ ht, latch_writes_write, hg, hl]
      simp [BEL_LATCH1]


/-- The claim C2 as amended, from a cached `latch1` of 5 (spindle off) with `b = true`. -/
theorem bel_set_spindle_enable_twice_witness :
    ({ latch1 := 5 } : Bel).latch1 < 256 ∧
    latch_writes (new_events { latch1 := 5 }
        (bel_set_spindle_enable true (bel_set_spindle_enable true { latch1 := 5 })))
      = (if bel_get_spindle_enable { latch1 := 5 } = true then []
         else [(BEL_LATCH1, (bel_set_spindle_enable true { latch1 := 5 }).latch1)]) ∧
    bel_set_spindle_enable true (bel_set_spindle_enable true { latch1 := 5 })
      = bel_set_spindle_enable true { latch1 := 5 } :=
  ⟨by decide, bel_set_spindle_enable_twice { latch1 := 5 } true (by decide)⟩

/-- The payload seen last for latch `id` after a `bel_write_latch` of a 6-bit value. -/
theorem last_latch_payload_write (s : Bel) (l v id : Nat) (hl : l = 0 ∨ l = 1) (hv : v < 64) :
    last_latch_payload id (bel_write_latch l v s).trace
      = if l = id then some v else last_latch_payload id s.trace := by
  obtain ⟨a1, a2, a3, a4, a5, a6, a7, a8, ht⟩ := bel_write_latch_trace l v s
  have hb := bel_write_latch_payload s l v hl
  have hv' : v &&& 0x3F = v := by
    have h1 := Nat.and_pow_two_sub_one_eq_mod v 6
    norm_num at h1
    omega
  have hlm : l % 256 = l := by rcases hl with rfl | rfl <;> rfl
  rw [ht, hlm]
  simp [last_latch_payload, hb, hv']

theorem last_latch_payload_write_byte (s : Bel) (d id : Nat) :
    last_latch_payload id (bel_write_byte d s).trace = last_latch_payload id s.trace := rfl

set_option maxRecDepth 1000000 in
/-- Exhaustive check over 6-bit values: the setters keep the cached latches within six bits. -/
theorem six_bit_latches : ∀ x : Fin 64,
    (x.val ||| 0x10) % 256 < 64 ∧ (x.val &&& (255 ^^^ 0x10)) % 256 < 64 ∧
    (((x.val &&& (255 ^^^ 0xC)) % 256) ||| 0x10) % 256 < 64 ∧
    (((x.val &&& (255 ^^^ 0xC)) % 256) &&& (255 ^^^ 0x10)) % 256 < 64 ∧
    ∀ w : Fin 16, (((x.val &&& (255 ^^^ 0xF)) % 256) ||| (w.val ||| 0x10)) % 256 < 64 := by
  decide

theorem and_0F_lt (d : Nat) : d &&& 0xF < 16 := by
  have h1 := Nat.and_pow_two_sub_one_eq_mod d 4
  norm_num at h1
  omega

/-- One call keeps the cache invariant: both cached latches fit six bits and equal the payload
last written to their latch, if any. -/
theorem latch_cache_step (op : Op) (s : Bel) (h1 : s.latch1 < 64) (h2 : s.latch2 < 64)
    (c1 : ∀ p, last_latch_payload BEL_LATCH1 s.trace = some p → s.latch1 = p)
    (c2 : ∀ p, last_latch_payload BEL_LATCH2 s.trace = some p → s.latch2 = p) :
    (op.apply s).latch1 < 64 ∧ (op.apply s).latch2 < 64 ∧
    (∀ p, last_latch_payload BEL_LATCH1 (op.apply s).trace = some p → (op.apply s).latch1 = p) ∧
    (∀ p, last_latch_payload BEL_LATCH2 (op.apply s).trace = some p → (op.apply s).latch2 = p) := by
  obtain ⟨k1, k2, k3, k4, _⟩ := six_bit_latches ⟨s.latch1, h1⟩
  obtain ⟨_, _, m3, m4, _⟩ := six_bit_latches ⟨s.latch2, h2⟩
  simp only [] at k1 k2 m3 m4
  -- a write of a six-bit value `v` to latch 1, with the cache set to `v`
  have w1 : ∀ v, v < 64 → 
      (bel_write_latch BEL_LATCH1 v { s with latch1 := v }).latch1 < 64 ∧
      (bel_write_latch BEL_LATCH1 v { s with latch1 := v }).latch2 < 64 ∧
      (∀ p, last_latch_payload BEL_LATCH1
        (bel_write_latch BEL_LATCH1 v { s with latch1 := v }).trace = some p →
        (bel_write_latch BEL_LATCH1 v { s with latch1 := v }).latch1 = p) ∧
      (∀ p, last_latch_payload BEL_LATCH2
        (bel_write_latch BEL_LATCH1 v { s with latch1 := v }).trace = some p →
        (bel_write_latch BEL_LATCH1 v { s with latch1 := v }).latch2 = p) := by
    intro v hv
    refine ⟨hv, h2, ?_, ?_⟩
    · intro p hp
      rw [last_latch_payload_write _ BEL_LATCH1 _ _ (Or.inl rfl) hv] at hp
      simpa using hp
    · intro p hp
      rw [last_latch_payload_write _ BEL_LATCH1 _ _ (Or.inl rfl) hv] at hp
      exact c2 p (by simpa [BEL_LATCH1, BEL_LATCH2] using hp)
  have w2 : ∀ v, v < 64 → 
      (bel_write_latch BEL_LATCH2 v { s with latch2 := v }).latch1 < 64 ∧
      (bel_write_latch BEL_LATCH2 v { s with latch2 := v }).latch2 < 64 ∧
      (∀ p, last_latch_payload BEL_LATCH1
        (bel_write_latch BEL_LATCH2 v { s with latch2 := v }).trace = some p →
        (bel_write_latch BEL_LATCH2 v { s with latch2 := v }).latch1 = p) ∧
      (∀ p, last_latch_payload BEL_LATCH2
        (bel_write_latch BEL_LATCH2 v { s with latch2 := v }).trace = some p →
        (bel_write_latch BEL_LATCH2 v { s with latch2 := v }).latch2 = p) := by
    intro v hv
    refine ⟨h1, hv, ?_, ?_⟩
    · intro p hp
      rw [last_latch_payload_write _ BEL_LATCH2 _ _ (Or.inr rfl) hv] at hp
      exact c1 p (by simpa [BEL_LATCH1, BEL_LATCH2] using hp)
    · intro p hp
      rw [last_latch_payload_write _ BEL_LATCH2 _ _ (Or.inr rfl) hv] at hp
      simpa using hp
  cases op with
  | steppers_enable e =>
    cases e
    · exact w2 _ m4
    · exact w2 _ m3
  | steppers_step d => exact ⟨h1, h2, c1, c2⟩
  | steppers_limit_override_enable e => cases e <;> exact ⟨h1, h2, c1, c2⟩
  | spindle_enable e =>
    simp only [Op.apply, bel_set_spindle_enable]
    cases e
    · simp only [Bool.false_eq_true, if_false]
      split
      · exact w1 _ k2
      · exact ⟨h1, h2, c1, c2⟩
    · simp only [if_true]
      split
      · exact w1 _ k1
      · exact ⟨h1, h2, c1, c2⟩
  | spindle_speed v =>
    obtain ⟨_, _, _, _, k5⟩ := six_bit_latches ⟨s.latch1, h1⟩
    have k := k5 ⟨(v % 256) &&& 0xF, and_0F_lt _⟩
    simp only [] at k
    simp only [Op.apply, bel_set_spindle_speed]
    split
    · exact w1 _ k
    · exact ⟨h1, h2, c1, c2⟩
  | spindle_brake e => exact ⟨h1, h2, c1, c2⟩

/-- C1: in every state reached from a power-on state (`latch1 = latch2 = 0`, nothing written
yet) by any sequence of calls of the setters (and of the step output), for each latch that has
been written at least once the cached value equals the 6-bit payload that the most recent
`bel_write_latch` for that latch left on the bus. -/
theorem latch_cache_invariant (ops : List Op) (s0 : Bel) (h1 : s0.latch1 = 0)
    (h2 : s0.latch2 = 0) (ht : s0.trace = []) :
    (∀ p, last_latch_payload BEL_LATCH1 (run ops s0).trace = some p → (run ops s0).latch1 = p) ∧
    (∀ p, last_latch_payload BEL_LATCH2 (run ops s0).trace = some p → (run ops s0).latch2 = p) := by
  have inv : (run ops s0).latch1 < 64 ∧ (run ops s0).latch2 < 64 ∧
      (∀ p, last_latch_payload BEL_LATCH1 (run ops s0).trace = some p →
        (run ops s0).latch1 = p) ∧
      (∀ p, last_latch_payload BEL_LATCH2 (run ops s0).trace = some p →
        (run ops s0).latch2 = p) := by
    induction ops using List.reverseRecOn with
    | nil =>
      refine ⟨by simp [run, h1], by simp [run, h2], ?_, ?_⟩ <;>
        simp [run, ht, last_latch_payload]
    | append_singleton ops op ih =>
      rw [run_append]
      exact latch_cache_step op _ ih.1 ih.2.1 ih.2.2.1 ih.2.2.2
  exact ⟨inv.2.2.1, inv.2.2.2⟩


/-- The claim C1 at power-on followed by a speed, a stepper-enable and a spindle-off call. -/
theorem latch_cache_invariant_witness :
    power_on.latch1 = 0 ∧ power_on.latch2 = 0 ∧ power_on.trace = [] ∧
    (∀ p, last_latch_payload BEL_LATCH1
      (run [Op.spindle_speed 7, Op.steppers_enable true, Op.spindle_enable false] power_on).trace
        = some p →
      (run [Op.spindle_speed 7, Op.steppers_enable true, Op.spindle_enable false] power_on).latch1
        = p) ∧
    (∀ p, last_latch_payload BEL_LATCH2
      (run [Op.spindle_speed 7, Op.steppers_enable true, Op.spindle_enable false] power_on).trace
        = some p →
      (run [Op.spindle_speed 7, Op.steppers_enable true, Op.spindle_enable false] power_on).latch2
        = p) :=
  ⟨rfl, rfl, rfl, latch_cache_invariant
    [Op.spindle_speed 7, Op.steppers_enable true, Op.spindle_enable false] power_on rfl rfl rfl⟩

end Bungard

/-! # Theorems: limit sensing and homing -/

namespace Limits

/-- The axis loop of `limits_get_state`: bit `j` of the result is set exactly for an axis
`j < n` whose pin mask meets `pin`. -/
theorem axis_loop_testBit (pin : Nat) (m : Nat → Nat) (n : Nat) (hn : n ≤ 8) (j : Nat) :
    ((List.range n).foldl
      (fun limit_state idx =>
        if pin &&& m idx ≠ 0 then (limit_state ||| (1 <<< idx)) % 256 else limit_state)
      0).testBit j = decide (j < n ∧ pin &&& m j ≠ 0) := by
  induction n with
  | zero => simp
  | succ n ih =>
    have ih := ih (by omega)
    rw [List.range_succ, List.foldl_append]
    simp only [List.foldl_cons, List.foldl_nil]
    by_cases hc : pin &&& m n ≠ 0
    · rw [if_pos hc, Nat.testBit_mod_two_pow _ 8 j, Nat.testBit_or, ih, Nat.one_shiftLeft,
        Nat.testBit_two_pow]
      by_cases hj : j < n
      · have h8 : j < 8 := by omega
        have h1 : j < n + 1 := by omega
        have h2 : n ≠ j := by omega
        simp [hj, h8, h1, h2]
      · by_cases hjn : n = j
        · subst hjn
          have h8 : n < 8 := by omega
          simpa [h8] using hc
        · have h1 : ¬ j < n + 1 := by omega
          simp [hj, hjn, h1]
    · rw [if_neg hc, ih]
      by_cases hjn : j = n
      · subst hjn
        simp [hc]
      · have h1 : j < n + 1 ↔ j < n := by omega
        simp [h1]

/-- The value of `pin` as one expression, for byte-sized masks. -/
theorem limits_pin_eq (c : Config) (raw flags : Nat) (hM : c.LIMIT_MASK < 256)
    (hI : c.INVERT_LIMIT_PIN_MASK.getD 0 < 256) :
    limits_pin c raw flags = (raw &&& c.LIMIT_MASK) ^^^ c.INVERT_LIMIT_PIN_MASK.getD 0 ^^^
      (if flags &&& c.BITFLAG_INVERT_LIMIT_PINS = 0 then c.LIMIT_MASK else 0) := by
  have h1 : raw &&& c.LIMIT_MASK < 256 := by
    have := @Nat.and_le_right raw c.LIMIT_MASK
    omega
  have h2 : (raw &&& c.LIMIT_MASK) ^^^ c.INVERT_LIMIT_PIN_MASK.getD 0 < 256 :=
    @Nat.xor_lt_two_pow _ _ 8 h1 hI
  have h3 : (raw &&& c.LIMIT_MASK) ^^^ c.INVERT_LIMIT_PIN_MASK.getD 0 ^^^ c.LIMIT_MASK < 256 :=
    @Nat.xor_lt_two_pow _ _ 8 h2 hM
  unfold limits_pin bit_isfalse
  cases hi : c.INVERT_LIMIT_PIN_MASK with
  | none =>
    rw [hi] at h2 h3
    simp only [Option.getD_none, Nat.xor_zero] at h2 h3 ⊢
    by_cases hf : flags &&& c.BITFLAG_INVERT_LIMIT_PINS = 0
    · simp only [hf, beq_self_eq_true, if_true]
      rw [Nat.mod_eq_of_lt h1, Nat.mod_eq_of_lt h3]
    · have hb : (flags &&& c.BITFLAG_INVERT_LIMIT_PINS == 0) = false := by simpa using hf
      simp only [hf, hb, Bool.false_eq_true, if_false, Nat.xor_zero]
      rw [Nat.mod_eq_of_lt h1]
  | some v =>
    rw [hi] at h2 h3
    simp only [Option.getD_some] at h2 h3 ⊢
    by_cases hf : flags &&& c.BITFLAG_INVERT_LIMIT_PINS = 0
    · simp only [hf, beq_self_eq_true, if_true]
      rw [Nat.mod_eq_of_lt h1, Nat.mod_eq_of_lt h2, Nat.mod_eq_of_lt h3]
    · have hb : (flags &&& c.BITFLAG_INVERT_LIMIT_PINS == 0) = false := by simpa using hf
      simp only [hf, hb, Bool.false_eq_true, if_false, Nat.xor_zero]
      rw [Nat.mod_eq_of_lt h1, Nat.mod_eq_of_lt h2]

/-- C8: for every raw pin reading, every `settings.flags` and every pin mapping (at most
eight axes, byte-sized masks), bit `idx` of the result of `limits_get_state` is set exactly
when `idx < N_AXIS` and `(raw & LIMIT_MASK) ^ INVERT_LIMIT_PIN_MASK ^ (LIMIT_MASK if
BITFLAG_INVERT_LIMIT_PINS is clear, else 0)` shares a bit with `get_limit_pin_mask(idx)`; so
the bits at positions `N_AXIS` and above are zero. -/
theorem limits_get_state_bits (c : Config) (raw flags idx : Nat) (hN : c.N_AXIS ≤ 8)
    (hM : c.LIMIT_MASK < 256) (hI : c.INVERT_LIMIT_PIN_MASK.getD 0 < 256) :
    (limits_get_state c raw flags).testBit idx = decide (idx < c.N_AXIS ∧
      ((raw &&& c.LIMIT_MASK) ^^^ c.INVERT_LIMIT_PIN_MASK.getD 0 ^^^
        (if flags &&& c.BITFLAG_INVERT_LIMIT_PINS = 0 then c.LIMIT_MASK else 0))
      &&& c.get_limit_pin_mask idx ≠ 0) := by
  rw [← limits_pin_eq c raw flags hM hI]
  unfold limits_get_state
  by_cases hp : limits_pin c raw flags = 0
  · simp [hp]
  · simp only [ne_eq, hp, not_false_eq_true, if_true]
    exact axis_loop_testBit _ _ _ hN idx

/-- The claim C8 at the three-axis configuration, raw pins `0b100`, flags 0, axis 0. -/
theorem limits_get_state_bits_witness :
    cfg328.N_AXIS ≤ 8 ∧ cfg328.LIMIT_MASK < 256 ∧ cfg328.INVERT_LIMIT_PIN_MASK.getD 0 < 256 ∧
    (limits_get_state cfg328 0b100 0).testBit 0 = decide (0 < cfg328.N_AXIS ∧
      ((0b100 &&& cfg328.LIMIT_MASK) ^^^ cfg328.INVERT_LIMIT_PIN_MASK.getD 0 ^^^
        (if 0 &&& cfg328.BITFLAG_INVERT_LIMIT_PINS = 0 then cfg328.LIMIT_MASK else 0))
      &&& cfg328.get_limit_pin_mask 0 ≠ 0) :=
  ⟨by decide, by decide, by decide,
    limits_get_state_bits cfg328 0b100 0 0 (by decide) (by decide) (by decide)⟩

/-- C7, counterexample: with hardware invert mask `0b100`, the software invert flag clear,
axis `idx` on pin bit `idx` and raw pins `0b100`, `limits_get_state` returns `0b111`: axes 0
and 1 are reported triggered as well, so the result is not `0b100`. -/
theorem limits_get_state_example_counterexample :
    limits_get_state cfg328 0b00000100 0 ≠ 0b00000100 ∧
    (limits_get_state cfg328 0b00000100 0).testBit 0 = true ∧
    (limits_get_state cfg328 0b00000100 0).testBit 1 = true := by
  decide

/-- Amended C7: with three axes, axis `idx` on limit pin bit `idx`, `LIMIT_MASK = 0b111`,
hardware invert mask `0b100`, the software invert flag clear in `settings.flags` and raw pins
reading `0b100` on the limit pins, `limits_get_state` returns `0b111`: all three axes are
reported triggered. -/
theorem limits_get_state_example (c : Config) (raw flags : Nat) (hN : c.N_AXIS = 3)
    (hM : c.LIMIT_MASK = 0b00000111) (hI : c.INVERT_LIMIT_PIN_MASK = some 0b00000100)
    (hmap : ∀ idx, c.get_limit_pin_mask idx = 1 <<< idx)
    (hflag : flags &&& c.BITFLAG_INVERT_LIMIT_PINS = 0) (hraw : raw &&& 0b00000111 = 0b00000100) :
    limits_get_state c raw flags = 0b00000111 := by
  have hp : limits_pin c raw flags = 7 := by
    simp [limits_pin, bit_isfalse, hM, hI, hflag, hraw]
  unfold limits_get_state
  rw [hp, hN]
  simp [List.range_succ, hmap]

/-- The amended claim C7 at the three-axis configuration with `settings.flags = 0`. -/
theorem limits_get_state_example_witness :
    cfg328.N_AXIS = 3 ∧ cfg328.LIMIT_MASK = 0b00000111 ∧
    cfg328.INVERT_LIMIT_PIN_MASK = some 0b00000100 ∧
    (∀ idx, cfg328.get_limit_pin_mask idx = 1 <<< idx) ∧
    0 &&& cfg328.BITFLAG_INVERT_LIMIT_PINS = 0 ∧ 0b00000100 &&& 0b00000111 = 0b00000100 ∧
    limits_get_state cfg328 0b00000100 0 = 0b00000111 :=
  ⟨rfl, rfl, rfl, fun _ => rfl, by decide, by decide,
    limits_get_state_example cfg328 0b00000100 0 rfl rfl rfl (fun _ => rfl) (by decide) (by decide)⟩


theorem new_calls_append (s s' : Sys) (l : List Call) (h : s'.calls = l ++ s.calls) :
    new_calls s s' = l := by
  unfold new_calls
  rw [h, List.length_append, Nat.add_sub_cancel, List.take_left']
  rfl

theorem new_calls_hard_limit_kill (c : Config) (s t : Sys) (h : t.calls = s.calls) :
    new_calls s (hard_limit_kill c t)
      = [Call.system_set_exec_alarm c.EXEC_ALARM_HARD_LIMIT, Call.mc_reset] :=
  new_calls_append s _ _ (by rw [← h]; rfl)

/-- Clearing bit `w` of a byte leaves that bit clear. -/
theorem clear_bit_and (x w : Nat) : ((x &&& (255 ^^^ (1 <<< w))) % 256) &&& (1 <<< w) = 0 := by
  apply Nat.eq_of_testBit_eq
  intro j
  have h255 : Nat.testBit 255 j = decide (j < 8) := Nat.testBit_two_pow_sub_one 8 j
  rw [Nat.one_shiftLeft, Nat.testBit_and, Nat.testBit_mod_two_pow _ 8 j, Nat.testBit_and,
    Nat.testBit_xor, Nat.testBit_two_pow, h255]
  by_cases hwj : w = j <;> by_cases h8 : j < 8 <;> simp [hwj, h8]

/-- Setting bit `w < 8` of a byte leaves that bit set. -/
theorem set_bit_and (x w : Nat) (hw : w < 8) : ((x ||| (1 <<< w)) % 256) &&& (1 <<< w) ≠ 0 := by
  intro h0
  have h : (((x ||| (1 <<< w)) % 256) &&& (1 <<< w)).testBit w = true := by
    rw [Nat.one_shiftLeft, Nat.testBit_and, Nat.testBit_mod_two_pow _ 8 w, Nat.testBit_or,
      Nat.testBit_two_pow]
    simp [hw]
  rw [h0] at h
  simp at h

/-- C9: hard-limit event handling.  The immediate `ISR(LIMIT_INT_vect)` (no software debounce)
calls `mc_reset` and then raises `EXEC_ALARM_HARD_LIMIT` exactly when `sys.state` is not
`STATE_ALARM`, no alarm is pending and, if `HARD_LIMIT_FORCE_STATE_CHECK` is defined,
`limits_get_state()` is non-zero; otherwise it leaves the state as it is.  `ISR(WDT_vect)` does
the same exactly when not in `STATE_ALARM`, no alarm is pending and `limits_get_state()` is
non-zero, otherwise it calls nothing and leaves the alarm as it is; on every expiry it leaves
WDIE clear.  With software debounce `ISR(LIMIT_INT_vect)` calls nothing and raises nothing; it
leaves the state untouched when WDIE is already set and sets WDIE otherwise. -/
theorem hard_limit_handlers (c : Config) (s : Sys) (hW : c.WDIE < 8) :
    (c.ENABLE_SOFTWARE_DEBOUNCE = false →
      (new_calls s (ISR_LIMIT_INT_vect c s) =
        if s.state ≠ c.STATE_ALARM ∧ s.sys_rt_exec_alarm = 0 ∧
            (c.HARD_LIMIT_FORCE_STATE_CHECK = true →
              limits_get_state c s.LIMIT_PIN s.settings_flags ≠ 0)
        then [Call.system_set_exec_alarm c.EXEC_ALARM_HARD_LIMIT, Call.mc_reset] else []) ∧
      (ISR_LIMIT_INT_vect c s).sys_rt_exec_alarm =
        (if s.state ≠ c.STATE_ALARM ∧ s.sys_rt_exec_alarm = 0 ∧
            (c.HARD_LIMIT_FORCE_STATE_CHECK = true →
              limits_get_state c s.LIMIT_PIN s.settings_flags ≠ 0)
        then c.EXEC_ALARM_HARD_LIMIT % 256 else s.sys_rt_exec_alarm) ∧
      (¬ (s.state ≠ c.STATE_ALARM ∧ s.sys_rt_exec_alarm = 0 ∧
            (c.HARD_LIMIT_FORCE_STATE_CHECK = true →
              limits_get_state c s.LIMIT_PIN s.settings_flags ≠ 0)) →
        ISR_LIMIT_INT_vect c s = s)) ∧
    (new_calls s (ISR_WDT_vect c s) =
      if s.state ≠ c.STATE_ALARM ∧ s.sys_rt_exec_alarm = 0 ∧
          limits_get_state c s.LIMIT_PIN s.settings_flags ≠ 0
      then [Call.system_set_exec_alarm c.EXEC_ALARM_HARD_LIMIT, Call.mc_reset] else []) ∧
    ((ISR_WDT_vect c s).sys_rt_exec_alarm =
      if s.state ≠ c.STATE_ALARM ∧ s.sys_rt_exec_alarm = 0 ∧
          limits_get_state c s.LIMIT_PIN s.settings_flags ≠ 0
      then c.EXEC_ALARM_HARD_LIMIT % 256 else s.sys_rt_exec_alarm) ∧
    (ISR_WDT_vect c s).WDTCSR &&& (1 <<< c.WDIE) = 0 ∧
    (c.ENABLE_SOFTWARE_DEBOUNCE = true →
      new_calls s (ISR_LIMIT_INT_vect c s) = [] ∧
      (ISR_LIMIT_INT_vect c s).sys_rt_exec_alarm = s.sys_rt_exec_alarm ∧
      (s.WDTCSR &&& (1 <<< c.WDIE) ≠ 0 → ISR_LIMIT_INT_vect c s = s) ∧
      (ISR_LIMIT_INT_vect c s).WDTCSR &&& (1 <<< c.WDIE) ≠ 0) := by
  have hnil : ∀ t : Sys, t.calls = s.calls → new_calls s t = [] :=
    fun t h => new_calls_append s t [] (by simpa using h)
  have key1 : c.ENABLE_SOFTWARE_DEBOUNCE = false → ISR_LIMIT_INT_vect c s =
      if s.state ≠ c.STATE_ALARM ∧ s.sys_rt_exec_alarm = 0 ∧
          (c.HARD_LIMIT_FORCE_STATE_CHECK = true →
            limits_get_state c s.LIMIT_PIN s.settings_flags ≠ 0)
      then hard_limit_kill c s else s := by
    intro hd
    unfold ISR_LIMIT_INT_vect
    split_ifs <;> first | rfl | (exfalso; simp_all)
  have key2 : ISR_WDT_vect c s =
      if s.state ≠ c.STATE_ALARM ∧ s.sys_rt_exec_alarm = 0 ∧
          limits_get_state c s.LIMIT_PIN s.settings_flags ≠ 0
      then hard_limit_kill c { s with WDTCSR := (s.WDTCSR &&& (255 ^^^ (1 <<< c.WDIE))) % 256 }
      else { s with WDTCSR := (s.WDTCSR &&& (255 ^^^ (1 <<< c.WDIE))) % 256 } := by
    unfold ISR_WDT_vect
    dsimp only
    split_ifs <;> first | rfl | (exfalso; simp_all)
  refine ⟨?_, ?_, ?_, ?_, ?_⟩
  · intro hd
    rw [key1 hd]
    split_ifs with hC
    · exact ⟨new_calls_hard_limit_kill c s s rfl, rfl, fun h => absurd hC h⟩
    · exact ⟨hnil s rfl, rfl, fun _ => rfl⟩
  · rw [key2]
    split_ifs with hC
    · exact new_calls_hard_limit_kill c s _ rfl
    · exact hnil _ rfl
  · rw [key2]
    split_ifs with hC <;> rfl
  · rw [key2]
    split_ifs with hC <;> exact clear_bit_and _ _
  · intro hd
    have hd' : ¬ c.ENABLE_SOFTWARE_DEBOUNCE = false := by simp [hd]
    unfold ISR_LIMIT_INT_vect
    rw [if_neg hd']
    split_ifs with ha
    · exact ⟨hnil _ rfl, rfl, fun h => absurd ha h, set_bit_and _ _ hW⟩
    · exact ⟨hnil _ rfl, rfl, fun _ => rfl, ha⟩


/-- A mask that meets one of three flags meets their union. -/
theorem and_or3_ne_zero (x a b d : Nat) (h : x &&& a ≠ 0 ∨ x &&& b ≠ 0 ∨ x &&& d ≠ 0) :
    x &&& (a ||| b ||| d) ≠ 0 := by
  intro h0
  rw [Nat.and_or_distrib_left, Nat.and_or_distrib_left] at h0
  have h1 : ∀ u v : Nat, u ||| v = 0 → u = 0 ∧ v = 0 := by
    intro u v huv
    constructor
    · apply Nat.eq_of_testBit_eq
      intro j
      have := congrArg (fun n => Nat.testBit n j) huv
      simp only [Nat.testBit_or, Nat.zero_testBit, Bool.or_eq_false_iff] at this
      simpa using this.1
    · apply Nat.eq_of_testBit_eq
      intro j
      have := congrArg (fun n => Nat.testBit n j) huv
      simp only [Nat.testBit_or, Nat.zero_testBit, Bool.or_eq_false_iff] at this
      simpa using this.2
  obtain ⟨hab, hd⟩ := h1 _ _ h0
  obtain ⟨ha, hb⟩ := h1 _ _ hab
  rcases h with h | h | h
  · exact h ha
  · exact h hb
  · exact h hd

/-- C10, counterexample: an X/Y approach iteration (`i = 1`) that observes EXEC_RESET together
with EXEC_CYCLE_STOP raises EXEC_ALARM_HOMING_FAIL_RESET and then
EXEC_ALARM_HOMING_FAIL_APPROACH, and the cause left in `sys_rt_exec_alarm` is
EXEC_ALARM_HOMING_FAIL_APPROACH. -/
theorem homing_poll_reset_counterexample :
    alarms_raised (new_calls sys_reset_stop
      (homing_poll_body cfg328 1 true 0b00001100 sys_reset_stop).2.2)
      = [cfg328.EXEC_ALARM_HOMING_FAIL_RESET, cfg328.EXEC_ALARM_HOMING_FAIL_APPROACH] ∧
    (homing_poll_body cfg328 1 true 0b00001100
      sys_reset_stop).2.2.sys_rt_exec_alarm
      = cfg328.EXEC_ALARM_HOMING_FAIL_APPROACH ∧
    (homing_poll_body cfg328 1 true 0b00001100
      sys_reset_stop).2.2.sys_rt_exec_alarm
      ≠ cfg328.EXEC_ALARM_HOMING_FAIL_RESET := by
  decide

/-- Amended C10: in every pass through the poll-loop body of `limits_go_home` (either group,
either phase) the alarms raised are, in this order, EXEC_ALARM_HOMING_FAIL_RESET when
EXEC_RESET is set, EXEC_ALARM_HOMING_FAIL_DOOR when EXEC_SAFETY_DOOR is set, and
EXEC_ALARM_HOMING_FAIL_APPROACH exactly when the group is X/Y (`i = 1`), the phase is approach
and EXEC_CYCLE_STOP is set, whether or not reset or door are set as well.  When EXEC_RESET is
set, whatever the other realtime flags, the body ends with `return` after calling `mc_reset`
(homing aborts within that iteration), and the cause left in `sys_rt_exec_alarm` is the last
one raised: EXEC_ALARM_HOMING_FAIL_RESET when neither of the other two follows it. -/
theorem homing_poll_reset (c : Config) (i : Nat) (approach : Bool) (axislock : Nat) (s : Sys)
    (hR : 0 < c.EXEC_ALARM_HOMING_FAIL_RESET ∧ c.EXEC_ALARM_HOMING_FAIL_RESET < 256)
    (hD : 0 < c.EXEC_ALARM_HOMING_FAIL_DOOR ∧ c.EXEC_ALARM_HOMING_FAIL_DOOR < 256)
    (hA : 0 < c.EXEC_ALARM_HOMING_FAIL_APPROACH ∧ c.EXEC_ALARM_HOMING_FAIL_APPROACH < 256) :
    alarms_raised (new_calls s (homing_poll_body c i approach axislock s).2.2)
      = (if s.sys_rt_exec_state &&& c.EXEC_RESET ≠ 0
            then [c.EXEC_ALARM_HOMING_FAIL_RESET] else [])
        ++ (if s.sys_rt_exec_state &&& c.EXEC_SAFETY_DOOR ≠ 0
            then [c.EXEC_ALARM_HOMING_FAIL_DOOR] else [])
        ++ (if i = 1 ∧ approach = true ∧ s.sys_rt_exec_state &&& c.EXEC_CYCLE_STOP ≠ 0
            then [c.EXEC_ALARM_HOMING_FAIL_APPROACH] else []) ∧
    (s.sys_rt_exec_state &&& c.EXEC_RESET ≠ 0 →
      (homing_poll_body c i approach axislock s).1 = Ctl.returned ∧
      Call.mc_reset ∈ new_calls s (homing_poll_body c i approach axislock s).2.2 ∧
      (homing_poll_body c i approach axislock s).2.2.sys_rt_exec_alarm
        = (if i = 1 ∧ approach = true ∧ s.sys_rt_exec_state &&& c.EXEC_CYCLE_STOP ≠ 0
           then c.EXEC_ALARM_HOMING_FAIL_APPROACH
           else if s.sys_rt_exec_state &&& c.EXEC_SAFETY_DOOR ≠ 0
           then c.EXEC_ALARM_HOMING_FAIL_DOOR
           else c.EXEC_ALARM_HOMING_FAIL_RESET)) := by
  have mR := Nat.mod_eq_of_lt hR.2
  have mD := Nat.mod_eq_of_lt hD.2
  have mA := Nat.mod_eq_of_lt hA.2
  have nR : c.EXEC_ALARM_HOMING_FAIL_RESET ≠ 0 := by omega
  have nD : c.EXEC_ALARM_HOMING_FAIL_DOOR ≠ 0 := by omega
  have nA : c.EXEC_ALARM_HOMING_FAIL_APPROACH ≠ 0 := by omega
  by_cases hreset : s.sys_rt_exec_state &&& c.EXEC_RESET ≠ 0 <;>
  by_cases hdoor : s.sys_rt_exec_state &&& c.EXEC_SAFETY_DOOR ≠ 0 <;>
  by_cases hstop : (i = 1 ∧ approach = true ∧ s.sys_rt_exec_state &&& c.EXEC_CYCLE_STOP ≠ 0) <;>
  by_cases hany : s.sys_rt_exec_state &&&
    (c.EXEC_SAFETY_DOOR ||| c.EXEC_RESET ||| c.EXEC_CYCLE_STOP) ≠ 0 <;>
  by_cases hpend : s.sys_rt_exec_alarm = 0
  all_goals first
    | (exfalso
       first
        | exact hany (and_or3_ne_zero _ _ _ _ (Or.inr (Or.inl hreset)))
        | exact hany (and_or3_ne_zero _ _ _ _ (Or.inl hdoor))
        | exact hany (and_or3_ne_zero _ _ _ _ (Or.inr (Or.inr hstop.2.2))))
    | (simp only [homing_poll_body, st_prep_buffer, system_set_exec_alarm, mc_reset,
        protocol_execute_realtime, system_clear_exec_state_flag, hany, hreset, hdoor, hstop,
        hpend, mR, mD, mA, nR, nD, nA, ne_eq, not_false_eq_true, not_true_eq_false, if_true,
        if_false, and_self, and_true, true_and, false_implies, true_implies]
       simp only [new_calls, List.length_cons, Nat.add_assoc, Nat.reduceAdd,
        Nat.add_sub_cancel_left, List.take_succ_cons, List.take_zero, alarms_raised]
       simp)


/-- The claim C9 at the three-axis configuration, not in alarm, with the Z limit asserted and
the watchdog interrupt armed. -/
theorem hard_limit_handlers_witness :
    cfg328.WDIE < 8 ∧
    (cfg328.ENABLE_SOFTWARE_DEBOUNCE = false →
      (new_calls sys_z_limit (ISR_LIMIT_INT_vect cfg328 sys_z_limit) =
        if sys_z_limit.state ≠ cfg328.STATE_ALARM ∧ sys_z_limit.sys_rt_exec_alarm = 0 ∧
            (cfg328.HARD_LIMIT_FORCE_STATE_CHECK = true →
              limits_get_state cfg328 sys_z_limit.LIMIT_PIN sys_z_limit.settings_flags ≠ 0)
        then [Call.system_set_exec_alarm cfg328.EXEC_ALARM_HARD_LIMIT, Call.mc_reset] else []) ∧
      (ISR_LIMIT_INT_vect cfg328 sys_z_limit).sys_rt_exec_alarm =
        (if sys_z_limit.state ≠ cfg328.STATE_ALARM ∧ sys_z_limit.sys_rt_exec_alarm = 0 ∧
            (cfg328.HARD_LIMIT_FORCE_STATE_CHECK = true →
              limits_get_state cfg328 sys_z_limit.LIMIT_PIN sys_z_limit.settings_flags ≠ 0)
        then cfg328.EXEC_ALARM_HARD_LIMIT % 256 else sys_z_limit.sys_rt_exec_alarm) ∧
      (¬ (sys_z_limit.state ≠ cfg328.STATE_ALARM ∧ sys_z_limit.sys_rt_exec_alarm = 0 ∧
            (cfg328.HARD_LIMIT_FORCE_STATE_CHECK = true →
              limits_get_state cfg328 sys_z_limit.LIMIT_PIN sys_z_limit.settings_flags ≠ 0)) →
        ISR_LIMIT_INT_vect cfg328 sys_z_limit = sys_z_limit)) ∧
    (new_calls sys_z_limit (ISR_WDT_vect cfg328 sys_z_limit) =
      if sys_z_limit.state ≠ cfg328.STATE_ALARM ∧ sys_z_limit.sys_rt_exec_alarm = 0 ∧
          limits_get_state cfg328 sys_z_limit.LIMIT_PIN sys_z_limit.settings_flags ≠ 0
      then [Call.system_set_exec_alarm cfg328.EXEC_ALARM_HARD_LIMIT, Call.mc_reset] else []) ∧
    ((ISR_WDT_vect cfg328 sys_z_limit).sys_rt_exec_alarm =
      if sys_z_limit.state ≠ cfg328.STATE_ALARM ∧ sys_z_limit.sys_rt_exec_alarm = 0 ∧
          limits_get_state cfg328 sys_z_limit.LIMIT_PIN sys_z_limit.settings_flags ≠ 0
      then cfg328.EXEC_ALARM_HARD_LIMIT % 256 else sys_z_limit.sys_rt_exec_alarm) ∧
    (ISR_WDT_vect cfg328 sys_z_limit).WDTCSR &&& (1 <<< cfg328.WDIE) = 0 ∧
    (cfg328.ENABLE_SOFTWARE_DEBOUNCE = true →
      new_calls sys_z_limit (ISR_LIMIT_INT_vect cfg328 sys_z_limit) = [] ∧
      (ISR_LIMIT_INT_vect cfg328 sys_z_limit).sys_rt_exec_alarm = sys_z_limit.sys_rt_exec_alarm ∧
      (sys_z_limit.WDTCSR &&& (1 <<< cfg328.WDIE) ≠ 0 →
        ISR_LIMIT_INT_vect cfg328 sys_z_limit = sys_z_limit) ∧
      (ISR_LIMIT_INT_vect cfg328 sys_z_limit).WDTCSR &&& (1 <<< cfg328.WDIE) ≠ 0) :=
  ⟨by decide, hard_limit_handlers cfg328 sys_z_limit (by decide)⟩

/-- The amended claim C10 at an X/Y approach iteration that observes reset and cycle stop. -/
theorem homing_poll_reset_witness :
    (0 < cfg328.EXEC_ALARM_HOMING_FAIL_RESET ∧ cfg328.EXEC_ALARM_HOMING_FAIL_RESET < 256) ∧
    (0 < cfg328.EXEC_ALARM_HOMING_FAIL_DOOR ∧ cfg328.EXEC_ALARM_HOMING_FAIL_DOOR < 256) ∧
    (0 < cfg328.EXEC_ALARM_HOMING_FAIL_APPROACH ∧ cfg328.EXEC_ALARM_HOMING_FAIL_APPROACH < 256) ∧
    alarms_raised (new_calls sys_reset_stop
        (homing_poll_body cfg328 1 true 0b00001100 sys_reset_stop).2.2)
      = (if sys_reset_stop.sys_rt_exec_state &&& cfg328.EXEC_RESET ≠ 0
            then [cfg328.EXEC_ALARM_HOMING_FAIL_RESET] else [])
        ++ (if sys_reset_stop.sys_rt_exec_state &&& cfg328.EXEC_SAFETY_DOOR ≠ 0
            then [cfg328.EXEC_ALARM_HOMING_FAIL_DOOR] else [])
        ++ (if 1 = 1 ∧ true = true ∧
              sys_reset_stop.sys_rt_exec_state &&& cfg328.EXEC_CYCLE_STOP ≠ 0
            then [cfg328.EXEC_ALARM_HOMING_FAIL_APPROACH] else []) ∧
    (sys_reset_stop.sys_rt_exec_state &&& cfg328.EXEC_RESET ≠ 0 →
      (homing_poll_body cfg328 1 true 0b00001100 sys_reset_stop).1 = Ctl.returned ∧
      Call.mc_reset ∈ new_calls sys_reset_stop
        (homing_poll_body cfg328 1 true 0b00001100 sys_reset_stop).2.2 ∧
      (homing_poll_body cfg328 1 true 0b00001100 sys_reset_stop).2.2.sys_rt_exec_alarm
        = (if 1 = 1 ∧ true = true ∧
              sys_reset_stop.sys_rt_exec_state &&& cfg328.EXEC_CYCLE_STOP ≠ 0
           then cfg328.EXEC_ALARM_HOMING_FAIL_APPROACH
           else if sys_reset_stop.sys_rt_exec_state &&& cfg328.EXEC_SAFETY_DOOR ≠ 0
           then cfg328.EXEC_ALARM_HOMING_FAIL_DOOR
           else cfg328.EXEC_ALARM_HOMING_FAIL_RESET)) :=
  ⟨by decide, by decide, by decide,
    homing_poll_reset cfg328 1 true 0b00001100 sys_reset_stop (by decide) (by decide)
      (by decide)⟩

end Limits

/-! # Theorems: the homing cycle and the soft-limit check -/

namespace Limits

theorem marks_cons (e : Call) (t : List Call) :
    marks (e :: t) = marks t ++ (match e with
      | Call.st_wake_up m => [m]
      | Call.poll m => [m]
      | _ => []) := by
  cases e <;> simp [marks]

theorem wake_ups_cons (e : Call) (t : List Call) :
    wake_ups (e :: t) = wake_ups t ++ (match e with
      | Call.st_wake_up m => [m]
      | _ => []) := by
  cases e <;> simp [wake_ups]

theorem alarms_raised_cons (e : Call) (t : List Call) :
    alarms_raised (e :: t) = alarms_raised t ++ (match e with
      | Call.system_set_exec_alarm code => [code]
      | _ => []) := by
  cases e <;> simp [alarms_raised]

/-- What a pass through the poll-loop body leaves alone, and what it does to the axis lock. -/
theorem homing_poll_body_frame (c : Config) (i : Nat) (ap : Bool) (a : Nat) (s : Sys) :
    (homing_poll_body c i ap a s).2.2.bel = s.bel ∧
    (homing_poll_body c i ap a s).2.2.sys_position = s.sys_position ∧
    (homing_poll_body c i ap a s).2.2.step_control = s.step_control ∧
    marks (homing_poll_body c i ap a s).2.2.calls = marks s.calls ∧
    wake_ups (homing_poll_body c i ap a s).2.2.calls = wake_ups s.calls ∧
    (homing_poll_body c i ap a s).2.1
      = (if ap && (s.PINB &&& 0x4 != 0) then clear_locks c a else a) ∧
    (homing_poll_body c i ap a s).2.2.homing_axis_lock = (homing_poll_body c i ap a s).2.1 := by
  unfold homing_poll_body
  simp only [st_prep_buffer, system_set_exec_alarm, mc_reset, protocol_execute_realtime,
    system_clear_exec_state_flag, clear_locks]
  split_ifs <;> simp [marks_cons, wake_ups_cons]

theorem observe_frame (o : Obs) (s : Sys) :
    (observe o s).bel = s.bel ∧ (observe o s).calls = s.calls ∧
    (observe o s).step_control = s.step_control ∧
    (observe o s).sys_position.length = s.sys_position.length ∧
    (observe o s).homing_axis_lock = s.homing_axis_lock := by
  simp [observe]

/-- What the poll loop leaves alone, and the snapshots it adds. -/
theorem homing_poll_loop_frame (c : Config) (n i : Nat) (env : List Obs) (l : Locals) (s : Sys) :
    (homing_poll_loop c n i env l s).loc.approach = l.approach ∧
    (homing_poll_loop c n i env l s).loc.homing_rate = l.homing_rate ∧
    (homing_poll_loop c n i env l s).loc.max_travel = l.max_travel ∧
    (homing_poll_loop c n i env l s).loc.target = l.target ∧
    (homing_poll_loop c n i env l s).sys.bel = s.bel ∧
    (homing_poll_loop c n i env l s).sys.sys_position.length = s.sys_position.length ∧
    (homing_poll_loop c n i env l s).sys.step_control = s.step_control ∧
    wake_ups (homing_poll_loop c n i env l s).sys.calls = wake_ups s.calls ∧
    (∀ m ∈ marks (homing_poll_loop c n i env l s).sys.calls, m ∈ marks s.calls ∨
      (m.n_cycle = n ∧ m.i = i ∧ m.approach = l.approach ∧
        m.override_flag = s.bel.stepper_limits_override_flag)) := by
  induction env generalizing l s with
  | nil =>
    simp only [homing_poll_loop, true_and]
    exact fun m hm => Or.inl hm
  | cons o env ih =>
    obtain ⟨o1, o2, o3, o4, _⟩ := observe_frame o s
    have hs1 : ∀ s1 : Sys, s1 = { observe o s with
        calls := Call.poll (homing_mark c n i l (observe o s)) :: (observe o s).calls } →
        s1.bel = s.bel ∧ s1.sys_position.length = s.sys_position.length ∧
        s1.step_control = s.step_control ∧ wake_ups s1.calls = wake_ups s.calls ∧
        marks s1.calls = marks s.calls ++ [homing_mark c n i l (observe o s)] := by
      intro s1 h1
      subst h1
      simp [o1, o2, o3, o4, marks_cons, wake_ups_cons]
    obtain ⟨p1, p2, p3, p4, p5⟩ := hs1 _ rfl
    have hm : (homing_mark c n i l (observe o s)).n_cycle = n ∧
        (homing_mark c n i l (observe o s)).i = i ∧
        (homing_mark c n i l (observe o s)).approach = l.approach ∧
        (homing_mark c n i l (observe o s)).override_flag
          = s.bel.stepper_limits_override_flag := by
      simp [homing_mark, o1]
    obtain ⟨b1, b2, b3, b4, b5, _, _⟩ := homing_poll_body_frame c i l.approach l.axislock
      { observe o s with
        calls := Call.poll (homing_mark c n i l (observe o s)) :: (observe o s).calls }
    have hmarks : ∀ m ∈ marks (homing_poll_body c i l.approach l.axislock
        { observe o s with
          calls := Call.poll (homing_mark c n i l (observe o s)) :: (observe o s).calls }).2.2.calls,
        m ∈ marks s.calls ∨ (m.n_cycle = n ∧ m.i = i ∧ m.approach = l.approach ∧
          m.override_flag = s.bel.stepper_limits_override_flag) := by
      intro m hmem
      rw [b4, p5, List.mem_append, List.mem_singleton] at hmem
      rcases hmem with h | h
      · exact Or.inl h
      · subst h
        exact Or.inr hm
    unfold homing_poll_loop
    dsimp only
    rcases hb : homing_poll_body c i l.approach l.axislock
      { observe o s with
        calls := Call.poll (homing_mark c n i l (observe o s)) :: (observe o s).calls }
      with ⟨ctl, a, s2⟩
    rw [hb] at b1 b2 b3 b4 b5 hmarks
    simp only at b1 b2 b3 b4 b5 hmarks
    have base : s2.bel = s.bel ∧ s2.sys_position.length = s.sys_position.length ∧
        s2.step_control = s.step_control ∧ wake_ups s2.calls = wake_ups s.calls :=
      ⟨b1.trans p1, by rw [b2]; exact p2, b3.trans p3, b5.trans p4⟩
    cases ctl with
    | returned => exact ⟨rfl, rfl, rfl, rfl, base.1, base.2.1, base.2.2.1, base.2.2.2, hmarks⟩
    | broke => exact ⟨rfl, rfl, rfl, rfl, base.1, base.2.1, base.2.2.1, base.2.2.2, hmarks⟩
    | test =>
      dsimp only
      split_ifs with hcont
      · obtain ⟨i1, i2, i3, i4, i5, i6, i7, i8, i9⟩ := ih { l with axislock := a } s2
        refine ⟨i1, i2, i3, i4, i5.trans base.1, i6.trans base.2.1, i7.trans base.2.2.1,
          i8.trans base.2.2.2, ?_⟩
        intro m hmem
        rcases i9 m hmem with h | h
        · exact hmarks m h
        · right
          rw [base.1] at h
          exact h
      · exact ⟨rfl, rfl, rfl, rfl, base.1, base.2.1, base.2.2.1, base.2.2.2, hmarks⟩

/-- A property of the axis lock that the clearing of the lock bits keeps holds after the
poll loop; a retreat leaves the axis lock as it is. -/
theorem homing_poll_loop_axislock (c : Config) (n i : Nat) (I : Nat → Prop)
    (hI : ∀ a, I a → I (clear_locks c a)) (env : List Obs) (l : Locals) (s : Sys)
    (h : I l.axislock) :
    I (homing_poll_loop c n i env l s).loc.axislock ∧
    (l.approach = false → (homing_poll_loop c n i env l s).loc.axislock = l.axislock) := by
  induction env generalizing l s with
  | nil => simp [homing_poll_loop, h]
  | cons o env ih =>
    have b6 := (homing_poll_body_frame c i l.approach l.axislock
      { observe o s with
        calls := Call.poll (homing_mark c n i l (observe o s)) :: (observe o s).calls }).2.2.2.2.2.1
    unfold homing_poll_loop
    dsimp only
    rcases hb : homing_poll_body c i l.approach l.axislock
      { observe o s with
        calls := Call.poll (homing_mark c n i l (observe o s)) :: (observe o s).calls }
      with ⟨ctl, a, s2⟩
    rw [hb] at b6
    simp only at b6
    have ha : I a ∧ (l.approach = false → a = l.axislock) := by
      rw [b6]
      constructor
      · split_ifs
        · exact hI _ h
        · exact h
      · intro hf
        simp [hf]
    cases ctl with
    | returned => exact ha
    | broke => exact ha
    | test =>
      dsimp only
      split_ifs with hcont
      · obtain ⟨j1, j2⟩ := ih { l with axislock := a } s2 ha.1
        exact ⟨j1, fun hf => (j2 hf).trans (ha.2 hf)⟩
      · exact ha

theorem foldl_invariant {α β : Type} (P : α → Prop) (f : α → β → α)
    (h : ∀ a b, P a → P (f a b)) (l : List β) (a : α) (ha : P a) : P (l.foldl f a) := by
  induction l generalizing a with
  | nil => exact ha
  | cons b l ih => exact ih _ (h a b ha)

/-- The state after the per-axis statements: only `sys_position[idx]` changes. -/
theorem homing_axis_setup_sys (c : Config) (st : Settings) (n idx : Nat) (l : Locals) (s : Sys) :
    (homing_axis_setup c st n idx l s).2 = { s with sys_position := s.sys_position.set idx 0 } := by
  unfold homing_axis_setup
  rfl

/-- The locals after the per-axis statements. -/
theorem homing_axis_setup_loc (c : Config) (st : Settings) (n idx : Nat) (l : Locals) (s : Sys) :
    (homing_axis_setup c st n idx l s).1.approach = l.approach ∧
    (homing_axis_setup c st n idx l s).1.homing_rate = l.homing_rate ∧
    (homing_axis_setup c st n idx l s).1.axislock = (l.axislock ||| step_pin c idx) % 256 ∧
    (homing_axis_setup c st n idx l s).1.max_travel
      = (if n = 2 * c.N_HOMING_LOCATE_CYCLE + 1
          then (-HOMING_AXIS_SEARCH_SCALAR) * st.max_travel idx else l.max_travel) ∧
    (∀ j, (homing_axis_setup c st n idx l s).1.target j
      = if j = idx then
          (if idx ≠ c.Z_AXIS then
            (if l.approach then -(homing_axis_setup c st n idx l s).1.max_travel
              else (homing_axis_setup c st n idx l s).1.max_travel)
          else
            (if l.approach then (homing_axis_setup c st n idx l s).1.max_travel
              else -(homing_axis_setup c st n idx l s).1.max_travel))
        else l.target j) := by
  by_cases hn : n = 2 * c.N_HOMING_LOCATE_CYCLE + 1 <;> by_cases hz : idx = c.Z_AXIS <;>
    cases hap : l.approach <;>
    simp [homing_axis_setup, step_pin, hn, hz, hap]

/-- What the axis loop leaves alone, whatever the axis numbering. -/
theorem homing_axis_loop_frame (c : Config) (st : Settings) (n i : Nat) (l : Locals) (s : Sys) :
    (homing_axis_loop c st n i l s).1.approach = l.approach ∧
    (homing_axis_loop c st n i l s).1.homing_rate = l.homing_rate ∧
    (homing_axis_loop c st n i l s).2.bel = s.bel ∧
    (homing_axis_loop c st n i l s).2.calls = s.calls ∧
    (homing_axis_loop c st n i l s).2.step_control = s.step_control ∧
    (homing_axis_loop c st n i l s).2.sys_position.length = s.sys_position.length ∧
    (n ≠ 2 * c.N_HOMING_LOCATE_CYCLE + 1 →
      (homing_axis_loop c st n i l s).1.max_travel = l.max_travel) := by
  unfold homing_axis_loop
  apply foldl_invariant (fun p : Locals × Sys =>
    p.1.approach = l.approach ∧ p.1.homing_rate = l.homing_rate ∧ p.2.bel = s.bel ∧
    p.2.calls = s.calls ∧ p.2.step_control = s.step_control ∧
    p.2.sys_position.length = s.sys_position.length ∧
    (n ≠ 2 * c.N_HOMING_LOCATE_CYCLE + 1 → p.1.max_travel = l.max_travel))
  · intro p idx hp
    dsimp only
    split_ifs
    · obtain ⟨a1, a2, _, a4, _⟩ := homing_axis_setup_loc c st n idx p.1 p.2
      rw [homing_axis_setup_sys]
      refine ⟨a1.trans hp.1, a2.trans hp.2.1, hp.2.2.1, hp.2.2.2.1, hp.2.2.2.2.1,
        by simpa using hp.2.2.2.2.2.1, ?_⟩
      intro hn
      rw [a4, if_neg hn]
      exact hp.2.2.2.2.2.2 hn
    · exact hp
  · exact ⟨rfl, rfl, rfl, rfl, rfl, rfl, fun _ => rfl⟩

/-- With the axes numbered 0, 1, 2, the axis loop of the Z group runs the per-axis statements
for axis 2, that of the X/Y group for axis 0 and then for axis 1. -/
theorem homing_axis_loop_std (c : Config) (st : Settings) (n : Nat) (l : Locals) (s : Sys)
    (hax : c.std_axes) :
    homing_axis_loop c st n 0 l s = homing_axis_setup c st n 2 l s ∧
    homing_axis_loop c st n 1 l s = homing_axis_setup c st n 1
      (homing_axis_setup c st n 0 l s).1 (homing_axis_setup c st n 0 l s).2 := by
  obtain ⟨hN, hX, hY, hZ⟩ := hax
  unfold homing_axis_loop homing_cycle_mask
  rw [hN, hX, hY, hZ]
  have h42 : (4 &&& 2 : Nat) = 0 := by decide
  have h34 : (3 &&& 4 : Nat) = 0 := by decide
  simp [List.range_succ, bit, bit_istrue, h42, h34]

theorem step_pin_lt (c : Config) (idx : Nat) : step_pin c idx < 256 :=
  Nat.mod_lt _ (by decide)

theorem or_mod_byte (a b : Nat) (ha : a < 256) (hb : b < 256) : (a ||| b) % 256 = a ||| b :=
  Nat.mod_eq_of_lt (@Nat.or_lt_two_pow a b 8 ha hb)

theorem testBit_byte (x j : Nat) : (x % 256).testBit j = (decide (j < 8) && x.testBit j) :=
  Nat.testBit_mod_two_pow x 8 j

theorem testBit_255 (j : Nat) : Nat.testBit 255 j = decide (j < 8) :=
  Nat.testBit_two_pow_sub_one 8 j

/-- Clearing the three lock bits empties an axis lock all of whose bits are step pins. -/
theorem clear_locks_eq_zero (c : Config) (a : Nat)
    (h : ∀ j, a.testBit j = true →
      (c.get_step_pin_mask c.X_AXIS ||| c.get_step_pin_mask c.Y_AXIS |||
        c.get_step_pin_mask c.Z_AXIS).testBit j = true) :
    clear_locks c a = 0 := by
  apply Nat.eq_of_testBit_eq
  intro j
  have hj := h j
  simp only [Nat.testBit_or, Bool.or_eq_true] at hj
  unfold clear_locks
  simp only [testBit_byte, Nat.testBit_and, Nat.testBit_xor, testBit_255, Nat.zero_testBit]
  by_cases h8 : j < 8
  · cases ha : a.testBit j
    · simp
    · rcases hj ha with (hx | hy) | hz
      · simp [h8, hx]
      · simp [h8, hy]
      · simp [h8, hz]
  · simp [h8]

theorem clear_locks_zero (c : Config) : clear_locks c 0 = 0 :=
  clear_locks_eq_zero c 0 (by simp)

theorem step_pin_testBit (c : Config) (idx j : Nat) (h : (step_pin c idx).testBit j = true) :
    (c.get_step_pin_mask idx).testBit j = true := by
  unfold step_pin at h
  rw [testBit_byte] at h
  simp only [Bool.and_eq_true, decide_eq_true_eq] at h
  exact h.2

theorem clear_locks_all (c : Config) :
    clear_locks c (step_pin c c.Z_AXIS) = 0 ∧ clear_locks c (all_step_pins c) = 0 ∧
    clear_locks c (xy_step_pins c) = 0 := by
  refine ⟨clear_locks_eq_zero c _ ?_, clear_locks_eq_zero c _ ?_, clear_locks_eq_zero c _ ?_⟩
  · intro j hj
    simp [step_pin_testBit c _ j hj]
  · intro j hj
    unfold all_step_pins at hj
    simp only [testBit_byte, Nat.testBit_or, Bool.and_eq_true, Bool.or_eq_true,
      decide_eq_true_eq] at hj
    rcases hj.2 with ⟨_, hz | hx⟩ | hy
    · simp [step_pin_testBit c _ j hz]
    · simp [step_pin_testBit c _ j hx]
    · simp [step_pin_testBit c _ j hy]
  · intro j hj
    unfold xy_step_pins at hj
    simp only [testBit_byte, Nat.testBit_or, Bool.and_eq_true, Bool.or_eq_true,
      decide_eq_true_eq] at hj
    rcases hj.2 with hx | hy
    · simp [step_pin_testBit c _ j hx]
    · simp [step_pin_testBit c _ j hy]

theorem zero_or_step_pin (c : Config) (idx : Nat) : (0 ||| step_pin c idx) % 256 = step_pin c idx := by
  rw [Nat.zero_or]
  exact Nat.mod_eq_of_lt (step_pin_lt c idx)

/-- The snapshot taken by the `st_wake_up()` of a group, and what the statements before the
poll loop leave in the state. -/
theorem homing_group_setup_spec (c : Config) (st : Settings) (n i : Nat) (l : Locals) (s : Sys) :
    (homing_group_setup c st n i l s).1 = (homing_axis_loop c st n i l s).1 ∧
    (homing_group_setup c st n i l s).2.bel = s.bel ∧
    (homing_group_setup c st n i l s).2.sys_position
      = (homing_axis_loop c st n i l s).2.sys_position ∧
    (homing_group_setup c st n i l s).2.homing_axis_lock
      = (homing_axis_loop c st n i l s).1.axislock ∧
    (homing_group_setup c st n i l s).2.step_control = c.STEP_CONTROL_EXECUTE_SYS_MOTION ∧
    marks (homing_group_setup c st n i l s).2.calls = marks s.calls ++
      [{ n_cycle := n, i := i, approach := l.approach,
         homing_axis_lock := (homing_axis_loop c st n i l s).1.axislock,
         override_flag := s.bel.stepper_limits_override_flag,
         step_control := c.STEP_CONTROL_EXECUTE_SYS_MOTION,
         feed_rate := l.homing_rate,
         target := (List.range c.N_AXIS).map (homing_axis_loop c st n i l s).1.target,
         sys_position := (homing_axis_loop c st n i l s).2.sys_position }] ∧
    wake_ups (homing_group_setup c st n i l s).2.calls = wake_ups s.calls ++
      [{ n_cycle := n, i := i, approach := l.approach,
         homing_axis_lock := (homing_axis_loop c st n i l s).1.axislock,
         override_flag := s.bel.stepper_limits_override_flag,
         step_control := c.STEP_CONTROL_EXECUTE_SYS_MOTION,
         feed_rate := l.homing_rate,
         target := (List.range c.N_AXIS).map (homing_axis_loop c st n i l s).1.target,
         sys_position := (homing_axis_loop c st n i l s).2.sys_position }] := by
  obtain ⟨a1, a2, a3, a4, a5, a6, _⟩ := homing_axis_loop_frame c st n i l s
  simp only [homing_group_setup, homing_motion_start, st_wake_up, st_prep_buffer,
    plan_buffer_line, homing_mark, marks_cons, wake_ups_cons, a1, a2, a3, a4,
    List.append_nil, and_self, true_and]

theorem homing_travel_idx (c : Config) (st : Settings) (n : Nat) (ap : Bool) (idx : Nat)
    (hn : n ≠ 2 * c.N_HOMING_LOCATE_CYCLE + 1) :
    homing_travel c st n ap idx = homing_travel c st n ap 0 := by
  simp [homing_travel, hn]

/-- With the axes numbered 0, 1, 2: the targets, the axis lock and the positions that the
axis loop of a group leaves, for locals that satisfy the invariant of the pass. -/
theorem homing_axis_loop_values (c : Config) (st : Settings) (n : Nat) (l : Locals) (s : Sys)
    (hax : c.std_axes) (hinv : l.inv c st n) :
    ((homing_axis_loop c st n 0 l s).1.target 2
        = (if l.approach then homing_travel c st n l.approach 2
           else -homing_travel c st n l.approach 2) ∧
      (homing_axis_loop c st n 0 l s).1.axislock = (l.axislock ||| step_pin c 2) % 256 ∧
      (homing_axis_loop c st n 0 l s).2.sys_position = s.sys_position.set 2 0) ∧
    ((homing_axis_loop c st n 1 l s).1.target 0
        = (if l.approach then -homing_travel c st n l.approach 0
           else homing_travel c st n l.approach 0) ∧
      (homing_axis_loop c st n 1 l s).1.target 1
        = (if l.approach then -homing_travel c st n l.approach 1
           else homing_travel c st n l.approach 1) ∧
      (homing_axis_loop c st n 1 l s).1.axislock
        = ((l.axislock ||| step_pin c 0) % 256 ||| step_pin c 1) % 256 ∧
      (homing_axis_loop c st n 1 l s).2.sys_position = (s.sys_position.set 0 0).set 1 0) := by
  obtain ⟨e0, e1⟩ := homing_axis_loop_std c st n l s hax
  obtain ⟨hN, hX, hY, hZ⟩ := hax
  obtain ⟨_, _, _, htr⟩ := hinv
  have T : ∀ idx, (if n = 2 * c.N_HOMING_LOCATE_CYCLE + 1
      then (-HOMING_AXIS_SEARCH_SCALAR) * st.max_travel idx else l.max_travel)
      = homing_travel c st n l.approach idx := by
    intro idx
    by_cases hn : n = 2 * c.N_HOMING_LOCATE_CYCLE + 1
    · simp [homing_travel, hn]
    · rw [if_neg hn, htr hn, homing_travel_idx c st n _ idx hn]
  constructor
  · rw [e0]
    obtain ⟨_, _, b3, b4, b5⟩ := homing_axis_setup_loc c st n 2 l s
    refine ⟨?_, b3, by rw [homing_axis_setup_sys]⟩
    rw [b5 2, b4, T 2]
    simp [hZ]
  · rw [e1]
    obtain ⟨a1, _, a3, a4, a5⟩ := homing_axis_setup_loc c st n 0 l s
    obtain ⟨_, _, b3, b4, b5⟩ := homing_axis_setup_loc c st n 1
      (homing_axis_setup c st n 0 l s).1 (homing_axis_setup c st n 0 l s).2
    have hmt : (if n = 2 * c.N_HOMING_LOCATE_CYCLE + 1
        then (-HOMING_AXIS_SEARCH_SCALAR) * st.max_travel 1
        else (homing_axis_setup c st n 0 l s).1.max_travel)
        = homing_travel c st n l.approach 1 := by
      by_cases hn : n = 2 * c.N_HOMING_LOCATE_CYCLE + 1
      · simp [homing_travel, hn]
      · rw [if_neg hn, a4, if_neg hn, htr hn, homing_travel_idx c st n _ 1 hn]
    refine ⟨?_, ?_, ?_, ?_⟩
    · rw [b5 0, a5 0, a4, T 0]
      simp [hZ]
    · rw [b5 1, b4, hmt, a1]
      simp [hZ]
    · rw [b3, a3]
    · rw [homing_axis_setup_sys, homing_axis_setup_sys]

/-- A group of a pass: the invariant of the pass is kept, every snapshot added is as the pass
prescribes, and exactly one `st_wake_up()` is made. -/
theorem homing_group_spec (c : Config) (st : Settings) (n i : Nat) (l : Locals)
    (env : List Obs) (s : Sys) (len : Nat) (hi : i ≤ 1) (hinv : l.inv c st n)
    (hflag : s.bel.stepper_limits_override_flag = if l.approach then 0 else 0x40)
    (hlen : s.sys_position.length = len)
    (hlock : c.std_axes → (i = 0 → l.axislock = 0) ∧
      (i = 1 → (l.axislock = step_pin c 2 ∨ l.axislock = 0) ∧
        (l.approach = false → l.axislock = step_pin c 2))) :
    (homing_group c st n i l env s).loc.inv c st n ∧
    (homing_group c st n i l env s).sys.bel = s.bel ∧
    (homing_group c st n i l env s).sys.sys_position.length = len ∧
    (∀ m ∈ marks (homing_group c st n i l env s).sys.calls, m ∈ marks s.calls ∨ m.poll_ok c) ∧
    (∃ mk, wake_ups (homing_group c st n i l env s).sys.calls = wake_ups s.calls ++ [mk] ∧
      mk.key = (n, i, l.approach) ∧ mk.wake_ok c st len) ∧
    (c.std_axes → i = 0 →
      ((homing_group c st n i l env s).loc.axislock = step_pin c 2 ∨
        (homing_group c st n i l env s).loc.axislock = 0) ∧
      (l.approach = false → (homing_group c st n i l env s).loc.axislock = step_pin c 2)) := by
  obtain ⟨g1, g2, g3, g4, g5, g6, g7⟩ := homing_group_setup_spec c st n i l s
  obtain ⟨a1, a2, _, _, _, a6, a7⟩ := homing_axis_loop_frame c st n i l s
  obtain ⟨p1, p2, p3, _, p5, p6, _, p8, p9⟩ := homing_poll_loop_frame c n i env
    (homing_group_setup c st n i l s).1 (homing_group_setup c st n i l s).2
  -- the result of the group differs from that of the poll loop by `st_reset()` at most
  have hgrp : (homing_group c st n i l env s).loc
        = (homing_poll_loop c n i env (homing_group_setup c st n i l s).1
            (homing_group_setup c st n i l s).2).loc ∧
      (homing_group c st n i l env s).sys.bel
        = (homing_poll_loop c n i env (homing_group_setup c st n i l s).1
            (homing_group_setup c st n i l s).2).sys.bel ∧
      (homing_group c st n i l env s).sys.sys_position
        = (homing_poll_loop c n i env (homing_group_setup c st n i l s).1
            (homing_group_setup c st n i l s).2).sys.sys_position ∧
      marks (homing_group c st n i l env s).sys.calls
        = marks (homing_poll_loop c n i env (homing_group_setup c st n i l s).1
            (homing_group_setup c st n i l s).2).sys.calls ∧
      wake_ups (homing_group c st n i l env s).sys.calls
        = wake_ups (homing_poll_loop c n i env (homing_group_setup c st n i l s).1
            (homing_group_setup c st n i l s).2).sys.calls := by
    unfold homing_group
    dsimp only
    rcases homing_poll_loop c n i env (homing_group_setup c st n i l s).1
      (homing_group_setup c st n i l s).2 with ⟨run, l2, s2, env2⟩
    cases run <;> simp [st_reset, marks_cons, wake_ups_cons]
  obtain ⟨q1, q2, q3, q4, q5⟩ := hgrp
  obtain ⟨hn, hph, hrate, htr⟩ := hinv
  have hap : (homing_group_setup c st n i l s).1.approach = l.approach := by rw [g1]; exact a1
  -- the snapshot of the `st_wake_up()`
  have hmk_poll : ∀ mk : Mark, mk.n_cycle = n → mk.i = i → mk.approach = l.approach →
      mk.override_flag = s.bel.stepper_limits_override_flag → mk.poll_ok c := by
    intro mk h1 h2 h3 h4
    refine ⟨by rw [h1]; exact hn, by rw [h2]; exact hi, by rw [h1, h3]; exact hph, ?_⟩
    rw [h4, h3]
    exact hflag
  refine ⟨?_, ?_, ?_, ?_, ?_, ?_⟩
  · rw [q1]
    refine ⟨hn, by rw [p1, hap]; exact hph, by rw [p2, p1, hap, g1, a2]; exact hrate, ?_⟩
    intro hne
    rw [p3, p1, hap, g1, a7 hne]
    exact htr hne
  · rw [q2, p5, g2]
  · rw [q3, p6, g3, a6]
    exact hlen
  · intro m hm
    rw [q4] at hm
    rcases p9 m hm with h | ⟨h1, h2, h3, h4⟩
    · rw [g6, List.mem_append, List.mem_singleton] at h
      rcases h with h | h
      · exact Or.inl h
      · right
        subst h
        exact hmk_poll _ rfl rfl rfl rfl
    · right
      rw [hap] at h3
      rw [g2] at h4
      exact hmk_poll m h1 h2 h3 h4
  · rw [q5, p8, g7]
    refine ⟨_, rfl, rfl, ?_⟩
    refine ⟨hrate, rfl, by simpa [a6] using hlen, ?_⟩
    intro hax
    obtain ⟨⟨z1, z2, z3⟩, ⟨x1, x2, x3, x4⟩⟩ := homing_axis_loop_values c st n l s hax
      ⟨hn, hph, hrate, htr⟩
    obtain ⟨hl0, hl1⟩ := hlock hax
    obtain ⟨hN, hX, hY, hZ⟩ := hax
    constructor
    · intro hi0
      change i = 0 at hi0
      subst hi0
      refine ⟨?_, ?_, ?_⟩
      · simp only [hN, List.range_succ, List.range_zero, List.nil_append, List.map_append,
          List.map_cons, List.map_nil, List.cons_append]
        simpa using z1
      · show (homing_axis_loop c st n 0 l s).1.axislock = step_pin c 2
        rw [z2, hl0 rfl]
        exact zero_or_step_pin c 2
      · intro h2
        show (homing_axis_loop c st n 0 l s).2.sys_position[2]? = some 0
        rw [z3]
        exact List.getElem?_set_self (by rw [hlen]; exact h2)
    · intro hi1
      change i = 1 at hi1
      subst hi1
      obtain ⟨hor, hret⟩ := hl1 rfl
      have hall : ((step_pin c 2 ||| step_pin c 0) % 256 ||| step_pin c 1) % 256
          = all_step_pins c := by
        simp [all_step_pins, hX, hY, hZ]
      have hxy : ((0 ||| step_pin c 0) % 256 ||| step_pin c 1) % 256 = xy_step_pins c := by
        rw [zero_or_step_pin]
        simp [xy_step_pins, hX, hY]
      refine ⟨?_, ?_, ?_, ?_, ?_⟩
      · simp only [hN, List.range_succ, List.range_zero, List.nil_append, List.map_append,
          List.map_cons, List.map_nil, List.cons_append]
        simpa using x1
      · simp only [hN, List.range_succ, List.range_zero, List.nil_append, List.map_append,
          List.map_cons, List.map_nil, List.cons_append]
        simpa using x2
      · show (homing_axis_loop c st n 1 l s).1.axislock = all_step_pins c ∨
          (homing_axis_loop c st n 1 l s).1.axislock = xy_step_pins c
        rw [x3]
        rcases hor with h | h
        · left; rw [h]; exact hall
        · right; rw [h]; exact hxy
      · intro hf
        show (homing_axis_loop c st n 1 l s).1.axislock = all_step_pins c
        rw [x3, hret hf]
        exact hall
      · intro h1
        show (homing_axis_loop c st n 1 l s).2.sys_position[0]? = some 0 ∧
          (homing_axis_loop c st n 1 l s).2.sys_position[1]? = some 0
        rw [x4]
        constructor
        · rw [List.getElem?_set_ne (by decide)]
          exact List.getElem?_set_self (by rw [hlen]; omega)
        · exact List.getElem?_set_self (by rw [List.length_set, hlen]; exact h1)
  · intro hax hi0
    subst hi0
    obtain ⟨⟨_, z2, _⟩, _⟩ := homing_axis_loop_values c st n l s hax ⟨hn, hph, hrate, htr⟩
    obtain ⟨hl0, _⟩ := hlock hax
    have hstart : (homing_group_setup c st n 0 l s).1.axislock = step_pin c 2 := by
      rw [g1, z2, hl0 rfl]
      exact zero_or_step_pin c 2
    have hZ2 : step_pin c 2 = step_pin c c.Z_AXIS := by rw [hax.2.2.2]
    obtain ⟨j1, j2⟩ := homing_poll_loop_axislock c n 0
      (fun a => a = step_pin c 2 ∨ a = 0)
      (by
        intro a ha
        right
        rcases ha with h | h
        · rw [h, hZ2]; exact (clear_locks_all c).1
        · rw [h]; exact clear_locks_zero c)
      env (homing_group_setup c st n 0 l s).1 (homing_group_setup c st n 0 l s).2
      (Or.inl hstart)
    rw [q1]
    refine ⟨j1, ?_⟩
    intro hf
    rw [j2 (by rw [hap]; exact hf)]
    exact hstart

/-- The end of a pass: the debounce delay is logged, the phase flips, and the travel and the rate
of the next pass are chosen by the new phase. -/
theorem homing_pass_end_spec (st : Settings) (l : Locals) (s : Sys) :
    (homing_pass_end st l s).2 = delay_ms st.homing_debounce_delay s ∧
    (homing_pass_end st l s).1.approach = (!l.approach) ∧
    (homing_pass_end st l s).1.homing_rate
      = (if l.approach then st.homing_seek_rate else st.homing_feed_rate) ∧
    (homing_pass_end st l s).1.max_travel
      = (if l.approach then st.homing_pulloff
         else st.homing_pulloff * HOMING_AXIS_LOCATE_SCALAR) := by
  cases h : l.approach <;> simp [homing_pass_end, h]

/-- The phase flips from one pass to the next. -/
theorem homing_phase_succ (c : Config) (k : Nat) (h : k + 1 ≤ 2 * c.N_HOMING_LOCATE_CYCLE + 1) :
    homing_phase c k = !homing_phase c (k + 1) := by
  unfold homing_phase
  have h2 : 2 * c.N_HOMING_LOCATE_CYCLE + 1 - k
      = (2 * c.N_HOMING_LOCATE_CYCLE + 1 - (k + 1)) + 1 := by omega
  have key : ∀ d : Nat, ((d + 1) % 2 == 0) = !(d % 2 == 0) := by
    intro d
    rcases Nat.mod_two_eq_zero_or_one d with h | h
    · have h1 : (d + 1) % 2 = 1 := by omega
      rw [h, h1]
      rfl
    · have h1 : (d + 1) % 2 = 0 := by omega
      rw [h, h1]
      rfl
  rw [h2]
  exact key _

/-- The override flag after `bel_set_steppers_limit_override_enable(!approach)`. -/
theorem set_limit_override_flag (ap : Bool) (s : Sys) :
    (set_limit_override (!ap) s).bel.stepper_limits_override_flag = (if ap then 0 else 0x40) ∧
    (set_limit_override (!ap) s).sys_position = s.sys_position ∧
    marks (set_limit_override (!ap) s).calls = marks s.calls ∧
    wake_ups (set_limit_override (!ap) s).calls = wake_ups s.calls := by
  cases ap <;>
    simp [set_limit_override, Bungard.bel_set_steppers_limit_override_enable, marks_cons,
      wake_ups_cons]

/-- One pass of the homing cycle. -/
theorem homing_pass_spec (c : Config) (st : Settings) (n : Nat) (l : Locals)
    (env : List Obs) (s : Sys) (len : Nat) (hinv : l.inv c st n)
    (hlen : s.sys_position.length = len) (r : Res) (hr : homing_pass c st n l env s = r) :
    r.sys.sys_position.length = len ∧
    (∀ m ∈ marks r.sys.calls, m ∈ marks s.calls ∨ m.poll_ok c) ∧
    (∀ m ∈ wake_ups r.sys.calls, m ∈ wake_ups s.calls ∨ m.wake_ok c st len) ∧
    (r.run = Run.finished →
      (wake_ups r.sys.calls).map Mark.key
        = (wake_ups s.calls).map Mark.key ++ [(n, 0, l.approach), (n, 1, l.approach)] ∧
      (∀ k, n = k + 1 → r.loc.inv c st k)) := by
  obtain ⟨f1, f2, f3, f4⟩ := set_limit_override_flag l.approach s
  have G0 := homing_group_spec c st n 0
    { l with target := c.system_convert_axis_steps_to_mpos s.sys_position, axislock := 0 }
    env (set_limit_override (!l.approach) s) len (Nat.zero_le 1) hinv f1 (by rw [f2]; exact hlen)
    (fun _ => ⟨fun _ => rfl, fun h => absurd h (by decide)⟩)
  unfold homing_pass at hr
  dsimp only at hr G0
  rcases hr0 : homing_group c st n 0
    { l with target := c.system_convert_axis_steps_to_mpos s.sys_position, axislock := 0 }
    env (set_limit_override (!l.approach) s) with ⟨run0, l2, s2, env2⟩
  rw [hr0] at hr G0
  dsimp only at G0
  obtain ⟨a1, a2, a3, a4, ⟨mk0, a5, a6, a7⟩, a8⟩ := G0
  rw [f3] at a4
  rw [f4] at a5
  have hw0 : ∀ m ∈ wake_ups s2.calls, m ∈ wake_ups s.calls ∨ m.wake_ok c st len := by
    intro m hm
    rw [a5, List.mem_append, List.mem_singleton] at hm
    rcases hm with h | h
    · exact Or.inl h
    · right; rw [h]; exact a7
  have hap2 : l2.approach = l.approach := by
    obtain ⟨_, h, _⟩ := a1
    obtain ⟨_, h', _⟩ := hinv
    rw [h, h']
  cases run0
  case returned =>
    subst hr
    exact ⟨a3, a4, hw0, fun h => by cases h⟩
  case starved =>
    subst hr
    exact ⟨a3, a4, hw0, fun h => by cases h⟩
  case finished =>
    dsimp only at hr
    have G1 := homing_group_spec c st n 1 l2 env2 s2 len (Nat.le_refl 1) a1
      (by rw [a2, f1, hap2]) a3
      (fun hax => ⟨fun h => absurd h (by decide), fun _ => by
        obtain ⟨b1, b2⟩ := a8 hax rfl
        exact ⟨b1, fun h => b2 (by rw [← hap2]; exact h)⟩⟩)
    rcases hr1 : homing_group c st n 1 l2 env2 s2 with ⟨run1, l3, s3, env3⟩
    rw [hr1] at hr G1
    dsimp only at G1
    obtain ⟨c1, c2, c3, c4, ⟨mk1, c5, c6, c7⟩, _⟩ := G1
    have hm1 : ∀ m ∈ marks s3.calls, m ∈ marks s.calls ∨ m.poll_ok c := by
      intro m hm
      rcases c4 m hm with h | h
      · exact a4 m h
      · exact Or.inr h
    have hw1 : ∀ m ∈ wake_ups s3.calls, m ∈ wake_ups s.calls ∨ m.wake_ok c st len := by
      intro m hm
      rw [c5, List.mem_append, List.mem_singleton] at hm
      rcases hm with h | h
      · exact hw0 m h
      · right; rw [h]; exact c7
    cases run1
    case returned =>
      subst hr
      exact ⟨c3, hm1, hw1, fun h => by cases h⟩
    case starved =>
      subst hr
      exact ⟨c3, hm1, hw1, fun h => by cases h⟩
    case finished =>
      dsimp only at hr
      obtain ⟨e1, e2, e3, e4⟩ := homing_pass_end_spec st l3 s3
      subst hr
      dsimp only
      have hap3 : l3.approach = l.approach := by
        obtain ⟨_, h, _⟩ := c1
        obtain ⟨_, h', _⟩ := hinv
        rw [h, h']
      refine ⟨?_, ?_, ?_, fun _ => ⟨?_, ?_⟩⟩
      · rw [e1]; exact c3
      · rw [e1]; simpa [delay_ms, marks_cons] using hm1
      · rw [e1]; simpa [delay_ms, wake_ups_cons] using hw1
      · rw [e1]
        simp only [delay_ms, wake_ups_cons, List.append_nil]
        rw [c5, a5]
        simp [a6, c6, hap2]
      · intro k hk
        obtain ⟨hn, hph, _, _⟩ := hinv
        subst hk
        have hne : k ≠ 2 * c.N_HOMING_LOCATE_CYCLE + 1 := by omega
        have hph2 : homing_phase c k = !l.approach := by
          rw [homing_phase_succ c k hn, ← hph]
        refine ⟨by omega, by rw [e2, hap3, hph2], ?_, fun _ => ?_⟩
        · rw [e3, e2, hap3]
          cases l.approach <;> simp [homing_rate_of, hne]
        · rw [e4, e2, hap3]
          cases l.approach <;> simp [homing_travel, hne]

/-- The passes of the homing cycle from `n_cycle = n` down to `0`. -/
theorem homing_passes_spec (c : Config) (st : Settings) (len : Nat) (n : Nat) :
    ∀ (l : Locals) (env : List Obs) (s : Sys), l.inv c st n → s.sys_position.length = len →
    ∀ r : Res, homing_passes c st n l env s = r →
    r.sys.sys_position.length = len ∧
    (∀ m ∈ marks r.sys.calls, m ∈ marks s.calls ∨ m.poll_ok c) ∧
    (∀ m ∈ wake_ups r.sys.calls, m ∈ wake_ups s.calls ∨ m.wake_ok c st len) ∧
    (r.run = Run.finished →
      (wake_ups r.sys.calls).map Mark.key
        = (wake_ups s.calls).map Mark.key ++ homing_schedule c n) := by
  induction n with
  | zero =>
    intro l env s hinv hlen r hr
    obtain ⟨p1, p2, p3, p4⟩ := homing_pass_spec c st 0 l env s len hinv hlen r hr
    refine ⟨p1, p2, p3, fun h => ?_⟩
    rw [(p4 h).1, hinv.2.1]
    rfl
  | succ n ih =>
    intro l env s hinv hlen r hr
    unfold homing_passes at hr
    rcases hp : homing_pass c st (n + 1) l env s with ⟨run1, l1, s1, env1⟩
    obtain ⟨p1, p2, p3, p4⟩ := homing_pass_spec c st (n + 1) l env s len hinv hlen _ hp
    rw [hp] at hr
    dsimp only at p1 p2 p3 p4
    cases run1
    case returned =>
      subst hr
      exact ⟨p1, p2, p3, fun h => by cases h⟩
    case starved =>
      subst hr
      exact ⟨p1, p2, p3, fun h => by cases h⟩
    case finished =>
      dsimp only at hr
      obtain ⟨q1, q2⟩ := p4 rfl
      obtain ⟨i1, i2, i3, i4⟩ := ih l1 env1 s1 (q2 n rfl) p1 r hr
      refine ⟨i1, ?_, ?_, fun h => ?_⟩
      · intro m hm
        rcases i2 m hm with h | h
        · exact p2 m h
        · exact Or.inr h
      · intro m hm
        rcases i3 m hm with h | h
        · exact p3 m h
        · exact Or.inr h
      · rw [i4 h, q1, hinv.2.1, List.append_assoc]
        rfl

/-- Zeroing the position of every axis. -/
theorem zero_positions (n : Nat) (p : List Int) (h : p.length = n) :
    (List.range n).foldl (fun p idx => p.set idx 0) p = List.replicate n 0 := by
  have key : ∀ k : Nat, ((List.range k).foldl (fun p idx => p.set idx 0) p).length = p.length ∧
      ∀ j : Nat, ((List.range k).foldl (fun p idx => p.set idx 0) p)[j]?
        = if j < k ∧ j < p.length then some 0 else p[j]? := by
    intro k
    induction k with
    | zero => simp
    | succ k ih =>
      obtain ⟨h1, h2⟩ := ih
      rw [List.range_succ, List.foldl_append]
      simp only [List.foldl_cons, List.foldl_nil, List.length_set]
      refine ⟨h1, fun j => ?_⟩
      rw [List.getElem?_set, h1, h2 j]
      by_cases hjk : k = j
      · subst hjk
        by_cases hl : k < p.length
        · simp [hl]
        · simp [hl]
          omega
      · have : j < k + 1 ∧ j < p.length ↔ j < k ∧ j < p.length := by omega
        simp [hjk, this]
  obtain ⟨h1, h2⟩ := key n
  apply List.ext_getElem?
  intro j
  rw [h2 j]
  by_cases hj : j < n
  · simp [hj, h, List.getElem?_replicate]
  · have hj2 : ¬ (j < n ∧ j < p.length) := by omega
    rw [if_neg hj2, List.getElem?_eq_none (by omega), List.getElem?_eq_none (by simp; omega)]

/-- The homing cycle as a whole, entered without an abort. -/
theorem limits_go_home_spec (c : Config) (st : Settings) (env : List Obs) (s : Sys)
    (hN : 2 * c.N_HOMING_LOCATE_CYCLE + 1 < 256) (hab : s.abort = false)
    (hlen : s.sys_position.length = c.N_AXIS) (r : Res) (hr : limits_go_home c st env s = r) :
    (∀ m ∈ marks r.sys.calls, m ∈ marks s.calls ∨ m.poll_ok c) ∧
    (∀ m ∈ wake_ups r.sys.calls, m ∈ wake_ups s.calls ∨ m.wake_ok c st c.N_AXIS) ∧
    (r.run = Run.finished →
      (wake_ups r.sys.calls).map Mark.key
        = (wake_ups s.calls).map Mark.key
          ++ homing_schedule c (2 * c.N_HOMING_LOCATE_CYCLE + 1) ∧
      r.sys.sys_position = List.replicate c.N_AXIS 0 ∧
      r.sys.bel.stepper_limits_override_flag = 0x40 ∧
      r.sys.step_control = c.STEP_CONTROL_NORMAL_OP) := by
  have hinv : Locals.inv c st (2 * c.N_HOMING_LOCATE_CYCLE + 1)
      { approach := true, homing_rate := st.homing_seek_rate, axislock := 0,
        max_travel := 0, target := fun _ => 0 } := by
    refine ⟨Nat.le_refl _, ?_, ?_, fun h => absurd rfl h⟩
    · simp [homing_phase]
    · simp [homing_rate_of]
  unfold limits_go_home at hr
  rw [if_neg (by rw [hab]; decide), Nat.mod_eq_of_lt hN] at hr
  dsimp only at hr
  rcases hp : homing_passes c st (2 * c.N_HOMING_LOCATE_CYCLE + 1)
    { approach := true, homing_rate := st.homing_seek_rate, axislock := 0,
      max_travel := 0, target := fun _ => 0 } env s with ⟨run1, l1, s1, env1⟩
  obtain ⟨p1, p2, p3, p4⟩ := homing_passes_spec c st c.N_AXIS _ _ env s hinv hlen _ hp
  rw [hp] at hr
  dsimp only at p1 p2 p3 p4
  cases run1
  case returned =>
    subst hr
    exact ⟨p2, p3, fun h => by cases h⟩
  case starved =>
    subst hr
    exact ⟨p2, p3, fun h => by cases h⟩
  case finished =>
    dsimp only at hr
    subst hr
    refine ⟨?_, ?_, fun _ => ⟨?_, ?_, ?_, ?_⟩⟩
    · simpa [set_limit_override, marks_cons] using p2
    · simpa [set_limit_override, wake_ups_cons] using p3
    · simpa [set_limit_override, wake_ups_cons] using p4 rfl
    · simpa [set_limit_override] using zero_positions c.N_AXIS s1.sys_position p1
    · simp [set_limit_override, Bungard.bel_set_steppers_limit_override_enable]
    · simp [set_limit_override]

/-- Every `st_wake_up()` snapshot is among the snapshots. -/
theorem wake_ups_sub_marks (calls : List Call) (m : Mark) (h : m ∈ wake_ups calls) :
    m ∈ marks calls := by
  induction calls with
  | nil => simp [wake_ups] at h
  | cons e t ih =>
    rw [wake_ups_cons, List.mem_append] at h
    rw [marks_cons, List.mem_append]
    rcases h with h | h
    · exact Or.inl (ih h)
    · right
      cases e <;> first | exact h | simp at h

/-- A group never writes the state of `bungard.c`. -/
theorem homing_group_bel (c : Config) (st : Settings) (n i : Nat) (l : Locals)
    (env : List Obs) (s : Sys) : (homing_group c st n i l env s).sys.bel = s.bel := by
  have g2 := (homing_group_setup_spec c st n i l s).2.1
  have p5 := (homing_poll_loop_frame c n i env (homing_group_setup c st n i l s).1
    (homing_group_setup c st n i l s).2).2.2.2.2.1
  unfold homing_group
  dsimp only
  rcases hr : homing_poll_loop c n i env (homing_group_setup c st n i l s).1
    (homing_group_setup c st n i l s).2 with ⟨run, l2, s2, env2⟩
  rw [hr] at p5
  dsimp only at p5
  cases run <;> simp [st_reset, p5, g2]

theorem homing_schedule_length (c : Config) (n : Nat) :
    (homing_schedule c n).length = 2 * (n + 1) := by
  induction n with
  | zero => rfl
  | succ n ih =>
    unfold homing_schedule
    simp only [List.length_cons, ih]
    omega

/-- Pass number `j` of the schedule: both groups, with `n_cycle = n - j`. -/
theorem homing_schedule_get (c : Config) (n : Nat) : ∀ j, j ≤ n →
    (homing_schedule c n)[2 * j]? = some (n - j, 0, homing_phase c (n - j)) ∧
    (homing_schedule c n)[2 * j + 1]? = some (n - j, 1, homing_phase c (n - j)) := by
  induction n with
  | zero =>
    intro j hj
    have : j = 0 := by omega
    subst this
    exact ⟨rfl, rfl⟩
  | succ n ih =>
    intro j hj
    unfold homing_schedule
    cases j with
    | zero => simp
    | succ j =>
      obtain ⟨h1, h2⟩ := ih j (by omega)
      have e1 : 2 * (j + 1) = 2 * j + 1 + 1 := by omega
      have e3 : n + 1 - (j + 1) = n - j := by omega
      rw [e1, e3]
      simp only [List.getElem?_cons_succ]
      exact ⟨h1, h2⟩

/-- The phase of pass number `j`, counted from 0: approach exactly when `j` is even. -/
theorem homing_phase_pass (c : Config) (j : Nat) (h : j ≤ 2 * c.N_HOMING_LOCATE_CYCLE + 1) :
    homing_phase c (2 * c.N_HOMING_LOCATE_CYCLE + 1 - j) = (j % 2 == 0) := by
  unfold homing_phase
  have e : 2 * c.N_HOMING_LOCATE_CYCLE + 1 - (2 * c.N_HOMING_LOCATE_CYCLE + 1 - j) = j := by
    omega
  rw [e]

/-- The snapshots of a homing cycle entered with an empty log. -/
theorem limits_go_home_marks (c : Config) (st : Settings) (env : List Obs) (s : Sys)
    (hN : 2 * c.N_HOMING_LOCATE_CYCLE + 1 < 256) (hab : s.abort = false)
    (hlen : s.sys_position.length = c.N_AXIS) (hlog : s.calls = []) :
    (∀ m ∈ marks (limits_go_home c st env s).sys.calls, m.poll_ok c) ∧
    (∀ m ∈ wake_ups (limits_go_home c st env s).sys.calls,
      m.poll_ok c ∧ m.wake_ok c st c.N_AXIS) ∧
    ((limits_go_home c st env s).run = Run.finished →
      (wake_ups (limits_go_home c st env s).sys.calls).map Mark.key
        = homing_schedule c (2 * c.N_HOMING_LOCATE_CYCLE + 1)) := by
  obtain ⟨p1, p2, p3⟩ := limits_go_home_spec c st env s hN hab hlen _ rfl
  have hm : ∀ m ∈ marks (limits_go_home c st env s).sys.calls, m.poll_ok c := by
    intro m hm
    rcases p1 m hm with h | h
    · rw [hlog] at h
      simp [marks] at h
    · exact h
  refine ⟨hm, ?_, ?_⟩
  · intro m hw
    refine ⟨hm m (wake_ups_sub_marks _ m hw), ?_⟩
    rcases p2 m hw with h | h
    · rw [hlog] at h
      simp [wake_ups] at h
    · exact h
  · intro hf
    rw [(p3 hf).1, hlog]
    simp [wake_ups]

theorem homing_phase_first (c : Config) :
    homing_phase c (2 * c.N_HOMING_LOCATE_CYCLE + 1) = true := by
  simp [homing_phase]

theorem homing_phase_second (c : Config) :
    homing_phase c (2 * c.N_HOMING_LOCATE_CYCLE) = false := by
  have e : 2 * c.N_HOMING_LOCATE_CYCLE + 1 - 2 * c.N_HOMING_LOCATE_CYCLE = 1 := by omega
  unfold homing_phase
  rw [e]
  rfl

/-- A poll loop that sees EXEC_CYCLE_STOP alone, outside an X/Y approach and with no alarm
pending, ends by `break` in that iteration. -/
theorem homing_poll_loop_stop (c : Config) (n i : Nat) (l : Locals) (s : Sys) (rest : List Obs)
    (hi : ¬ (i = 1 ∧ l.approach = true)) (halarm : s.sys_rt_exec_alarm = 0)
    (hstop : c.EXEC_CYCLE_STOP &&&
      (c.EXEC_SAFETY_DOOR ||| c.EXEC_RESET ||| c.EXEC_CYCLE_STOP) ≠ 0)
    (hR : c.EXEC_CYCLE_STOP &&& c.EXEC_RESET = 0)
    (hD : c.EXEC_CYCLE_STOP &&& c.EXEC_SAFETY_DOOR = 0) :
    (homing_poll_loop c n i (obs_cycle_stop c :: rest) l s).run = Run.finished ∧
    (homing_poll_loop c n i (obs_cycle_stop c :: rest) l s).env = rest ∧
    (homing_poll_loop c n i (obs_cycle_stop c :: rest) l s).loc = l ∧
    (homing_poll_loop c n i (obs_cycle_stop c :: rest) l s).sys.sys_rt_exec_alarm = 0 := by
  have hi2 : ¬ (i = 1 ∧ l.approach = true ∧ c.EXEC_CYCLE_STOP &&& c.EXEC_CYCLE_STOP ≠ 0) :=
    fun h => hi ⟨h.1, h.2.1⟩
  unfold homing_poll_loop
  simp only [homing_poll_body, observe, obs_cycle_stop, st_prep_buffer, system_set_exec_alarm,
    mc_reset, protocol_execute_realtime, system_clear_exec_state_flag, hstop, hR, hD, hi2,
    halarm, Nat.zero_and, bne_self_eq_false, Bool.and_false, Bool.false_eq_true, if_false,
    if_true, ne_eq, not_true_eq_false, not_false_eq_true]
  exact ⟨trivial, trivial, trivial, trivial⟩

/-- An approach poll loop that sees the home-status input with no realtime flag, from a lock
that the three step pins cover, ends at its test in that iteration. -/
theorem homing_poll_loop_home (c : Config) (n i : Nat) (l : Locals) (s : Sys) (rest : List Obs)
    (hap : l.approach = true) (hz : clear_locks c l.axislock = 0) :
    (homing_poll_loop c n i (obs_home_status :: rest) l s).run = Run.finished ∧
    (homing_poll_loop c n i (obs_home_status :: rest) l s).env = rest ∧
    (homing_poll_loop c n i (obs_home_status :: rest) l s).loc.approach = true ∧
    (homing_poll_loop c n i (obs_home_status :: rest) l s).sys.sys_rt_exec_alarm
      = s.sys_rt_exec_alarm := by
  have h4 : ((4 : Nat) &&& 4 != 0) = true := by decide
  unfold clear_locks at hz
  unfold homing_poll_loop
  simp only [homing_poll_body, observe, obs_home_status, st_prep_buffer, hap, h4, hz,
    Bool.and_self, Nat.zero_and, Nat.and_zero, if_true, if_false, ne_eq, not_true_eq_false]
  exact ⟨trivial, trivial, trivial, trivial⟩

/-- The statements of a group before its poll loop leave the pending alarm alone and, with
the axes numbered X, Y, Z, lock the step pins of the group on top of the lock they find. -/
theorem homing_group_setup_lock (c : Config) (st : Settings) (n : Nat) (l : Locals) (s : Sys)
    (hax : c.std_axes) :
    (∀ i, i ≤ 1 → (homing_group_setup c st n i l s).2.sys_rt_exec_alarm = s.sys_rt_exec_alarm) ∧
    (∀ i, (homing_group_setup c st n i l s).1.approach = l.approach) ∧
    (homing_group_setup c st n 0 l s).1.axislock = (l.axislock ||| step_pin c 2) % 256 ∧
    (homing_group_setup c st n 1 l s).1.axislock
      = ((l.axislock ||| step_pin c 0) % 256 ||| step_pin c 1) % 256 := by
  obtain ⟨e0, e1⟩ := homing_axis_loop_std c st n l s hax
  have hs : ∀ i, (homing_group_setup c st n i l s).2.sys_rt_exec_alarm
      = (homing_axis_loop c st n i l s).2.sys_rt_exec_alarm := by
    intro i
    simp [homing_group_setup, homing_motion_start, st_wake_up, st_prep_buffer, plan_buffer_line]
  refine ⟨fun i hi => ?_, fun i => ?_, ?_, ?_⟩
  · rw [hs i]
    have hi01 : i = 0 ∨ i = 1 := by omega
    rcases hi01 with h | h
    · rw [h, e0, homing_axis_setup_sys]
    · rw [h, e1, homing_axis_setup_sys, homing_axis_setup_sys]
  · rw [(homing_group_setup_spec c st n i l s).1]
    exact (homing_axis_loop_frame c st n i l s).1
  · rw [(homing_group_setup_spec c st n 0 l s).1, e0]
    exact (homing_axis_setup_loc c st n 2 l s).2.2.1
  · rw [(homing_group_setup_spec c st n 1 l s).1, e1,
      (homing_axis_setup_loc c st n 1 _ _).2.2.1, (homing_axis_setup_loc c st n 0 l s).2.2.1]

/-- One pass on the observations `pass_env`: both groups end and the pass is completed. -/
theorem homing_pass_finishes (c : Config) (st : Settings) (n : Nat) (l : Locals) (s : Sys)
    (rest : List Obs) (hax : c.std_axes) (halarm : s.sys_rt_exec_alarm = 0)
    (hstop : c.EXEC_CYCLE_STOP &&&
      (c.EXEC_SAFETY_DOOR ||| c.EXEC_RESET ||| c.EXEC_CYCLE_STOP) ≠ 0)
    (hR : c.EXEC_CYCLE_STOP &&& c.EXEC_RESET = 0)
    (hD : c.EXEC_CYCLE_STOP &&& c.EXEC_SAFETY_DOOR = 0) :
    (homing_pass c st n l (pass_env c l.approach ++ rest) s).run = Run.finished ∧
    (homing_pass c st n l (pass_env c l.approach ++ rest) s).env = rest ∧
    (homing_pass c st n l (pass_env c l.approach ++ rest) s).loc.approach = (!l.approach) ∧
    (homing_pass c st n l (pass_env c l.approach ++ rest) s).sys.sys_rt_exec_alarm = 0 := by
  -- group 0
  obtain ⟨a1, a2, a3, _⟩ := homing_group_setup_lock c st n
    { l with target := c.system_convert_axis_steps_to_mpos s.sys_position, axislock := 0 }
    (set_limit_override (!l.approach) s) hax
  have halarm1 : (set_limit_override (!l.approach) s).sys_rt_exec_alarm = 0 := halarm
  obtain ⟨b1, b2, b3, b4⟩ := homing_poll_loop_stop c n 0
    (homing_group_setup c st n 0
      { l with target := c.system_convert_axis_steps_to_mpos s.sys_position, axislock := 0 }
      (set_limit_override (!l.approach) s)).1
    (homing_group_setup c st n 0
      { l with target := c.system_convert_axis_steps_to_mpos s.sys_position, axislock := 0 }
      (set_limit_override (!l.approach) s)).2
    ((if l.approach then obs_home_status else obs_cycle_stop c) :: rest)
    (fun h => absurd h.1 (by decide)) (by rw [a1 0 (by decide)]; exact halarm1) hstop hR hD
  unfold homing_pass pass_env
  dsimp only
  unfold homing_group
  dsimp only
  simp only [List.cons_append, List.nil_append]
  rcases hp0 : homing_poll_loop c n 0
    (obs_cycle_stop c :: (if l.approach then obs_home_status else obs_cycle_stop c) :: rest)
    (homing_group_setup c st n 0
      { l with target := c.system_convert_axis_steps_to_mpos s.sys_position, axislock := 0 }
      (set_limit_override (!l.approach) s)).1
    (homing_group_setup c st n 0
      { l with target := c.system_convert_axis_steps_to_mpos s.sys_position, axislock := 0 }
      (set_limit_override (!l.approach) s)).2 with ⟨run0, l2, s2, env2⟩
  rw [hp0] at b1 b2 b3 b4
  dsimp only at b1 b2 b3 b4
  subst b1
  subst b2
  dsimp only
  have hl2a : l2.approach = l.approach := by rw [b3]; exact a2 0
  have hl2k : l2.axislock = step_pin c 2 := by
    rw [b3, a3]
    exact zero_or_step_pin c 2
  -- group 1
  obtain ⟨c1, c2, _, c4⟩ := homing_group_setup_lock c st n l2 (st_reset s2) hax
  have halarm2 : (st_reset s2).sys_rt_exec_alarm = 0 := b4
  have hall : (homing_group_setup c st n 1 l2 (st_reset s2)).1.axislock = all_step_pins c := by
    rw [c4, hl2k]
    simp [all_step_pins, hax.2.1, hax.2.2.1, hax.2.2.2]
  have hfin : (homing_poll_loop c n 1
        ((if l.approach then obs_home_status else obs_cycle_stop c) :: rest)
        (homing_group_setup c st n 1 l2 (st_reset s2)).1
        (homing_group_setup c st n 1 l2 (st_reset s2)).2).run = Run.finished ∧
      (homing_poll_loop c n 1
        ((if l.approach then obs_home_status else obs_cycle_stop c) :: rest)
        (homing_group_setup c st n 1 l2 (st_reset s2)).1
        (homing_group_setup c st n 1 l2 (st_reset s2)).2).env = rest ∧
      (homing_poll_loop c n 1
        ((if l.approach then obs_home_status else obs_cycle_stop c) :: rest)
        (homing_group_setup c st n 1 l2 (st_reset s2)).1
        (homing_group_setup c st n 1 l2 (st_reset s2)).2).loc.approach = l.approach ∧
      (homing_poll_loop c n 1
        ((if l.approach then obs_home_status else obs_cycle_stop c) :: rest)
        (homing_group_setup c st n 1 l2 (st_reset s2)).1
        (homing_group_setup c st n 1 l2 (st_reset s2)).2).sys.sys_rt_exec_alarm = 0 := by
    cases hap : l.approach
    · simp only [Bool.false_eq_true, if_false]
      obtain ⟨d1, d2, d3, d4⟩ := homing_poll_loop_stop c n 1
        (homing_group_setup c st n 1 l2 (st_reset s2)).1
        (homing_group_setup c st n 1 l2 (st_reset s2)).2 rest
        (fun h => by
          have := h.2
          rw [c2 1, hl2a, hap] at this
          cases this)
        (by rw [c1 1 (by decide)]; exact halarm2) hstop hR hD
      refine ⟨d1, d2, ?_, d4⟩
      rw [d3, c2 1, hl2a, hap]
    · simp only [if_true]
      obtain ⟨d1, d2, d3, d4⟩ := homing_poll_loop_home c n 1
        (homing_group_setup c st n 1 l2 (st_reset s2)).1
        (homing_group_setup c st n 1 l2 (st_reset s2)).2 rest
        (by rw [c2 1, hl2a, hap])
        (by rw [hall]; exact (clear_locks_all c).2.1)
      refine ⟨d1, d2, d3, ?_⟩
      rw [d4, c1 1 (by decide)]
      exact halarm2
  rcases hp1 : homing_poll_loop c n 1
    ((if l.approach then obs_home_status else obs_cycle_stop c) :: rest)
    (homing_group_setup c st n 1 l2 (st_reset s2)).1
    (homing_group_setup c st n 1 l2 (st_reset s2)).2 with ⟨run1, l3, s3, env3⟩
  rw [hp1] at hfin
  dsimp only at hfin
  obtain ⟨f1, f2, f3, f4⟩ := hfin
  subst f1
  subst f2
  dsimp only
  obtain ⟨e1, e2, _, _⟩ := homing_pass_end_spec st l3 (st_reset s3)
  refine ⟨rfl, rfl, by rw [e2, f3], ?_⟩
  rw [e1]
  exact f4

/-- The passes from `n_cycle = n` down to 0 on the observations `homing_env c n`. -/
theorem homing_passes_finish (c : Config) (st : Settings) (hax : c.std_axes)
    (hstop : c.EXEC_CYCLE_STOP &&&
      (c.EXEC_SAFETY_DOOR ||| c.EXEC_RESET ||| c.EXEC_CYCLE_STOP) ≠ 0)
    (hR : c.EXEC_CYCLE_STOP &&& c.EXEC_RESET = 0)
    (hD : c.EXEC_CYCLE_STOP &&& c.EXEC_SAFETY_DOOR = 0) (n : Nat) :
    ∀ (l : Locals) (s : Sys), n ≤ 2 * c.N_HOMING_LOCATE_CYCLE + 1 →
      l.approach = homing_phase c n → s.sys_rt_exec_alarm = 0 →
      (homing_passes c st n l (homing_env c n) s).run = Run.finished := by
  induction n with
  | zero =>
    intro l s _ hph halarm
    unfold homing_passes homing_env
    rw [← hph]
    have := (homing_pass_finishes c st 0 l s [] hax halarm hstop hR hD).1
    rw [List.append_nil] at this
    exact this
  | succ n ih =>
    intro l s hn hph halarm
    unfold homing_passes homing_env
    rw [← hph]
    obtain ⟨p1, p2, p3, p4⟩ := homing_pass_finishes c st (n + 1) l s (homing_env c n) hax halarm
      hstop hR hD
    rcases hp : homing_pass c st (n + 1) l (pass_env c l.approach ++ homing_env c n) s
      with ⟨run1, l1, s1, env1⟩
    rw [hp] at p1 p2 p3 p4
    dsimp only at p1 p2 p3 p4
    subst p1
    subst p2
    dsimp only
    exact ih l1 s1 (by omega) (by rw [p3, hph, homing_phase_succ c n hn]) p4

/-- Enough observations let the homing cycle run to its end: entered without abort and with
no alarm pending, with the axes numbered X, Y, Z and EXEC_CYCLE_STOP a flag apart from
EXEC_RESET and EXEC_SAFETY_DOOR, the cycle finishes on the observations `homing_env`. -/
theorem limits_go_home_finishes (c : Config) (st : Settings) (s : Sys) (hax : c.std_axes)
    (hN : 2 * c.N_HOMING_LOCATE_CYCLE + 1 < 256) (hab : s.abort = false)
    (halarm : s.sys_rt_exec_alarm = 0)
    (hstop : c.EXEC_CYCLE_STOP &&&
      (c.EXEC_SAFETY_DOOR ||| c.EXEC_RESET ||| c.EXEC_CYCLE_STOP) ≠ 0)
    (hR : c.EXEC_CYCLE_STOP &&& c.EXEC_RESET = 0)
    (hD : c.EXEC_CYCLE_STOP &&& c.EXEC_SAFETY_DOOR = 0) :
    (limits_go_home c st (homing_env c (2 * c.N_HOMING_LOCATE_CYCLE + 1)) s).run
      = Run.finished := by
  have h := homing_passes_finish c st hax hstop hR hD (2 * c.N_HOMING_LOCATE_CYCLE + 1)
    { approach := true, homing_rate := st.homing_seek_rate, axislock := 0,
      max_travel := 0, target := fun _ => 0 } s (Nat.le_refl _)
    (homing_phase_first c).symm halarm
  unfold limits_go_home
  rw [if_neg (by rw [hab]; decide), Nat.mod_eq_of_lt hN]
  dsimp only
  rcases hp : homing_passes c st (2 * c.N_HOMING_LOCATE_CYCLE + 1)
    { approach := true, homing_rate := st.homing_seek_rate, axislock := 0,
      max_travel := 0, target := fun _ => 0 }
    (homing_env c (2 * c.N_HOMING_LOCATE_CYCLE + 1)) s with ⟨run1, l1, s1, env1⟩
  rw [hp] at h
  dsimp only at h
  subst h
  rfl

/-- A pass through the poll-loop body that sees none of the three exit flags ends at the loop
test and raises no alarm. -/
theorem homing_poll_body_quiet (c : Config) (i : Nat) (ap : Bool) (a : Nat) (s : Sys)
    (h : s.sys_rt_exec_state &&& (c.EXEC_SAFETY_DOOR ||| c.EXEC_RESET ||| c.EXEC_CYCLE_STOP) = 0) :
    (homing_poll_body c i ap a s).1 = Ctl.test ∧
    alarms_raised (homing_poll_body c i ap a s).2.2.calls = alarms_raised s.calls := by
  unfold homing_poll_body
  simp [st_prep_buffer, h, alarms_raised_cons]

/-- The alarms raised by a pass through the poll-loop body, oldest first. -/
theorem homing_poll_body_alarms (c : Config) (i : Nat) (ap : Bool) (a : Nat) (s : Sys) :
    alarms_raised (homing_poll_body c i ap a s).2.2.calls
      = alarms_raised s.calls
        ++ (if s.sys_rt_exec_state &&& c.EXEC_RESET ≠ 0
            then [c.EXEC_ALARM_HOMING_FAIL_RESET] else [])
        ++ (if s.sys_rt_exec_state &&& c.EXEC_SAFETY_DOOR ≠ 0
            then [c.EXEC_ALARM_HOMING_FAIL_DOOR] else [])
        ++ (if i = 1 ∧ ap = true ∧ s.sys_rt_exec_state &&& c.EXEC_CYCLE_STOP ≠ 0
            then [c.EXEC_ALARM_HOMING_FAIL_APPROACH] else []) := by
  by_cases hany : s.sys_rt_exec_state &&&
    (c.EXEC_SAFETY_DOOR ||| c.EXEC_RESET ||| c.EXEC_CYCLE_STOP) ≠ 0
  · unfold homing_poll_body
    simp only [st_prep_buffer, system_set_exec_alarm, mc_reset, protocol_execute_realtime,
      system_clear_exec_state_flag]
    split_ifs <;> simp [alarms_raised_cons]
  · have hR : ¬ s.sys_rt_exec_state &&& c.EXEC_RESET ≠ 0 :=
      fun h => hany (and_or3_ne_zero _ _ _ _ (Or.inr (Or.inl h)))
    have hD : ¬ s.sys_rt_exec_state &&& c.EXEC_SAFETY_DOOR ≠ 0 :=
      fun h => hany (and_or3_ne_zero _ _ _ _ (Or.inl h))
    have hS : ¬ (i = 1 ∧ ap = true ∧ s.sys_rt_exec_state &&& c.EXEC_CYCLE_STOP ≠ 0) :=
      fun h => hany (and_or3_ne_zero _ _ _ _ (Or.inr (Or.inr h.2.2)))
    rw [if_neg hR, if_neg hD, if_neg hS]
    simp only [List.append_nil]
    exact (homing_poll_body_quiet c i ap a s (not_not.mp hany)).2

/-- C11, counterexample: an approach iteration of the X/Y group in which the home-status input
(PINB bit 2) is asserted while EXEC_CYCLE_STOP is set clears the locks, but it raises
EXEC_ALARM_HOMING_FAIL_APPROACH and leaves `limits_go_home` with `return`. -/
theorem homing_switch_hit_counterexample :
    loc_xy_approach.approach = true ∧ obs_home_stop.PINB &&& 0x4 ≠ 0 ∧
    (homing_poll_loop cfg328 3 1 [obs_home_stop] loc_xy_approach {}).run = Run.returned ∧
    (homing_poll_loop cfg328 3 1 [obs_home_stop] loc_xy_approach {}).loc.axislock = 0 ∧
    alarms_raised (homing_poll_loop cfg328 3 1 [obs_home_stop] loc_xy_approach {}).sys.calls
      = [cfg328.EXEC_ALARM_HOMING_FAIL_APPROACH] ∧
    Call.mc_reset ∈ (homing_poll_loop cfg328 3 1 [obs_home_stop] loc_xy_approach {}).sys.calls := by
  decide

/-- Amended C11: an approach poll iteration of `limits_go_home` in which the home-status
input (PINB bit 2) is asserted, entered with the axis lock of a group, is the last iteration
of the poll loop of that group and leaves the axis lock (the local and
`sys.homing_axis_lock`) cleared.  The alarms it raises are those of the exit routine:
EXEC_ALARM_HOMING_FAIL_APPROACH is raised exactly when the group is X/Y (`i = 1`) and
EXEC_CYCLE_STOP is set in that iteration.  When none of EXEC_SAFETY_DOOR, EXEC_RESET and
EXEC_CYCLE_STOP is set in that iteration, no alarm is raised and the loop is left by its
test, so that homing goes on with `st_reset()` and the next group or pass. -/
theorem homing_switch_hit (c : Config) (n i : Nat) (o : Obs) (env : List Obs) (l : Locals)
    (s : Sys) (hap : l.approach = true) (hpin : o.PINB &&& 0x4 ≠ 0)
    (hlock : l.axislock = step_pin c c.Z_AXIS ∨ l.axislock = xy_step_pins c ∨
      l.axislock = all_step_pins c) :
    (homing_poll_loop c n i (o :: env) l s).env = env ∧
    (homing_poll_loop c n i (o :: env) l s).loc.axislock = 0 ∧
    (homing_poll_loop c n i (o :: env) l s).sys.homing_axis_lock = 0 ∧
    alarms_raised (homing_poll_loop c n i (o :: env) l s).sys.calls
      = alarms_raised s.calls
        ++ (if o.sys_rt_exec_state &&& c.EXEC_RESET ≠ 0
            then [c.EXEC_ALARM_HOMING_FAIL_RESET] else [])
        ++ (if o.sys_rt_exec_state &&& c.EXEC_SAFETY_DOOR ≠ 0
            then [c.EXEC_ALARM_HOMING_FAIL_DOOR] else [])
        ++ (if i = 1 ∧ o.sys_rt_exec_state &&& c.EXEC_CYCLE_STOP ≠ 0
            then [c.EXEC_ALARM_HOMING_FAIL_APPROACH] else []) ∧
    (o.sys_rt_exec_state &&& (c.EXEC_SAFETY_DOOR ||| c.EXEC_RESET ||| c.EXEC_CYCLE_STOP) = 0 →
      (homing_poll_loop c n i (o :: env) l s).run = Run.finished ∧
      alarms_raised (homing_poll_loop c n i (o :: env) l s).sys.calls = alarms_raised s.calls) := by
  have hz : clear_locks c l.axislock = 0 := by
    rcases hlock with h | h | h
    · rw [h]; exact (clear_locks_all c).1
    · rw [h]; exact (clear_locks_all c).2.2
    · rw [h]; exact (clear_locks_all c).2.1
  obtain ⟨_, _, _, _, _, b6, b7⟩ := homing_poll_body_frame c i l.approach l.axislock
    { observe o s with
      calls := Call.poll (homing_mark c n i l (observe o s)) :: (observe o s).calls }
  have bq := homing_poll_body_quiet c i l.approach l.axislock
    { observe o s with
      calls := Call.poll (homing_mark c n i l (observe o s)) :: (observe o s).calls }
  have ba := homing_poll_body_alarms c i l.approach l.axislock
    { observe o s with
      calls := Call.poll (homing_mark c n i l (observe o s)) :: (observe o s).calls }
  unfold homing_poll_loop
  dsimp only
  rcases hb : homing_poll_body c i l.approach l.axislock
    { observe o s with
      calls := Call.poll (homing_mark c n i l (observe o s)) :: (observe o s).calls }
    with ⟨ctl, a, s2⟩
  rw [hb] at b6 b7 ba bq
  have hpin2 : (o.PINB &&& 4 != 0) = true := by simpa using hpin
  have hpb : (observe o s).PINB = o.PINB := rfl
  have hst : (observe o s).sys_rt_exec_state = o.sys_rt_exec_state := rfl
  have hcl : (observe o s).calls = s.calls := rfl
  simp only [hap, hpb, hpin2, Bool.and_self, if_true, hz] at b6
  simp only [alarms_raised_cons, List.append_nil, hap, true_and, hst, hcl] at ba bq
  subst b6
  simp only at b7
  cases ctl
  case returned =>
    refine ⟨rfl, rfl, b7, ba, fun h => ?_⟩
    have := (bq h).1
    cases this
  case broke =>
    refine ⟨rfl, rfl, b7, ba, fun h => ?_⟩
    have := (bq h).1
    cases this
  case test =>
    have hcond : ¬ (c.STEP_MASK &&& 0 ≠ 0) := by simp
    dsimp only
    rw [if_neg hcond]
    exact ⟨rfl, rfl, b7, ba, fun h => ⟨rfl, (bq h).2⟩⟩

/-- The amended claim C11 at the X/Y search approach of `cfg328` with the home-status input
asserted and no realtime flag set. -/
theorem homing_switch_hit_witness :
    loc_xy_approach.approach = true ∧ obs_home.PINB &&& 0x4 ≠ 0 ∧
    loc_xy_approach.axislock = xy_step_pins cfg328 ∧
    (homing_poll_loop cfg328 3 1 (obs_home :: [obs_stop]) loc_xy_approach {}).env = [obs_stop] ∧
    (homing_poll_loop cfg328 3 1 (obs_home :: [obs_stop]) loc_xy_approach {}).run
      = Run.finished ∧
    (homing_poll_loop cfg328 3 1 (obs_home :: [obs_stop]) loc_xy_approach {}).loc.axislock
      = 0 ∧
    alarms_raised
      (homing_poll_loop cfg328 3 1 (obs_home :: [obs_stop]) loc_xy_approach {}).sys.calls
      = [] :=
  have h := homing_switch_hit cfg328 3 1 obs_home [obs_stop] loc_xy_approach {} rfl
    (by decide) (Or.inr (Or.inl (by decide)))
  ⟨rfl, by decide, by decide, h.1, (h.2.2.2.2 (by decide)).1, h.2.1,
    (h.2.2.2.2 (by decide)).2⟩

/-- C12: in a homing cycle entered without an abort, every motion started in the pass after
the search approach (`n_cycle = 2*N_HOMING_LOCATE_CYCLE`) is a retreat whose target is the
pull-off distance for every axis of its group (`-homing_pulloff` for Z, `+homing_pulloff`
for X and Y, the position of these axes having been zeroed); the search travel
`HOMING_AXIS_SEARCH_SCALAR x max_travel[axis]` is the target in the first pass
(`n_cycle = 2*N_HOMING_LOCATE_CYCLE+1`) and in no later pass, where the targets are made of
the pull-off distance.  A cycle that runs to its end does start both motions of that retreat
pass. -/
theorem retreat_uses_pulloff (c : Config) (st : Settings) (env : List Obs) (s : Sys)
    (hax : c.std_axes) (hN : 2 * c.N_HOMING_LOCATE_CYCLE + 1 < 256) (hab : s.abort = false)
    (hlen : s.sys_position.length = c.N_AXIS) (hlog : s.calls = []) :
    (∀ m ∈ wake_ups (limits_go_home c st env s).sys.calls,
      (m.n_cycle = 2 * c.N_HOMING_LOCATE_CYCLE + 1 →
        m.approach = true ∧
        (m.i = 0 → m.target[2]? = some ((-HOMING_AXIS_SEARCH_SCALAR) * st.max_travel 2)) ∧
        (m.i = 1 →
          m.target[0]? = some (-((-HOMING_AXIS_SEARCH_SCALAR) * st.max_travel 0)) ∧
          m.target[1]? = some (-((-HOMING_AXIS_SEARCH_SCALAR) * st.max_travel 1)))) ∧
      (m.n_cycle = 2 * c.N_HOMING_LOCATE_CYCLE →
        m.approach = false ∧
        (m.i = 0 → m.target[2]? = some (-st.homing_pulloff)) ∧
        (m.i = 1 →
          m.target[0]? = some st.homing_pulloff ∧ m.target[1]? = some st.homing_pulloff)) ∧
      (m.n_cycle ≠ 2 * c.N_HOMING_LOCATE_CYCLE + 1 →
        (m.i = 0 → m.target[2]? = some (if m.approach
          then st.homing_pulloff * HOMING_AXIS_LOCATE_SCALAR else -st.homing_pulloff)) ∧
        (m.i = 1 →
          m.target[0]? = some (if m.approach
            then -(st.homing_pulloff * HOMING_AXIS_LOCATE_SCALAR) else st.homing_pulloff) ∧
          m.target[1]? = some (if m.approach
            then -(st.homing_pulloff * HOMING_AXIS_LOCATE_SCALAR) else st.homing_pulloff)))) ∧
    ((limits_go_home c st env s).run = Run.finished →
      (2 * c.N_HOMING_LOCATE_CYCLE, 0, false)
        ∈ (wake_ups (limits_go_home c st env s).sys.calls).map Mark.key ∧
      (2 * c.N_HOMING_LOCATE_CYCLE, 1, false)
        ∈ (wake_ups (limits_go_home c st env s).sys.calls).map Mark.key) := by
  obtain ⟨_, hw, hk⟩ := limits_go_home_marks c st env s hN hab hlen hlog
  constructor
  · intro m hm
    obtain ⟨⟨_, _, p3, _⟩, ⟨_, _, _, w4⟩⟩ := hw m hm
    obtain ⟨wz, wxy⟩ := w4 hax
    refine ⟨fun hn => ?_, fun hn => ?_, fun hn => ?_⟩
    · have hap : m.approach = true := by rw [p3, hn]; exact homing_phase_first c
      refine ⟨hap, fun hi => ?_, fun hi => ?_⟩
      · have := (wz hi).1
        simpa [hap, hn, homing_travel] using this
      · obtain ⟨t0, t1, _⟩ := wxy hi
        constructor
        · simpa [hap, hn, homing_travel] using t0
        · simpa [hap, hn, homing_travel] using t1
    · have hap : m.approach = false := by rw [p3, hn]; exact homing_phase_second c
      refine ⟨hap, fun hi => ?_, fun hi => ?_⟩
      · have := (wz hi).1
        simpa [hap, hn, homing_travel] using this
      · obtain ⟨t0, t1, _⟩ := wxy hi
        constructor
        · simpa [hap, hn, homing_travel] using t0
        · simpa [hap, hn, homing_travel] using t1
    · refine ⟨fun hi => ?_, fun hi => ?_⟩
      · have := (wz hi).1
        cases hap : m.approach <;> simpa [hap, hn, homing_travel] using this
      · obtain ⟨t0, t1, _⟩ := wxy hi
        constructor
        · cases hap : m.approach <;> simpa [hap, hn, homing_travel] using t0
        · cases hap : m.approach <;> simpa [hap, hn, homing_travel] using t1
  · intro hf
    rw [hk hf]
    obtain ⟨g1, g2⟩ := homing_schedule_get c (2 * c.N_HOMING_LOCATE_CYCLE + 1) 1 (by omega)
    rw [Nat.add_sub_cancel, homing_phase_second] at g1 g2
    exact ⟨List.getElem?_mem g1, List.getElem?_mem g2⟩

/-- The claim C12 at the homing cycle of `cfg328` with the settings `st328`, which runs to
its end on the observations `env_home`. -/
theorem retreat_uses_pulloff_witness :
    cfg328.std_axes ∧ 2 * cfg328.N_HOMING_LOCATE_CYCLE + 1 < 256 ∧ sys_xyz.abort = false ∧
    sys_xyz.sys_position.length = cfg328.N_AXIS ∧ sys_xyz.calls = [] ∧
    (limits_go_home cfg328 st328 env_home sys_xyz).run = Run.finished ∧
    (∀ m ∈ wake_ups (limits_go_home cfg328 st328 env_home sys_xyz).sys.calls,
      m.n_cycle = 2 * cfg328.N_HOMING_LOCATE_CYCLE →
        m.approach = false ∧
        (m.i = 0 → m.target[2]? = some (-st328.homing_pulloff)) ∧
        (m.i = 1 →
          m.target[0]? = some st328.homing_pulloff ∧
          m.target[1]? = some st328.homing_pulloff)) ∧
    (2 * cfg328.N_HOMING_LOCATE_CYCLE, 0, false)
      ∈ (wake_ups (limits_go_home cfg328 st328 env_home sys_xyz).sys.calls).map Mark.key :=
  have h := retreat_uses_pulloff cfg328 st328 env_home sys_xyz (by decide) (by decide) rfl rfl
    rfl
  ⟨by decide, by decide, rfl, rfl, rfl, by decide, fun m hm => ((h.1 m hm).2.1),
    (h.2 (by decide)).1⟩

/-- C13: a homing cycle entered without `sys.abort` that runs all its passes leaves every
entry of `sys_position` at 0, the limit-override flag enabled (0x40) and `sys.step_control`
at STEP_CONTROL_NORMAL_OP; entered with `sys.abort` set, `limits_go_home` returns at once:
no observation is used and the state (with `sys_position`, the override flag,
`sys.homing_axis_lock`, `sys.step_control` and the call log) is the one at entry. -/
theorem limits_go_home_completion (c : Config) (st : Settings) (env : List Obs) (s : Sys)
    (hN : 2 * c.N_HOMING_LOCATE_CYCLE + 1 < 256) (hlen : s.sys_position.length = c.N_AXIS) :
    (s.abort = false → (limits_go_home c st env s).run = Run.finished →
      (limits_go_home c st env s).sys.sys_position = List.replicate c.N_AXIS 0 ∧
      (limits_go_home c st env s).sys.bel.stepper_limits_override_flag = 0x40 ∧
      (limits_go_home c st env s).sys.step_control = c.STEP_CONTROL_NORMAL_OP) ∧
    (s.abort = true →
      (limits_go_home c st env s).run = Run.returned ∧
      (limits_go_home c st env s).sys = s ∧
      (limits_go_home c st env s).env = env) := by
  constructor
  · intro hab hfin
    exact ((limits_go_home_spec c st env s hN hab hlen _ rfl).2.2 hfin).2
  · intro hab
    simp [limits_go_home, hab]

/-- The claim C13 at the homing cycle of `cfg328`, which runs to its end on the observations
`env_home`, and at the same cycle entered with `sys.abort` set. -/
theorem limits_go_home_completion_witness :
    2 * cfg328.N_HOMING_LOCATE_CYCLE + 1 < 256 ∧
    sys_xyz.sys_position.length = cfg328.N_AXIS ∧
    sys_abort.sys_position.length = cfg328.N_AXIS ∧
    sys_xyz.abort = false ∧ (limits_go_home cfg328 st328 env_home sys_xyz).run = Run.finished ∧
    ((limits_go_home cfg328 st328 env_home sys_xyz).sys.sys_position
        = List.replicate cfg328.N_AXIS 0 ∧
      (limits_go_home cfg328 st328 env_home sys_xyz).sys.bel.stepper_limits_override_flag
        = 0x40 ∧
      (limits_go_home cfg328 st328 env_home sys_xyz).sys.step_control
        = cfg328.STEP_CONTROL_NORMAL_OP) ∧
    sys_abort.abort = true ∧
    ((limits_go_home cfg328 st328 env_home sys_abort).run = Run.returned ∧
      (limits_go_home cfg328 st328 env_home sys_abort).sys = sys_abort ∧
      (limits_go_home cfg328 st328 env_home sys_abort).env = env_home) :=
  ⟨by decide, rfl, rfl, rfl, by decide,
    (limits_go_home_completion cfg328 st328 env_home sys_xyz (by decide) rfl).1 rfl
      (by decide),
    rfl,
    (limits_go_home_completion cfg328 st328 env_home sys_abort (by decide) rfl).2 rfl⟩

theorem replicate_append_cons {α : Type} (k : Nat) (a : α) (t : List α) :
    List.replicate k a ++ a :: t = List.replicate (k + 1) a ++ t := by
  induction k with
  | zero => rfl
  | succ k ih =>
    rw [List.replicate_succ, List.cons_append, ih]
    rfl

/-- The feed-hold wait of `limits_soft_check`: it uses up the observations up to the first
one that shows `sys.abort` or STATE_IDLE, calling `protocol_execute_realtime()` once for
each, and nothing else changes. -/
theorem soft_limit_wait_spec (c : Config) (env : List RtObs) : ∀ s : Sys,
    ((soft_limit_wait c env s).1 = Run.starved →
      (soft_limit_wait c env s).2.2 = [] ∧
      (∀ o ∈ env, o.abort = false ∧ o.state ≠ c.STATE_IDLE) ∧
      (soft_limit_wait c env s).2.1.calls
        = List.replicate env.length Call.protocol_execute_realtime ++ s.calls) ∧
    ((soft_limit_wait c env s).1 ≠ Run.starved →
      ∃ pre o, env = pre ++ o :: (soft_limit_wait c env s).2.2 ∧
        (∀ p ∈ pre, p.abort = false ∧ p.state ≠ c.STATE_IDLE) ∧
        (soft_limit_wait c env s).2.1 = { s with
          state := o.state, abort := o.abort,
          calls := List.replicate (pre.length + 1) Call.protocol_execute_realtime ++ s.calls } ∧
        ((soft_limit_wait c env s).1 = Run.returned → o.abort = true) ∧
        ((soft_limit_wait c env s).1 = Run.finished →
          o.abort = false ∧ o.state = c.STATE_IDLE)) := by
  induction env with
  | nil =>
    intro s
    simp [soft_limit_wait]
  | cons o env ih =>
    intro s
    unfold soft_limit_wait
    dsimp only
    by_cases hab : o.abort = true
    · rw [if_pos hab]
      refine ⟨(fun h => by cases h), fun _ => ⟨[], o, rfl, by simp, ?_, fun _ => hab, (fun h => by cases h)⟩⟩
      simp [protocol_execute_realtime]
    · rw [if_neg hab]
      have hab2 : o.abort = false := by simpa using hab
      by_cases hid : o.state ≠ c.STATE_IDLE
      · rw [if_pos hid]
        obtain ⟨i1, i2⟩ := ih { protocol_execute_realtime s with state := o.state, abort := o.abort }
        constructor
        · intro h
          obtain ⟨j1, j2, j3⟩ := i1 h
          refine ⟨j1, ?_, ?_⟩
          · intro p hp
            rcases List.mem_cons.mp hp with h | h
            · rw [h]; exact ⟨hab2, hid⟩
            · exact j2 p h
          · rw [j3]
            simp only [protocol_execute_realtime, List.length_cons]
            exact replicate_append_cons _ _ _
        · intro h
          obtain ⟨pre, o2, j1, j2, j3, j4, j5⟩ := i2 h
          refine ⟨o :: pre, o2, by rw [List.cons_append, ← j1], ?_, ?_, j4, j5⟩
          · intro p hp
            rcases List.mem_cons.mp hp with h | h
            · rw [h]; exact ⟨hab2, hid⟩
            · exact j2 p h
          · rw [j3]
            simp only [protocol_execute_realtime, List.length_cons]
            rw [replicate_append_cons]
      · rw [if_neg hid]
        refine ⟨(fun h => by cases h), fun _ => ⟨[], o, rfl, by simp, ?_, (fun h => by cases h),
          fun _ => ⟨hab2, not_not.mp hid⟩⟩⟩
        simp [protocol_execute_realtime]

/-- With a cycle running, `limits_soft_check` goes on after a wait that ended with
STATE_IDLE, and returns at once after any other wait. -/
theorem limits_soft_check_cycle (c : Config) (env : List RtObs) (s : Sys)
    (h : s.state = c.STATE_CYCLE) (run : Run) (s2 : Sys) (env2 : List RtObs)
    (hw : soft_limit_wait c env
      (system_set_exec_state_flag c.EXEC_FEED_HOLD { s with soft_limit := true })
      = (run, s2, env2)) :
    limits_soft_check c true env s
      = if run = Run.finished then
          (Run.finished,
            protocol_execute_realtime
              (system_set_exec_alarm c.EXEC_ALARM_SOFT_LIMIT (mc_reset s2)), env2)
        else (run, s2, env2) := by
  unfold limits_soft_check
  simp only [if_true, h]
  rw [h] at hw
  rw [hw]
  cases run <;> rfl

theorem limits_soft_check_not_cycle (c : Config) (env : List RtObs) (s : Sys)
    (h : s.state ≠ c.STATE_CYCLE) :
    limits_soft_check c true env s
      = (Run.finished,
          protocol_execute_realtime
            (system_set_exec_alarm c.EXEC_ALARM_SOFT_LIMIT
              (mc_reset { s with soft_limit := true })), env) := by
  unfold limits_soft_check
  simp only [if_true, h, if_false]

/-- C14, counterexample: with a cycle running, an out-of-bounds target and `sys.abort` seen
after the first `protocol_execute_realtime()` of the feed-hold wait, `limits_soft_check`
returns having called neither `mc_reset` nor `system_set_exec_alarm`. -/
theorem limits_soft_check_returns_counterexample :
    sys_cycle.state = cfg328.STATE_CYCLE ∧
    (limits_soft_check cfg328 true [rt_abort] sys_cycle).1 = Run.returned ∧
    (limits_soft_check cfg328 true [rt_abort] sys_cycle).2.1.calls
      = [Call.protocol_execute_realtime,
         Call.system_set_exec_state_flag cfg328.EXEC_FEED_HOLD] ∧
    Call.mc_reset ∉ (limits_soft_check cfg328 true [rt_abort] sys_cycle).2.1.calls ∧
    alarms_raised (limits_soft_check cfg328 true [rt_abort] sys_cycle).2.1.calls = [] ∧
    (limits_soft_check cfg328 true [rt_abort] sys_cycle).2.1.sys_rt_exec_alarm = 0 := by
  decide

/-- Amended C14: for a target within bounds `limits_soft_check` changes nothing and raises
nothing.  For a target that violates the bounds, whatever the system state: when it returns
by its last `return` its three last calls are `mc_reset()`,
`system_set_exec_alarm(EXEC_ALARM_SOFT_LIMIT)` and `protocol_execute_realtime()`, in this
order (the call list is newest first), with `sys.soft_limit` set; when it returns from inside
the feed-hold wait, which it does exactly when `sys.abort` is seen there, it has requested
the feed hold and called `protocol_execute_realtime()` only: neither `mc_reset` nor the
alarm.  It fails to return only when a cycle is running and no call of
`protocol_execute_realtime()` ever leaves `sys.abort` or STATE_IDLE. -/
theorem limits_soft_check_returns (c : Config) (env : List RtObs) (s : Sys) :
    limits_soft_check c false env s = (Run.finished, s, env) ∧
    ((limits_soft_check c true env s).1 = Run.finished →
      (limits_soft_check c true env s).2.1.calls.take 3
        = [Call.protocol_execute_realtime,
           Call.system_set_exec_alarm c.EXEC_ALARM_SOFT_LIMIT, Call.mc_reset] ∧
      (limits_soft_check c true env s).2.1.sys_rt_exec_alarm
        = c.EXEC_ALARM_SOFT_LIMIT % 256 ∧
      (limits_soft_check c true env s).2.1.soft_limit = true) ∧
    ((limits_soft_check c true env s).1 = Run.returned →
      s.state = c.STATE_CYCLE ∧
      (limits_soft_check c true env s).2.1.abort = true ∧
      (limits_soft_check c true env s).2.1.sys_rt_exec_alarm = s.sys_rt_exec_alarm ∧
      ∃ k, (limits_soft_check c true env s).2.1.calls
        = List.replicate (k + 1) Call.protocol_execute_realtime
          ++ Call.system_set_exec_state_flag c.EXEC_FEED_HOLD :: s.calls) ∧
    ((limits_soft_check c true env s).1 = Run.starved ↔
      s.state = c.STATE_CYCLE ∧ ∀ o ∈ env, o.abort = false ∧ o.state ≠ c.STATE_IDLE) := by
  refine ⟨by simp [limits_soft_check], ?_⟩
  by_cases hst : s.state = c.STATE_CYCLE
  · obtain ⟨w1, w2⟩ := soft_limit_wait_spec c env
      (system_set_exec_state_flag c.EXEC_FEED_HOLD { s with soft_limit := true })
    rcases hw : soft_limit_wait c env
      (system_set_exec_state_flag c.EXEC_FEED_HOLD { s with soft_limit := true })
      with ⟨run, s2, env2⟩
    rw [limits_soft_check_cycle c env s hst run s2 env2 hw]
    rw [hw] at w1 w2
    cases run with
    | finished =>
      obtain ⟨pre, o, e1, e2, e3, _, e5⟩ := w2 (by simp)
      dsimp only at e1 e3 e5
      refine ⟨fun _ => ?_, (fun h => by cases h), ?_⟩
      · subst e3
        simp [protocol_execute_realtime, system_set_exec_alarm, mc_reset,
          system_set_exec_state_flag]
      · constructor
        · intro h
          cases h
        · intro h
          exfalso
          have ho := h.2 o (by rw [e1]; simp)
          exact ho.2 (e5 rfl).2
    | returned =>
      obtain ⟨pre, o, e1, e2, e3, e4, _⟩ := w2 (by simp)
      dsimp only at e1 e3 e4
      refine ⟨(fun h => by cases h), fun _ => ?_, ?_⟩
      · subst e3
        refine ⟨hst, e4 rfl, ?_, pre.length, ?_⟩
        · simp [system_set_exec_state_flag]
        · simp [system_set_exec_state_flag]
      · constructor
        · intro h
          cases h
        · intro h
          exfalso
          have ho := h.2 o (by rw [e1]; simp)
          rw [e4 rfl] at ho
          cases ho.1
    | starved =>
      obtain ⟨_, e2, _⟩ := w1 rfl
      exact ⟨(fun h => by cases h), (fun h => by cases h), fun _ => ⟨hst, e2⟩, fun _ => rfl⟩
  · rw [limits_soft_check_not_cycle c env s hst]
    refine ⟨fun _ => ?_, (fun h => by cases h), ?_⟩
    · simp [protocol_execute_realtime, system_set_exec_alarm, mc_reset]
    · constructor
      · intro h
        cases h
      · intro h
        exact absurd h.1 hst

/-- The amended claim C14 at a running cycle of `cfg328` that is seen idle by the second
`protocol_execute_realtime()` of the wait. -/
theorem limits_soft_check_returns_witness :
    (limits_soft_check cfg328 true [rt_cycle, rt_idle] sys_cycle).1 = Run.finished ∧
    (limits_soft_check cfg328 true [rt_cycle, rt_idle] sys_cycle).2.1.calls.take 3
      = [Call.protocol_execute_realtime,
         Call.system_set_exec_alarm cfg328.EXEC_ALARM_SOFT_LIMIT, Call.mc_reset] ∧
    (limits_soft_check cfg328 true [rt_cycle, rt_idle] sys_cycle).2.1.sys_rt_exec_alarm
      = cfg328.EXEC_ALARM_SOFT_LIMIT % 256 ∧
    (limits_soft_check cfg328 true [rt_cycle, rt_idle] sys_cycle).2.1.soft_limit = true :=
  ⟨by decide,
    (limits_soft_check_returns cfg328 [rt_cycle, rt_idle] sys_cycle).2.1 (by decide)⟩

/-- C15: in `limits_soft_check` for an out-of-bounds target (the call list is newest first):
when `sys.state` is STATE_CYCLE and the function returns by its last `return`, the calls
made are `system_set_exec_state_flag(EXEC_FEED_HOLD)` first, then one
`protocol_execute_realtime()` for each iteration of the wait, of which the last one, and no
earlier one, left `sys.state` at STATE_IDLE, and after these `mc_reset()`,
`system_set_exec_alarm(EXEC_ALARM_SOFT_LIMIT)` and `protocol_execute_realtime()`; when
`sys.state` is STATE_IDLE on entry, the calls made are `mc_reset()`,
`system_set_exec_alarm(EXEC_ALARM_SOFT_LIMIT)` and `protocol_execute_realtime()` only: no feed
hold is requested and no iteration of the wait runs. -/
theorem limits_soft_check_order (c : Config) (env : List RtObs) (s : Sys)
    (hne : c.STATE_IDLE ≠ c.STATE_CYCLE) :
    (s.state = c.STATE_CYCLE → (limits_soft_check c true env s).1 = Run.finished →
      ∃ pre o, env = pre ++ o :: (limits_soft_check c true env s).2.2 ∧
        (∀ p ∈ pre, p.abort = false ∧ p.state ≠ c.STATE_IDLE) ∧
        o.abort = false ∧ o.state = c.STATE_IDLE ∧
        (limits_soft_check c true env s).2.1.calls
          = [Call.protocol_execute_realtime,
             Call.system_set_exec_alarm c.EXEC_ALARM_SOFT_LIMIT, Call.mc_reset]
            ++ List.replicate (pre.length + 1) Call.protocol_execute_realtime
            ++ Call.system_set_exec_state_flag c.EXEC_FEED_HOLD :: s.calls) ∧
    (s.state = c.STATE_IDLE →
      (limits_soft_check c true env s).1 = Run.finished ∧
      (limits_soft_check c true env s).2.2 = env ∧
      (limits_soft_check c true env s).2.1.sys_rt_exec_state = s.sys_rt_exec_state ∧
      (limits_soft_check c true env s).2.1.calls
        = [Call.protocol_execute_realtime,
           Call.system_set_exec_alarm c.EXEC_ALARM_SOFT_LIMIT, Call.mc_reset] ++ s.calls) := by
  constructor
  · intro hst
    obtain ⟨_, w2⟩ := soft_limit_wait_spec c env
      (system_set_exec_state_flag c.EXEC_FEED_HOLD { s with soft_limit := true })
    rcases hw : soft_limit_wait c env
      (system_set_exec_state_flag c.EXEC_FEED_HOLD { s with soft_limit := true })
      with ⟨run, s2, env2⟩
    rw [limits_soft_check_cycle c env s hst run s2 env2 hw]
    rw [hw] at w2
    cases run with
    | finished =>
      intro _
      obtain ⟨pre, o, e1, e2, e3, _, e5⟩ := w2 (by simp)
      dsimp only at e1 e3 e5
      refine ⟨pre, o, e1, e2, (e5 rfl).1, (e5 rfl).2, ?_⟩
      subst e3
      simp [protocol_execute_realtime, system_set_exec_alarm, mc_reset,
        system_set_exec_state_flag]
    | returned =>
      intro h
      cases h
    | starved =>
      intro h
      cases h
  · intro hst
    have hnc : s.state ≠ c.STATE_CYCLE := by rw [hst]; exact hne
    rw [limits_soft_check_not_cycle c env s hnc]
    simp [protocol_execute_realtime, system_set_exec_alarm, mc_reset]

/-- The claim C15 at a running cycle of `cfg328` that is seen idle by the second
`protocol_execute_realtime()` of the wait. -/
theorem limits_soft_check_order_witness :
    cfg328.STATE_IDLE ≠ cfg328.STATE_CYCLE ∧ sys_cycle.state = cfg328.STATE_CYCLE ∧
    (limits_soft_check cfg328 true [rt_cycle, rt_idle] sys_cycle).1 = Run.finished ∧
    ∃ pre o, [rt_cycle, rt_idle]
          = pre ++ o :: (limits_soft_check cfg328 true [rt_cycle, rt_idle] sys_cycle).2.2 ∧
        (∀ p ∈ pre, p.abort = false ∧ p.state ≠ cfg328.STATE_IDLE) ∧
        o.abort = false ∧ o.state = cfg328.STATE_IDLE ∧
        (limits_soft_check cfg328 true [rt_cycle, rt_idle] sys_cycle).2.1.calls
          = [Call.protocol_execute_realtime,
             Call.system_set_exec_alarm cfg328.EXEC_ALARM_SOFT_LIMIT, Call.mc_reset]
            ++ List.replicate (pre.length + 1) Call.protocol_execute_realtime
            ++ Call.system_set_exec_state_flag cfg328.EXEC_FEED_HOLD :: sys_cycle.calls :=
  ⟨by decide, by decide, by decide,
    (limits_soft_check_order cfg328 [rt_cycle, rt_idle] sys_cycle (by decide)).1 (by decide)
      (by decide)⟩

/-- C16, counterexample: with `N_HOMING_LOCATE_CYCLE = 1` a homing cycle that runs to its end
makes four passes of the outer loop, not three: a fourth pass, a retreat with `n_cycle = 0`,
starts the motion of both groups. -/
theorem homing_pass_count_counterexample :
    2 * cfg328.N_HOMING_LOCATE_CYCLE + 1 = 3 ∧
    (limits_go_home cfg328 st328 env_home sys_xyz).run = Run.finished ∧
    (wake_ups (limits_go_home cfg328 st328 env_home sys_xyz).sys.calls).map Mark.key
      = [(3, 0, true), (3, 1, true), (2, 0, false), (2, 1, false),
         (1, 0, true), (1, 1, true), (0, 0, false), (0, 1, false)] := by
  decide

/-- Amended C16: a homing cycle entered without an abort that runs to its end executes exactly
`2*N_HOMING_LOCATE_CYCLE + 2` passes of the outer loop of `limits_go_home`, with `n_cycle`
counting down from `2*N_HOMING_LOCATE_CYCLE + 1` to `0`; each pass starts two motions (group
0, then group 1); pass number `j` (from 0) is an approach exactly when `j` is even: the search
approach, then `N_HOMING_LOCATE_CYCLE` pairs of a retreat and a locating approach, then a
last pull-off retreat. -/
theorem homing_pass_count (c : Config) (st : Settings) (env : List Obs) (s : Sys)
    (hN : 2 * c.N_HOMING_LOCATE_CYCLE + 1 < 256) (hab : s.abort = false)
    (hlen : s.sys_position.length = c.N_AXIS) (hlog : s.calls = [])
    (hfin : (limits_go_home c st env s).run = Run.finished) :
    ((wake_ups (limits_go_home c st env s).sys.calls).map Mark.key).length
      = 2 * (2 * c.N_HOMING_LOCATE_CYCLE + 2) ∧
    ∀ j, j ≤ 2 * c.N_HOMING_LOCATE_CYCLE + 1 →
      ((wake_ups (limits_go_home c st env s).sys.calls).map Mark.key)[2 * j]?
        = some (2 * c.N_HOMING_LOCATE_CYCLE + 1 - j, 0, j % 2 == 0) ∧
      ((wake_ups (limits_go_home c st env s).sys.calls).map Mark.key)[2 * j + 1]?
        = some (2 * c.N_HOMING_LOCATE_CYCLE + 1 - j, 1, j % 2 == 0) := by
  obtain ⟨_, _, hk⟩ := limits_go_home_marks c st env s hN hab hlen hlog
  rw [hk hfin]
  refine ⟨homing_schedule_length c _, fun j hj => ?_⟩
  have h := homing_schedule_get c (2 * c.N_HOMING_LOCATE_CYCLE + 1) j hj
  rw [homing_phase_pass c j hj] at h
  exact h

/-- The amended claim C16 at the homing cycle of `cfg328`, which runs to its end on the
observations `env_home`. -/
theorem homing_pass_count_witness :
    2 * cfg328.N_HOMING_LOCATE_CYCLE + 1 < 256 ∧ sys_xyz.abort = false ∧
    sys_xyz.sys_position.length = cfg328.N_AXIS ∧ sys_xyz.calls = [] ∧
    (limits_go_home cfg328 st328 env_home sys_xyz).run = Run.finished ∧
    ((wake_ups (limits_go_home cfg328 st328 env_home sys_xyz).sys.calls).map Mark.key).length
      = 2 * (2 * cfg328.N_HOMING_LOCATE_CYCLE + 2) ∧
    ∀ j, j ≤ 2 * cfg328.N_HOMING_LOCATE_CYCLE + 1 →
      ((wake_ups (limits_go_home cfg328 st328 env_home sys_xyz).sys.calls).map
          Mark.key)[2 * j]?
        = some (2 * cfg328.N_HOMING_LOCATE_CYCLE + 1 - j, 0, j % 2 == 0) ∧
      ((wake_ups (limits_go_home cfg328 st328 env_home sys_xyz).sys.calls).map
          Mark.key)[2 * j + 1]?
        = some (2 * cfg328.N_HOMING_LOCATE_CYCLE + 1 - j, 1, j % 2 == 0) :=
  ⟨by decide, rfl, rfl, rfl, by decide,
    homing_pass_count cfg328 st328 env_home sys_xyz (by decide) rfl rfl rfl (by decide)⟩

/-- C17, counterexample: in the homing cycle of `cfg328` with the settings `st328` (seek rate
500, feed rate 25) both motions of the retreat passes (`approach = false`) are planned at the
seek rate 500, and both motions of the locating approach (`n_cycle = 1`) at the feed rate
25. -/
theorem homing_rate_and_travel_counterexample :
    st328.homing_seek_rate = 500 ∧ st328.homing_feed_rate = 25 ∧
    (wake_ups (limits_go_home cfg328 st328 env_home sys_xyz).sys.calls).map
        (fun m => (m.n_cycle, m.approach, m.feed_rate))
      = [(3, true, 500), (3, true, 500), (2, false, 500), (2, false, 500),
         (1, true, 25), (1, true, 25), (0, false, 500), (0, false, 500)] := by
  decide

/-- Amended C17: at the end of a pass `limits_go_home` logs the debounce delay, flips the
phase and chooses the rate and the travel of the next pass by the new phase: a retreat gets
the homing seek rate and the travel `homing_pulloff`, an approach gets the homing feed rate
and the travel `homing_pulloff x HOMING_AXIS_LOCATE_SCALAR`.  Accordingly, in a homing cycle
entered without an abort, every motion of the first pass is an approach at the seek rate
whose target is the search travel `HOMING_AXIS_SEARCH_SCALAR x max_travel[axis]`, every
motion of a later approach pass is planned at the feed rate with targets of magnitude
`homing_pulloff x HOMING_AXIS_LOCATE_SCALAR`, and every motion of a retreat pass is planned
at the seek rate with targets of magnitude `homing_pulloff`. -/
theorem homing_rate_and_travel (c : Config) (st : Settings) (env : List Obs) (s : Sys)
    (hax : c.std_axes) (hN : 2 * c.N_HOMING_LOCATE_CYCLE + 1 < 256) (hab : s.abort = false)
    (hlen : s.sys_position.length = c.N_AXIS) (hlog : s.calls = []) :
    (∀ (l : Locals) (s1 : Sys),
      (homing_pass_end st l s1).2 = delay_ms st.homing_debounce_delay s1 ∧
      (homing_pass_end st l s1).1.approach = (!l.approach) ∧
      (homing_pass_end st l s1).1.homing_rate
        = (if l.approach then st.homing_seek_rate else st.homing_feed_rate) ∧
      (homing_pass_end st l s1).1.max_travel
        = (if l.approach then st.homing_pulloff
           else st.homing_pulloff * HOMING_AXIS_LOCATE_SCALAR)) ∧
    (∀ m ∈ wake_ups (limits_go_home c st env s).sys.calls,
      (m.n_cycle = 2 * c.N_HOMING_LOCATE_CYCLE + 1 →
        m.approach = true ∧ m.feed_rate = st.homing_seek_rate ∧
        (m.i = 0 → m.target[2]? = some ((-HOMING_AXIS_SEARCH_SCALAR) * st.max_travel 2)) ∧
        (m.i = 1 →
          m.target[0]? = some (-((-HOMING_AXIS_SEARCH_SCALAR) * st.max_travel 0)) ∧
          m.target[1]? = some (-((-HOMING_AXIS_SEARCH_SCALAR) * st.max_travel 1)))) ∧
      (m.n_cycle ≠ 2 * c.N_HOMING_LOCATE_CYCLE + 1 → m.approach = true →
        m.feed_rate = st.homing_feed_rate ∧
        (m.i = 0 →
          m.target[2]? = some (st.homing_pulloff * HOMING_AXIS_LOCATE_SCALAR)) ∧
        (m.i = 1 →
          m.target[0]? = some (-(st.homing_pulloff * HOMING_AXIS_LOCATE_SCALAR)) ∧
          m.target[1]? = some (-(st.homing_pulloff * HOMING_AXIS_LOCATE_SCALAR)))) ∧
      (m.approach = false →
        m.n_cycle ≠ 2 * c.N_HOMING_LOCATE_CYCLE + 1 ∧
        m.feed_rate = st.homing_seek_rate ∧
        (m.i = 0 → m.target[2]? = some (-st.homing_pulloff)) ∧
        (m.i = 1 →
          m.target[0]? = some st.homing_pulloff ∧
          m.target[1]? = some st.homing_pulloff))) := by
  obtain ⟨_, hw, _⟩ := limits_go_home_marks c st env s hN hab hlen hlog
  refine ⟨fun l s1 => homing_pass_end_spec st l s1, fun m hm => ?_⟩
  obtain ⟨⟨_, _, p3, _⟩, ⟨w1, _, _, w4⟩⟩ := hw m hm
  obtain ⟨wz, wxy⟩ := w4 hax
  refine ⟨fun hn => ?_, fun hn hap => ?_, fun hap => ?_⟩
  · have hap : m.approach = true := by rw [p3, hn]; exact homing_phase_first c
    refine ⟨hap, ?_, fun hi => ?_, fun hi => ?_⟩
    · simpa [hn, homing_rate_of] using w1
    · have := (wz hi).1
      simpa [hap, hn, homing_travel] using this
    · obtain ⟨t0, t1, _⟩ := wxy hi
      constructor
      · simpa [hap, hn, homing_travel] using t0
      · simpa [hap, hn, homing_travel] using t1
  · refine ⟨?_, fun hi => ?_, fun hi => ?_⟩
    · simpa [hn, hap, homing_rate_of] using w1
    · have := (wz hi).1
      simpa [hap, hn, homing_travel] using this
    · obtain ⟨t0, t1, _⟩ := wxy hi
      constructor
      · simpa [hap, hn, homing_travel] using t0
      · simpa [hap, hn, homing_travel] using t1
  · have hn : m.n_cycle ≠ 2 * c.N_HOMING_LOCATE_CYCLE + 1 := by
      intro hn
      rw [p3, hn, homing_phase_first] at hap
      cases hap
    refine ⟨hn, ?_, fun hi => ?_, fun hi => ?_⟩
    · simpa [hn, hap, homing_rate_of] using w1
    · have := (wz hi).1
      simpa [hap, hn, homing_travel] using this
    · obtain ⟨t0, t1, _⟩ := wxy hi
      constructor
      · simpa [hap, hn, homing_travel] using t0
      · simpa [hap, hn, homing_travel] using t1

/-- The amended claim C17 at the homing cycle of `cfg328` with the settings `st328`: the
retreats are planned at the seek rate with the pull-off distance as target. -/
theorem homing_rate_and_travel_witness :
    cfg328.std_axes ∧ 2 * cfg328.N_HOMING_LOCATE_CYCLE + 1 < 256 ∧ sys_xyz.abort = false ∧
    sys_xyz.sys_position.length = cfg328.N_AXIS ∧ sys_xyz.calls = [] ∧
    (limits_go_home cfg328 st328 env_home sys_xyz).run = Run.finished ∧
    (∀ m ∈ wake_ups (limits_go_home cfg328 st328 env_home sys_xyz).sys.calls,
      m.approach = false →
        m.n_cycle ≠ 2 * cfg328.N_HOMING_LOCATE_CYCLE + 1 ∧
        m.feed_rate = st328.homing_seek_rate ∧
        (m.i = 0 → m.target[2]? = some (-st328.homing_pulloff)) ∧
        (m.i = 1 →
          m.target[0]? = some st328.homing_pulloff ∧
          m.target[1]? = some st328.homing_pulloff)) :=
  ⟨by decide, by decide, rfl, rfl, rfl, by decide, fun m hm =>
    ((homing_rate_and_travel cfg328 st328 env_home sys_xyz (by decide) (by decide) rfl rfl
      rfl).2 m hm).2.2⟩

/-- C18: in a homing cycle entered without an abort, at every `st_wake_up()` and at the top
of every pass through a poll loop, in either group, the phase is the one of the pass
(approach in the passes of even number) and the limit-override flag is 0 (disabled) when the
phase is approach and 0x40 (enabled) when it is retreat.  Neither a poll loop nor a whole
group writes the flag or anything else of `bungard.c`: the flag is written at the start of a
pass, before the first group. -/
theorem limit_override_during_homing (c : Config) (st : Settings) (env : List Obs) (s : Sys)
    (hN : 2 * c.N_HOMING_LOCATE_CYCLE + 1 < 256) (hab : s.abort = false)
    (hlen : s.sys_position.length = c.N_AXIS) (hlog : s.calls = []) :
    (∀ m ∈ marks (limits_go_home c st env s).sys.calls,
      m.n_cycle ≤ 2 * c.N_HOMING_LOCATE_CYCLE + 1 ∧ m.i ≤ 1 ∧
      m.approach = ((2 * c.N_HOMING_LOCATE_CYCLE + 1 - m.n_cycle) % 2 == 0) ∧
      m.override_flag = (if m.approach then 0 else 0x40)) ∧
    (∀ (n i : Nat) (l : Locals) (env1 : List Obs) (s1 : Sys),
      (homing_poll_loop c n i env1 l s1).sys.bel = s1.bel ∧
      (homing_group c st n i l env1 s1).sys.bel = s1.bel) ∧
    (∀ (n : Nat) (l : Locals) (env1 : List Obs) (s1 : Sys),
      (homing_pass c st n l env1 s1).sys.bel.stepper_limits_override_flag
        = (if l.approach then 0 else 0x40)) := by
  refine ⟨fun m hm => (limits_go_home_marks c st env s hN hab hlen hlog).1 m hm,
    fun n i l env1 s1 =>
      ⟨(homing_poll_loop_frame c n i env1 l s1).2.2.2.2.1, homing_group_bel c st n i l env1 s1⟩,
    fun n l env1 s1 => ?_⟩
  have f1 := (set_limit_override_flag l.approach s1).1
  unfold homing_pass
  dsimp only
  have g0 := homing_group_bel c st n 0
    { l with target := c.system_convert_axis_steps_to_mpos s1.sys_position, axislock := 0 }
    env1 (set_limit_override (!l.approach) s1)
  rcases hr0 : homing_group c st n 0
    { l with target := c.system_convert_axis_steps_to_mpos s1.sys_position, axislock := 0 }
    env1 (set_limit_override (!l.approach) s1) with ⟨run0, l2, s2, env2⟩
  rw [hr0] at g0
  dsimp only at g0
  cases run0 with
  | returned => dsimp only; rw [g0]; exact f1
  | starved => dsimp only; rw [g0]; exact f1
  | finished =>
    dsimp only
    have g1 := homing_group_bel c st n 1 l2 env2 s2
    rcases hr1 : homing_group c st n 1 l2 env2 s2 with ⟨run1, l3, s3, env3⟩
    rw [hr1] at g1
    dsimp only at g1
    cases run1 with
    | returned => dsimp only; rw [g1, g0]; exact f1
    | starved => dsimp only; rw [g1, g0]; exact f1
    | finished =>
      dsimp only
      rw [(homing_pass_end_spec st l3 s3).1]
      show s3.bel.stepper_limits_override_flag = _
      rw [g1, g0]
      exact f1

/-- The claim C18 at the homing cycle of `cfg328`, which runs to its end on the observations
`env_home`. -/
theorem limit_override_during_homing_witness :
    2 * cfg328.N_HOMING_LOCATE_CYCLE + 1 < 256 ∧ sys_xyz.abort = false ∧
    sys_xyz.sys_position.length = cfg328.N_AXIS ∧ sys_xyz.calls = [] ∧
    (limits_go_home cfg328 st328 env_home sys_xyz).run = Run.finished ∧
    (marks (limits_go_home cfg328 st328 env_home sys_xyz).sys.calls).length = 16 ∧
    (∀ m ∈ marks (limits_go_home cfg328 st328 env_home sys_xyz).sys.calls,
      m.n_cycle ≤ 2 * cfg328.N_HOMING_LOCATE_CYCLE + 1 ∧ m.i ≤ 1 ∧
      m.approach = ((2 * cfg328.N_HOMING_LOCATE_CYCLE + 1 - m.n_cycle) % 2 == 0) ∧
      m.override_flag = (if m.approach then 0 else 0x40)) :=
  ⟨by decide, rfl, rfl, rfl, by decide, by decide,
    (limit_override_during_homing cfg328 st328 env_home sys_xyz (by decide) rfl rfl rfl).1⟩

/-- C19, counterexample: in the homing cycle of `cfg328` (step pins X 4, Y 8, Z 16) the axis
lock at the start of the motion of the X/Y group is 28, the step pins of all three axes, in
both retreat passes and also in both approach passes, where the Z motion before it ended
with EXEC_CYCLE_STOP; the step outputs of the X/Y group are 12. -/
theorem homing_axis_lock_at_start_counterexample :
    xy_step_pins cfg328 = 12 ∧
    (wake_ups (limits_go_home cfg328 st328 env_home sys_xyz).sys.calls).map
        (fun m => (m.n_cycle, m.i, m.approach, m.homing_axis_lock))
      = [(3, 0, true, 16), (3, 1, true, 28), (2, 0, false, 16), (2, 1, false, 28),
         (1, 0, true, 16), (1, 1, true, 28), (0, 0, false, 16), (0, 1, false, 28)] := by
  decide

/-- Amended C19: in a homing cycle entered without an abort, when the motion of the Z group
(`i = 0`) is started, `sys.homing_axis_lock` is exactly the Z step pin and `sys_position` of
Z is 0; when the motion of the X/Y group (`i = 1`) is started, `sys_position` of X and of Y
is 0, and `sys.homing_axis_lock` is the X and Y step pins together with whatever the Z poll
loop of the same pass left of the Z step pin, `axislock` being cleared once for each pass and
not for each group: it is either the X and Y step pins or the step pins of all three axes,
and in every retreat pass it is the step pins of all three axes.  The per-axis statements of
a group zero `sys_position` for the axes of the group and for no other axis. -/
theorem homing_axis_lock_at_start (c : Config) (st : Settings) (env : List Obs) (s : Sys)
    (hax : c.std_axes) (hN : 2 * c.N_HOMING_LOCATE_CYCLE + 1 < 256) (hab : s.abort = false)
    (hlen : s.sys_position.length = c.N_AXIS) (hlog : s.calls = []) :
    (∀ m ∈ wake_ups (limits_go_home c st env s).sys.calls,
      m.i ≤ 1 ∧
      (m.i = 0 → m.homing_axis_lock = step_pin c 2 ∧ m.sys_position[2]? = some 0) ∧
      (m.i = 1 →
        (m.homing_axis_lock = xy_step_pins c ∨ m.homing_axis_lock = all_step_pins c) ∧
        (m.approach = false → m.homing_axis_lock = all_step_pins c) ∧
        m.sys_position[0]? = some 0 ∧ m.sys_position[1]? = some 0)) ∧
    (∀ (n : Nat) (l : Locals) (s1 : Sys),
      (homing_axis_loop c st n 0 l s1).2.sys_position = s1.sys_position.set 2 0 ∧
      (homing_axis_loop c st n 1 l s1).2.sys_position
        = (s1.sys_position.set 0 0).set 1 0) := by
  obtain ⟨_, hw, _⟩ := limits_go_home_marks c st env s hN hab hlen hlog
  constructor
  · intro m hm
    obtain ⟨⟨_, p2, _, _⟩, ⟨_, _, _, w4⟩⟩ := hw m hm
    obtain ⟨wz, wxy⟩ := w4 hax
    have h3 : c.N_AXIS = 3 := hax.1
    refine ⟨p2, fun hi => ?_, fun hi => ?_⟩
    · obtain ⟨_, z2, z3⟩ := wz hi
      exact ⟨z2, z3 (by omega)⟩
    · obtain ⟨_, _, x3, x4, x5⟩ := wxy hi
      exact ⟨x3.symm, x4, x5 (by omega)⟩
  · intro n l s1
    obtain ⟨e0, e1⟩ := homing_axis_loop_std c st n l s1 hax
    rw [e0, e1]
    simp [homing_axis_setup_sys]

/-- The amended claim C19 at the homing cycle of `cfg328`, which runs to its end on the
observations `env_home`. -/
theorem homing_axis_lock_at_start_witness :
    cfg328.std_axes ∧ 2 * cfg328.N_HOMING_LOCATE_CYCLE + 1 < 256 ∧ sys_xyz.abort = false ∧
    sys_xyz.sys_position.length = cfg328.N_AXIS ∧ sys_xyz.calls = [] ∧
    (limits_go_home cfg328 st328 env_home sys_xyz).run = Run.finished ∧
    (∀ m ∈ wake_ups (limits_go_home cfg328 st328 env_home sys_xyz).sys.calls,
      m.i ≤ 1 ∧
      (m.i = 0 → m.homing_axis_lock = step_pin cfg328 2 ∧ m.sys_position[2]? = some 0) ∧
      (m.i = 1 →
        (m.homing_axis_lock = xy_step_pins cfg328 ∨
          m.homing_axis_lock = all_step_pins cfg328) ∧
        (m.approach = false → m.homing_axis_lock = all_step_pins cfg328) ∧
        m.sys_position[0]? = some 0 ∧ m.sys_position[1]? = some 0)) :=
  ⟨by decide, by decide, rfl, rfl, rfl, by decide,
    (homing_axis_lock_at_start cfg328 st328 env_home sys_xyz (by decide) (by decide) rfl rfl
      rfl).1⟩

/-- A pass through the poll-loop body in a retreat reads PINB nowhere: with another value
in PINB the result is the same, PINB itself apart. -/
theorem homing_poll_body_retreat (c : Config) (i a p : Nat) (s : Sys) :
    homing_poll_body c i false a { s with PINB := p }
      = ((homing_poll_body c i false a s).1, (homing_poll_body c i false a s).2.1,
          { (homing_poll_body c i false a s).2.2 with PINB := p }) := by
  by_cases hany : s.sys_rt_exec_state &&&
    (c.EXEC_SAFETY_DOOR ||| c.EXEC_RESET ||| c.EXEC_CYCLE_STOP) ≠ 0 <;>
  by_cases hR : s.sys_rt_exec_state &&& c.EXEC_RESET ≠ 0 <;>
  by_cases hD : s.sys_rt_exec_state &&& c.EXEC_SAFETY_DOOR ≠ 0 <;>
  simp only [homing_poll_body, st_prep_buffer, system_set_exec_alarm, mc_reset,
    protocol_execute_realtime, system_clear_exec_state_flag, hany, hR, hD, Bool.false_and,
    Bool.false_eq_true, false_and, and_false, if_false, if_true, ne_eq, not_false_eq_true,
    not_true_eq_false] <;>
  split_ifs <;> rfl

/-- C20, counterexample: a poll iteration of the Z group (`i = 0`) in the search approach of
`cfg328`, Z lock set, no realtime flag: with the home-status input (PINB bit 2) asserted the
lock is cleared and the poll loop ends after this iteration, leaving the next observation
unused; with the input low the lock stays and the loop makes another iteration. -/
theorem home_status_sampling_counterexample :
    obs_home.PINB = 0b00000100 ∧ obs_idle.PINB = 0 ∧
    obs_home.sys_rt_exec_state = obs_idle.sys_rt_exec_state ∧
    (homing_poll_body cfg328 0 true 0b00010000 { PINB := obs_home.PINB }).2.1 = 0 ∧
    (homing_poll_body cfg328 0 true 0b00010000 { PINB := obs_idle.PINB }).2.1 = 0b00010000 ∧
    (homing_poll_loop cfg328 3 0 [obs_home, obs_stop] loc_z_approach {}).env.length = 1 ∧
    (homing_poll_loop cfg328 3 0 [obs_idle, obs_stop] loc_z_approach {}).env.length = 0 := by
  decide

/-- Amended C20: the home-status input (PINB bit 2) is sampled in every approach iteration
of the poll loop of `limits_go_home`, in the Z group as well as in the X/Y group: there the
axis lock after the iteration is the lock with the three step pins cleared when the input is
asserted, and the lock unchanged when it is not.  In an iteration of a retreat pass, in
either group, how the iteration ends, the axis lock and the state after it (PINB itself
apart) are the same whatever the value of PINB, and the axis lock is left as it was. -/
theorem home_status_sampling (c : Config) (i a p : Nat) (s : Sys) :
    (homing_poll_body c i true a s).2.1
      = (if s.PINB &&& 0x4 ≠ 0 then clear_locks c a else a) ∧
    (homing_poll_body c i false a { s with PINB := p }).1
      = (homing_poll_body c i false a s).1 ∧
    (homing_poll_body c i false a { s with PINB := p }).2.1 = a ∧
    (homing_poll_body c i false a { s with PINB := p }).2.2
      = { (homing_poll_body c i false a s).2.2 with PINB := p } := by
  refine ⟨?_, ?_, ?_, ?_⟩
  · rw [(homing_poll_body_frame c i true a s).2.2.2.2.2.1]
    simp
  · rw [homing_poll_body_retreat]
  · rw [(homing_poll_body_frame c i false a _).2.2.2.2.2.1]
    simp
  · rw [homing_poll_body_retreat]

/-- A pass through the poll-loop body of an X/Y approach that sees EXEC_CYCLE_STOP raises
EXEC_ALARM_HOMING_FAIL_APPROACH last, calls `mc_reset()` and `protocol_execute_realtime()`
and ends with `return`. -/
theorem homing_poll_body_fail (c : Config) (a : Nat) (s : Sys)
    (hA : 0 < c.EXEC_ALARM_HOMING_FAIL_APPROACH ∧ c.EXEC_ALARM_HOMING_FAIL_APPROACH < 256)
    (hstop : s.sys_rt_exec_state &&& c.EXEC_CYCLE_STOP ≠ 0) :
    (homing_poll_body c 1 true a s).1 = Ctl.returned ∧
    (homing_poll_body c 1 true a s).2.2.sys_rt_exec_alarm
      = c.EXEC_ALARM_HOMING_FAIL_APPROACH ∧
    (homing_poll_body c 1 true a s).2.2.calls.take 3
      = [Call.protocol_execute_realtime, Call.mc_reset,
         Call.system_set_exec_alarm c.EXEC_ALARM_HOMING_FAIL_APPROACH] := by
  have mA := Nat.mod_eq_of_lt hA.2
  have nA : c.EXEC_ALARM_HOMING_FAIL_APPROACH ≠ 0 := by omega
  have hany : s.sys_rt_exec_state &&&
      (c.EXEC_SAFETY_DOOR ||| c.EXEC_RESET ||| c.EXEC_CYCLE_STOP) ≠ 0 :=
    and_or3_ne_zero _ _ _ _ (Or.inr (Or.inr hstop))
  by_cases hR : s.sys_rt_exec_state &&& c.EXEC_RESET ≠ 0 <;>
  by_cases hD : s.sys_rt_exec_state &&& c.EXEC_SAFETY_DOOR ≠ 0 <;>
  simp only [homing_poll_body, st_prep_buffer, system_set_exec_alarm, mc_reset,
    protocol_execute_realtime, system_clear_exec_state_flag, hany, hR, hD, hstop, mA, nA,
    ne_eq, not_false_eq_true, not_true_eq_false, if_true, if_false, and_self, and_true,
    true_and, List.take_succ_cons, List.take_zero]

/-- A pass through the poll-loop body outside an X/Y approach that sees EXEC_CYCLE_STOP and
neither EXEC_RESET nor EXEC_SAFETY_DOOR raises no alarm, and ends with `break` unless an
alarm is pending. -/
theorem homing_poll_body_stop (c : Config) (i : Nat) (ap : Bool) (a : Nat) (s : Sys)
    (hi : ¬ (i = 1 ∧ ap = true))
    (hstop : s.sys_rt_exec_state &&& c.EXEC_CYCLE_STOP ≠ 0)
    (hR : s.sys_rt_exec_state &&& c.EXEC_RESET = 0)
    (hD : s.sys_rt_exec_state &&& c.EXEC_SAFETY_DOOR = 0) :
    (homing_poll_body c i ap a s).1
      = (if s.sys_rt_exec_alarm ≠ 0 then Ctl.returned else Ctl.broke) ∧
    alarms_raised (homing_poll_body c i ap a s).2.2.calls = alarms_raised s.calls ∧
    (homing_poll_body c i ap a s).2.2.sys_rt_exec_alarm = s.sys_rt_exec_alarm := by
  have hany : s.sys_rt_exec_state &&&
      (c.EXEC_SAFETY_DOOR ||| c.EXEC_RESET ||| c.EXEC_CYCLE_STOP) ≠ 0 :=
    and_or3_ne_zero _ _ _ _ (Or.inr (Or.inr hstop))
  have hi2 : ¬ (i = 1 ∧ ap = true ∧ s.sys_rt_exec_state &&& c.EXEC_CYCLE_STOP ≠ 0) :=
    fun h => hi ⟨h.1, h.2.1⟩
  by_cases hp : s.sys_rt_exec_alarm = 0 <;>
  simp [homing_poll_body, st_prep_buffer, system_set_exec_alarm, mc_reset,
    protocol_execute_realtime, system_clear_exec_state_flag, hany, hR, hD, hi2, hp,
    alarms_raised_cons]

/-- A poll loop of an X/Y approach whose next iteration sees EXEC_CYCLE_STOP returns in that
iteration. -/
theorem homing_poll_loop_fail (c : Config) (n : Nat) (o : Obs) (env : List Obs) (l : Locals)
    (s : Sys)
    (hA : 0 < c.EXEC_ALARM_HOMING_FAIL_APPROACH ∧ c.EXEC_ALARM_HOMING_FAIL_APPROACH < 256)
    (hap : l.approach = true) (hstop : o.sys_rt_exec_state &&& c.EXEC_CYCLE_STOP ≠ 0) :
    (homing_poll_loop c n 1 (o :: env) l s).run = Run.returned ∧
    (homing_poll_loop c n 1 (o :: env) l s).env = env ∧
    (homing_poll_loop c n 1 (o :: env) l s).sys.sys_rt_exec_alarm
      = c.EXEC_ALARM_HOMING_FAIL_APPROACH ∧
    (homing_poll_loop c n 1 (o :: env) l s).sys.calls.take 3
      = [Call.protocol_execute_realtime, Call.mc_reset,
         Call.system_set_exec_alarm c.EXEC_ALARM_HOMING_FAIL_APPROACH] ∧
    alarms_raised (homing_poll_loop c n 1 (o :: env) l s).sys.calls
      = alarms_raised s.calls
        ++ (if o.sys_rt_exec_state &&& c.EXEC_RESET ≠ 0
            then [c.EXEC_ALARM_HOMING_FAIL_RESET] else [])
        ++ (if o.sys_rt_exec_state &&& c.EXEC_SAFETY_DOOR ≠ 0
            then [c.EXEC_ALARM_HOMING_FAIL_DOOR] else [])
        ++ [c.EXEC_ALARM_HOMING_FAIL_APPROACH] := by
  have bf : (homing_poll_body c 1 l.approach l.axislock
        { observe o s with
          calls := Call.poll (homing_mark c n 1 l (observe o s)) :: (observe o s).calls }).1
        = Ctl.returned ∧
      (homing_poll_body c 1 l.approach l.axislock
        { observe o s with
          calls := Call.poll (homing_mark c n 1 l (observe o s)) :: (observe o s).calls
        }).2.2.sys_rt_exec_alarm = c.EXEC_ALARM_HOMING_FAIL_APPROACH ∧
      (homing_poll_body c 1 l.approach l.axislock
        { observe o s with
          calls := Call.poll (homing_mark c n 1 l (observe o s)) :: (observe o s).calls
        }).2.2.calls.take 3
        = [Call.protocol_execute_realtime, Call.mc_reset,
           Call.system_set_exec_alarm c.EXEC_ALARM_HOMING_FAIL_APPROACH] := by
    rw [hap]
    exact homing_poll_body_fail c l.axislock _ hA hstop
  have ba := homing_poll_body_alarms c 1 l.approach l.axislock
    { observe o s with
      calls := Call.poll (homing_mark c n 1 l (observe o s)) :: (observe o s).calls }
  unfold homing_poll_loop
  dsimp only
  rcases hb : homing_poll_body c 1 l.approach l.axislock
    { observe o s with
      calls := Call.poll (homing_mark c n 1 l (observe o s)) :: (observe o s).calls }
    with ⟨ctl, a, s2⟩
  rw [hb] at bf ba
  obtain ⟨b1, b2, b3⟩ := bf
  have hst : (observe o s).sys_rt_exec_state = o.sys_rt_exec_state := rfl
  have hcl : (observe o s).calls = s.calls := rfl
  have hcond : (True ∧ l.approach = true ∧ o.sys_rt_exec_state &&& c.EXEC_CYCLE_STOP ≠ 0) :=
    ⟨trivial, hap, hstop⟩
  simp only [alarms_raised_cons, List.append_nil, hst, hcl] at ba
  rw [if_pos hcond] at ba
  dsimp only at b1 b2 b3
  subst b1
  exact ⟨rfl, rfl, b2, b3, ba⟩

/-- A poll loop outside an X/Y approach whose next iteration sees EXEC_CYCLE_STOP alone, with
no alarm pending, is left by `break` in that iteration, and no alarm is raised. -/
theorem homing_poll_loop_break (c : Config) (n i : Nat) (o : Obs) (env : List Obs) (l : Locals)
    (s : Sys) (hi : ¬ (i = 1 ∧ l.approach = true))
    (hstop : o.sys_rt_exec_state &&& c.EXEC_CYCLE_STOP ≠ 0)
    (hR : o.sys_rt_exec_state &&& c.EXEC_RESET = 0)
    (hD : o.sys_rt_exec_state &&& c.EXEC_SAFETY_DOOR = 0)
    (halarm : s.sys_rt_exec_alarm = 0) :
    (homing_poll_loop c n i (o :: env) l s).run = Run.finished ∧
    (homing_poll_loop c n i (o :: env) l s).env = env ∧
    (homing_poll_loop c n i (o :: env) l s).sys.sys_rt_exec_alarm = 0 ∧
    alarms_raised (homing_poll_loop c n i (o :: env) l s).sys.calls = alarms_raised s.calls ∧
    (homing_poll_loop c n i (o :: env) l s).loc.axislock
      = (if l.approach && (o.PINB &&& 0x4 != 0) then clear_locks c l.axislock
         else l.axislock) := by
  obtain ⟨b1, b2, b3⟩ := homing_poll_body_stop c i l.approach l.axislock
    { observe o s with
      calls := Call.poll (homing_mark c n i l (observe o s)) :: (observe o s).calls }
    hi hstop hR hD
  have b6 := (homing_poll_body_frame c i l.approach l.axislock
    { observe o s with
      calls := Call.poll (homing_mark c n i l (observe o s)) :: (observe o s).calls
    }).2.2.2.2.2.1
  unfold homing_poll_loop
  dsimp only
  rcases hb : homing_poll_body c i l.approach l.axislock
    { observe o s with
      calls := Call.poll (homing_mark c n i l (observe o s)) :: (observe o s).calls }
    with ⟨ctl, a, s2⟩
  rw [hb] at b1 b2 b3 b6
  have hal : (observe o s).sys_rt_exec_alarm = 0 := halarm
  have hcl : (observe o s).calls = s.calls := rfl
  have hpb : (observe o s).PINB = o.PINB := rfl
  simp only [alarms_raised_cons, List.append_nil, hal, hcl, ne_eq, not_true_eq_false,
    if_false] at b1 b2 b3
  simp only [hpb] at b6
  subst b1
  exact ⟨rfl, rfl, b3, b2, b6⟩

/-- A group that returns is its poll loop that returned: no `st_reset()` follows. -/
theorem homing_group_returned (c : Config) (st : Settings) (n i : Nat) (l : Locals)
    (env : List Obs) (s : Sys) (h : (homing_group c st n i l env s).run = Run.returned) :
    homing_group c st n i l env s
      = homing_poll_loop c n i env (homing_group_setup c st n i l s).1
          (homing_group_setup c st n i l s).2 := by
  unfold homing_group at h ⊢
  dsimp only at h ⊢
  rcases hp : homing_poll_loop c n i env (homing_group_setup c st n i l s).1
    (homing_group_setup c st n i l s).2 with ⟨run, l2, s2, env2⟩
  rw [hp] at h
  cases run with
  | finished => cases h
  | returned => rfl
  | starved => rfl

/-- A pass that returns is one of its groups that returned. -/
theorem homing_pass_returned (c : Config) (st : Settings) (n : Nat) (l : Locals)
    (env : List Obs) (s : Sys) (h : (homing_pass c st n l env s).run = Run.returned) :
    ∃ i l1 env1 s1, homing_pass c st n l env s = homing_group c st n i l1 env1 s1 := by
  unfold homing_pass at h ⊢
  dsimp only at h ⊢
  rcases hg0 : homing_group c st n 0
    { l with target := c.system_convert_axis_steps_to_mpos s.sys_position, axislock := 0 }
    env (set_limit_override (!l.approach) s) with ⟨run0, l2, s2, env2⟩
  rw [hg0] at h
  cases run0 with
  | returned => exact ⟨0, _, _, _, hg0.symm⟩
  | starved => cases h
  | finished =>
    dsimp only at h ⊢
    rcases hg1 : homing_group c st n 1 l2 env2 s2 with ⟨run1, l3, s3, env3⟩
    rw [hg1] at h
    cases run1 with
    | returned => exact ⟨1, _, _, _, hg1.symm⟩
    | starved => cases h
    | finished => cases h

/-- The outer loop that returns is one of its passes that returned. -/
theorem homing_passes_returned (c : Config) (st : Settings) (n : Nat) :
    ∀ (l : Locals) (env : List Obs) (s : Sys),
      (homing_passes c st n l env s).run = Run.returned →
      ∃ k l1 env1 s1, homing_passes c st n l env s = homing_pass c st k l1 env1 s1 := by
  induction n with
  | zero =>
    intro l env s _
    exact ⟨0, l, env, s, rfl⟩
  | succ n ih =>
    intro l env s h
    unfold homing_passes at h ⊢
    rcases hp : homing_pass c st (n + 1) l env s with ⟨run1, l1, s1, env1⟩
    rw [hp] at h
    cases run1 with
    | returned => exact ⟨n + 1, l, env, s, hp.symm⟩
    | starved => cases h
    | finished =>
      dsimp only at h ⊢
      exact ih l1 env1 s1 h

/-- When `limits_go_home`, entered without `sys.abort`, returns before its end, its result
is that of a poll loop that returned. -/
theorem limits_go_home_returned (c : Config) (st : Settings) (env : List Obs) (s : Sys)
    (hab : s.abort = false) (h : (limits_go_home c st env s).run = Run.returned) :
    ∃ n i l1 env1 s1, limits_go_home c st env s = homing_poll_loop c n i env1 l1 s1 ∧
      (homing_poll_loop c n i env1 l1 s1).run = Run.returned := by
  unfold limits_go_home at h ⊢
  rw [if_neg (by rw [hab]; decide)] at h ⊢
  dsimp only at h ⊢
  rcases hp : homing_passes c st ((2 * c.N_HOMING_LOCATE_CYCLE + 1) % 256)
    { approach := true, homing_rate := st.homing_seek_rate, axislock := 0,
      max_travel := 0, target := fun _ => 0 } env s with ⟨run1, l1, s1, env1⟩
  rw [hp] at h
  cases run1 with
  | starved => cases h
  | finished => cases h
  | returned =>
    dsimp only
    have h1 : (homing_passes c st ((2 * c.N_HOMING_LOCATE_CYCLE + 1) % 256)
      { approach := true, homing_rate := st.homing_seek_rate, axislock := 0,
        max_travel := 0, target := fun _ => 0 } env s).run = Run.returned := by rw [hp]
    obtain ⟨k, l2, env2, s2, e2⟩ := homing_passes_returned c st _ _ _ _ h1
    have h2 : (homing_pass c st k l2 env2 s2).run = Run.returned := by rw [← e2, hp]
    obtain ⟨i, l3, env3, s3, e3⟩ := homing_pass_returned c st k l2 env2 s2 h2
    have h3 : (homing_group c st k i l3 env3 s3).run = Run.returned := by rw [← e3, ← e2, hp]
    have e4 := homing_group_returned c st k i l3 env3 s3 h3
    refine ⟨k, i, (homing_group_setup c st k i l3 s3).1, env3,
      (homing_group_setup c st k i l3 s3).2, ?_, ?_⟩
    · rw [← e4, ← e3, ← e2, hp]
    · rw [← e4]
      exact h3

/-- The statements of a group before its poll loop leave the pending alarm alone. -/
theorem homing_group_setup_alarm (c : Config) (st : Settings) (n i : Nat) (l : Locals)
    (s : Sys) :
    (homing_group_setup c st n i l s).2.sys_rt_exec_alarm = s.sys_rt_exec_alarm := by
  have h : (homing_axis_loop c st n i l s).2.sys_rt_exec_alarm = s.sys_rt_exec_alarm := by
    unfold homing_axis_loop
    apply foldl_invariant (fun p : Locals × Sys => p.2.sys_rt_exec_alarm = s.sys_rt_exec_alarm)
    · intro p idx hp
      dsimp only
      split_ifs
      · rw [homing_axis_setup_sys]
        exact hp
      · exact hp
    · rfl
  simpa [homing_group_setup, homing_motion_start, st_wake_up, st_prep_buffer,
    plan_buffer_line] using h

/-- A group starts exactly one motion, in the pass, group and phase it is entered with, and
keeps the phase. -/
theorem homing_group_wake_ups (c : Config) (st : Settings) (n i : Nat) (l : Locals)
    (env : List Obs) (s : Sys) :
    (homing_group c st n i l env s).loc.approach = l.approach ∧
    ∃ m, wake_ups (homing_group c st n i l env s).sys.calls = wake_ups s.calls ++ [m] ∧
      m.key = (n, i, l.approach) := by
  obtain ⟨g1, _, _, _, _, _, g7⟩ := homing_group_setup_spec c st n i l s
  obtain ⟨p1, _, _, _, _, _, _, p8, _⟩ := homing_poll_loop_frame c n i env
    (homing_group_setup c st n i l s).1 (homing_group_setup c st n i l s).2
  have ha : (homing_group_setup c st n i l s).1.approach = l.approach := by
    rw [g1]
    exact (homing_axis_loop_frame c st n i l s).1
  rw [g7] at p8
  rw [ha] at p1
  unfold homing_group
  dsimp only
  rcases hp : homing_poll_loop c n i env (homing_group_setup c st n i l s).1
    (homing_group_setup c st n i l s).2 with ⟨run, l2, s2, env2⟩
  rw [hp] at p1 p8
  dsimp only at p1 p8
  cases run with
  | finished =>
    have q : wake_ups (st_reset s2).calls = wake_ups s2.calls := by
      simp [st_reset, wake_ups_cons]
    exact ⟨p1, _, q.trans p8, rfl⟩
  | returned => exact ⟨p1, _, p8, rfl⟩
  | starved => exact ⟨p1, _, p8, rfl⟩

/-- An approach pass whose Z group sees EXEC_CYCLE_STOP alone in its first poll iteration,
with no alarm pending, goes on to start the motion of the X/Y group. -/
theorem homing_pass_z_stop (c : Config) (st : Settings) (n : Nat) (l : Locals) (o : Obs)
    (env : List Obs) (s : Sys) (hap : l.approach = true)
    (hstop : o.sys_rt_exec_state &&& c.EXEC_CYCLE_STOP ≠ 0)
    (hR : o.sys_rt_exec_state &&& c.EXEC_RESET = 0)
    (hD : o.sys_rt_exec_state &&& c.EXEC_SAFETY_DOOR = 0)
    (halarm : s.sys_rt_exec_alarm = 0) :
    ∃ m0 m1, wake_ups (homing_pass c st n l (o :: env) s).sys.calls
        = wake_ups s.calls ++ [m0, m1] ∧
      m0.key = (n, 0, true) ∧ m1.key = (n, 1, true) := by
  have f4 := (set_limit_override_flag l.approach s).2.2.2
  obtain ⟨a1, m0, a2, a3⟩ := homing_group_wake_ups c st n 0
    { l with target := c.system_convert_axis_steps_to_mpos s.sys_position, axislock := 0 }
    (o :: env) (set_limit_override (!l.approach) s)
  have halarm1 : (homing_group_setup c st n 0
      { l with target := c.system_convert_axis_steps_to_mpos s.sys_position, axislock := 0 }
      (set_limit_override (!l.approach) s)).2.sys_rt_exec_alarm = 0 := by
    rw [homing_group_setup_alarm]
    exact halarm
  obtain ⟨b1, b2, _⟩ := homing_poll_loop_break c n 0 o env
    (homing_group_setup c st n 0
      { l with target := c.system_convert_axis_steps_to_mpos s.sys_position, axislock := 0 }
      (set_limit_override (!l.approach) s)).1
    (homing_group_setup c st n 0
      { l with target := c.system_convert_axis_steps_to_mpos s.sys_position, axislock := 0 }
      (set_limit_override (!l.approach) s)).2
    (fun h => absurd h.1 (by decide)) hstop hR hD halarm1
  have hfin : (homing_group c st n 0
      { l with target := c.system_convert_axis_steps_to_mpos s.sys_position, axislock := 0 }
      (o :: env) (set_limit_override (!l.approach) s)).run = Run.finished := by
    unfold homing_group
    dsimp only
    rcases hp : homing_poll_loop c n 0 (o :: env)
      (homing_group_setup c st n 0
        { l with target := c.system_convert_axis_steps_to_mpos s.sys_position, axislock := 0 }
        (set_limit_override (!l.approach) s)).1
      (homing_group_setup c st n 0
        { l with target := c.system_convert_axis_steps_to_mpos s.sys_position, axislock := 0 }
        (set_limit_override (!l.approach) s)).2 with ⟨run, l2, s2, env2⟩
    rw [hp] at b1
    dsimp only at b1
    subst b1
    rfl
  unfold homing_pass
  dsimp only
  rcases hg0 : homing_group c st n 0
    { l with target := c.system_convert_axis_steps_to_mpos s.sys_position, axislock := 0 }
    (o :: env) (set_limit_override (!l.approach) s) with ⟨run0, l2, s2, env2⟩
  rw [hg0] at a1 a2 hfin
  dsimp only at a1 a2 hfin
  subst hfin
  dsimp only
  obtain ⟨_, m1, c2, c3⟩ := homing_group_wake_ups c st n 1 l2 env2 s2
  rw [a2, f4] at c2
  rw [a1, hap] at c3
  rw [hap] at a3
  refine ⟨m0, m1, ?_, a3, c3⟩
  rcases hg1 : homing_group c st n 1 l2 env2 s2 with ⟨run1, l3, s3, env3⟩
  rw [hg1] at c2
  dsimp only at c2
  cases run1 with
  | returned => simpa using c2
  | starved => simpa using c2
  | finished =>
    dsimp only
    rw [(homing_pass_end_spec st l3 s3).1]
    simpa [delay_ms, wake_ups_cons] using c2

/-- C21, counterexample: in the search approach of the Z group of `cfg328`, Z lock set, the
poll loop sees EXEC_CYCLE_STOP with the home-status input low: no alarm is raised,
`mc_reset` is not called and the loop is left, by `break` and not by `return`, with the lock
still set.  The whole cycle on the observations `env_home`, whose Z approaches both end this
way, runs to its end through all eight motions without any alarm. -/
theorem homing_approach_fail_counterexample :
    loc_z_approach.approach = true ∧
    loc_z_approach.axislock = step_pin cfg328 cfg328.Z_AXIS ∧
    obs_stop.sys_rt_exec_state &&& cfg328.EXEC_CYCLE_STOP ≠ 0 ∧
    (homing_poll_loop cfg328 3 0 [obs_stop] loc_z_approach {}).run = Run.finished ∧
    (homing_poll_loop cfg328 3 0 [obs_stop] loc_z_approach {}).loc.axislock = 0b00010000 ∧
    alarms_raised (homing_poll_loop cfg328 3 0 [obs_stop] loc_z_approach {}).sys.calls = [] ∧
    Call.mc_reset ∉ (homing_poll_loop cfg328 3 0 [obs_stop] loc_z_approach {}).sys.calls ∧
    env_home.head?.map (fun o => (o.PINB, o.sys_rt_exec_state)) = some (0, 0b00000100) ∧
    (limits_go_home cfg328 st328 env_home sys_xyz).run = Run.finished ∧
    alarms_raised (limits_go_home cfg328 st328 env_home sys_xyz).sys.calls = [] ∧
    (wake_ups (limits_go_home cfg328 st328 env_home sys_xyz).sys.calls).length = 8 := by
  decide

/-- Amended C21: the approach failure is raised for the X/Y group only.  In every approach
pass, when a poll iteration of the X/Y group (`i = 1`) sees EXEC_CYCLE_STOP, whether lock
bits are still set or not, `limits_go_home` raises EXEC_ALARM_HOMING_FAIL_APPROACH (after
the reset and door alarms, if their flags are set too), calls `mc_reset()` and
`protocol_execute_realtime()` and returns in that iteration; and whenever `limits_go_home`,
entered without `sys.abort`, returns before its end, its result is that of the poll loop
that returned: no statement of a group or pass is executed after it.  When a poll iteration
of the Z group (`i = 0`) of an approach pass sees EXEC_CYCLE_STOP without EXEC_RESET and
EXEC_SAFETY_DOOR and no alarm is pending, no alarm is raised, the poll loop is left by
`break` with the Z lock as the home-status input leaves it, and, when this is the first
iteration of the loop, the pass goes on to start the motion of the X/Y group. -/
theorem homing_approach_fail (c : Config)
    (hA : 0 < c.EXEC_ALARM_HOMING_FAIL_APPROACH ∧ c.EXEC_ALARM_HOMING_FAIL_APPROACH < 256) :
    (∀ (n : Nat) (o : Obs) (env : List Obs) (l : Locals) (s : Sys),
      l.approach = true → o.sys_rt_exec_state &&& c.EXEC_CYCLE_STOP ≠ 0 →
      (homing_poll_loop c n 1 (o :: env) l s).run = Run.returned ∧
      (homing_poll_loop c n 1 (o :: env) l s).env = env ∧
      (homing_poll_loop c n 1 (o :: env) l s).sys.sys_rt_exec_alarm
        = c.EXEC_ALARM_HOMING_FAIL_APPROACH ∧
      (homing_poll_loop c n 1 (o :: env) l s).sys.calls.take 3
        = [Call.protocol_execute_realtime, Call.mc_reset,
           Call.system_set_exec_alarm c.EXEC_ALARM_HOMING_FAIL_APPROACH] ∧
      alarms_raised (homing_poll_loop c n 1 (o :: env) l s).sys.calls
        = alarms_raised s.calls
          ++ (if o.sys_rt_exec_state &&& c.EXEC_RESET ≠ 0
              then [c.EXEC_ALARM_HOMING_FAIL_RESET] else [])
          ++ (if o.sys_rt_exec_state &&& c.EXEC_SAFETY_DOOR ≠ 0
              then [c.EXEC_ALARM_HOMING_FAIL_DOOR] else [])
          ++ [c.EXEC_ALARM_HOMING_FAIL_APPROACH]) ∧
    (∀ (st : Settings) (env : List Obs) (s : Sys),
      s.abort = false → (limits_go_home c st env s).run = Run.returned →
      ∃ n i l1 env1 s1, limits_go_home c st env s = homing_poll_loop c n i env1 l1 s1 ∧
        (homing_poll_loop c n i env1 l1 s1).run = Run.returned) ∧
    (∀ (st : Settings) (n : Nat) (o : Obs) (env : List Obs) (l : Locals) (s : Sys),
      l.approach = true → o.sys_rt_exec_state &&& c.EXEC_CYCLE_STOP ≠ 0 →
      o.sys_rt_exec_state &&& c.EXEC_RESET = 0 →
      o.sys_rt_exec_state &&& c.EXEC_SAFETY_DOOR = 0 → s.sys_rt_exec_alarm = 0 →
      ((homing_poll_loop c n 0 (o :: env) l s).run = Run.finished ∧
        (homing_poll_loop c n 0 (o :: env) l s).env = env ∧
        alarms_raised (homing_poll_loop c n 0 (o :: env) l s).sys.calls
          = alarms_raised s.calls ∧
        (homing_poll_loop c n 0 (o :: env) l s).loc.axislock
          = (if o.PINB &&& 0x4 ≠ 0 then clear_locks c l.axislock else l.axislock)) ∧
      ∃ m0 m1, wake_ups (homing_pass c st n l (o :: env) s).sys.calls
          = wake_ups s.calls ++ [m0, m1] ∧
        m0.key = (n, 0, true) ∧ m1.key = (n, 1, true)) := by
  refine ⟨fun n o env l s hap hstop => homing_poll_loop_fail c n o env l s hA hap hstop,
    fun st env s hab h => limits_go_home_returned c st env s hab h,
    fun st n o env l s hap hstop hR hD halarm => ⟨?_, ?_⟩⟩
  · obtain ⟨b1, b2, _, b4, b5⟩ := homing_poll_loop_break c n 0 o env l s
      (fun h => absurd h.1 (by decide)) hstop hR hD halarm
    refine ⟨b1, b2, b4, ?_⟩
    rw [b5, hap]
    by_cases hp : o.PINB &&& 0x4 = 0
    · simp [hp]
    · simp [hp]
  · exact homing_pass_z_stop c st n l o env s hap hstop hR hD halarm

/-- The amended claim C21 with `cfg328`: an X/Y search approach that sees EXEC_CYCLE_STOP
with both locks set, and the cycle on the observations `env_fail`, which returns in the X/Y
approach of its first pass and leaves the last observation unused. -/
theorem homing_approach_fail_witness :
    (0 < cfg328.EXEC_ALARM_HOMING_FAIL_APPROACH ∧
      cfg328.EXEC_ALARM_HOMING_FAIL_APPROACH < 256) ∧
    loc_xy_approach.approach = true ∧
    obs_stop.sys_rt_exec_state &&& cfg328.EXEC_CYCLE_STOP ≠ 0 ∧
    ((homing_poll_loop cfg328 3 1 (obs_stop :: [obs_home]) loc_xy_approach {}).run
        = Run.returned ∧
      (homing_poll_loop cfg328 3 1 (obs_stop :: [obs_home]) loc_xy_approach {}).env
        = [obs_home] ∧
      (homing_poll_loop cfg328 3 1 (obs_stop :: [obs_home]) loc_xy_approach {}).sys.sys_rt_exec_alarm
        = cfg328.EXEC_ALARM_HOMING_FAIL_APPROACH ∧
      (homing_poll_loop cfg328 3 1 (obs_stop :: [obs_home]) loc_xy_approach {}).sys.calls.take 3
        = [Call.protocol_execute_realtime, Call.mc_reset,
           Call.system_set_exec_alarm cfg328.EXEC_ALARM_HOMING_FAIL_APPROACH] ∧
      alarms_raised
          (homing_poll_loop cfg328 3 1 (obs_stop :: [obs_home]) loc_xy_approach {}).sys.calls
        = alarms_raised ({} : Sys).calls
          ++ (if obs_stop.sys_rt_exec_state &&& cfg328.EXEC_RESET ≠ 0
              then [cfg328.EXEC_ALARM_HOMING_FAIL_RESET] else [])
          ++ (if obs_stop.sys_rt_exec_state &&& cfg328.EXEC_SAFETY_DOOR ≠ 0
              then [cfg328.EXEC_ALARM_HOMING_FAIL_DOOR] else [])
          ++ [cfg328.EXEC_ALARM_HOMING_FAIL_APPROACH]) ∧
    sys_xyz.abort = false ∧
    (limits_go_home cfg328 st328 env_fail sys_xyz).run = Run.returned ∧
    (limits_go_home cfg328 st328 env_fail sys_xyz).env.length = 1 ∧
    alarms_raised (limits_go_home cfg328 st328 env_fail sys_xyz).sys.calls
      = [cfg328.EXEC_ALARM_HOMING_FAIL_APPROACH] ∧
    (∃ n i l1 env1 s1,
      limits_go_home cfg328 st328 env_fail sys_xyz = homing_poll_loop cfg328 n i env1 l1 s1 ∧
      (homing_poll_loop cfg328 n i env1 l1 s1).run = Run.returned) :=
  ⟨by decide, rfl, by decide,
    (homing_approach_fail cfg328 (by decide)).1 3 obs_stop [obs_home] loc_xy_approach {} rfl
      (by decide),
    rfl, by decide, by decide, by decide,
    (homing_approach_fail cfg328 (by decide)).2.1 st328 env_fail sys_xyz rfl (by decide)⟩

end Limits

/-! # Theorems: the spindle -/

namespace Spindle

set_option maxRecDepth 1000000 in
/-- Exhaustive check over bytes: the update of `latch1` in `bel_set_spindle_speed`, for a
cached byte `x` and the low four bits `k` of the speed. -/
theorem byte_spindle_speed : ∀ x : Fin 256, ∀ k : Fin 16,
    (((x.val &&& (255 ^^^ 0xF)) % 256 ||| (k.val ||| 0x10)) % 256) &&& 0x0F = k.val ∧
    (((x.val &&& (255 ^^^ 0xF)) % 256 ||| (k.val ||| 0x10)) % 256) &&& 0x10 = 0x10 ∧
    (((x.val &&& (255 ^^^ 0xF)) % 256 ||| (k.val ||| 0x10)) % 256) &&& 0xE0
      = x.val &&& 0xE0 := by decide

/-- The low four bits of a speed are those of the byte passed to `bel_set_spindle_speed`. -/
theorem speed_low_bits (speed : Nat) : (speed % 256) &&& 0xF = speed &&& 0xF := by
  apply Nat.eq_of_testBit_eq
  intro j
  have h := Nat.testBit_mod_two_pow speed 8 j
  have h15 := Nat.testBit_two_pow_sub_one 4 j
  simp only [Nat.reducePow, Nat.reduceSub] at h h15
  rw [Nat.testBit_and, Nat.testBit_and, h, h15]
  by_cases h4 : j < 4
  · have h8 : j < 8 := by omega
    simp [h4, h8]
  · simp [h4]

/-- The value that `bel_set_spindle_speed` computes in `_latch`. -/
theorem bel_set_spindle_speed_latch (s : Bungard.Bel) (speed : Nat) :
    (Bungard.bel_set_spindle_speed speed s).latch1
      = ((s.latch1 &&& (255 ^^^ 0xF)) % 256 ||| ((speed % 256 &&& 0xF) ||| 0x10)) % 256 ∧
    ((Bungard.bel_set_spindle_speed speed s).latch1 = s.latch1 →
      Bungard.bel_set_spindle_speed speed s = s) ∧
    ((Bungard.bel_set_spindle_speed speed s).latch1 ≠ s.latch1 →
      Bungard.bel_set_spindle_speed speed s
        = Bungard.bel_write_latch Bungard.BEL_LATCH1
            (Bungard.bel_set_spindle_speed speed s).latch1
            { s with latch1 := (Bungard.bel_set_spindle_speed speed s).latch1 }) := by
  by_cases hc : ((s.latch1 &&& (255 ^^^ 0xF)) % 256 ||| ((speed % 256 &&& 0xF) ||| 0x10)) % 256
      = s.latch1
  · have e : Bungard.bel_set_spindle_speed speed s = s := by
      unfold Bungard.bel_set_spindle_speed
      simp only [Bungard.BEL_SPINDLE_SPEED_MASK, Bungard.BEL_SPINDLE_ENABLE_MASK, hc, ne_eq,
        not_true_eq_false, if_false]
    rw [e]
    exact ⟨hc.symm, fun _ => rfl, fun h => absurd rfl h⟩
  · have e : Bungard.bel_set_spindle_speed speed s
        = Bungard.bel_write_latch Bungard.BEL_LATCH1
            (((s.latch1 &&& (255 ^^^ 0xF)) % 256 ||| ((speed % 256 &&& 0xF) ||| 0x10)) % 256)
            { s with latch1 :=
              ((s.latch1 &&& (255 ^^^ 0xF)) % 256 ||| ((speed % 256 &&& 0xF) ||| 0x10)) % 256 } := by
      unfold Bungard.bel_set_spindle_speed
      simp only [Bungard.BEL_SPINDLE_SPEED_MASK, Bungard.BEL_SPINDLE_ENABLE_MASK, hc, ne_eq,
        not_false_eq_true, if_true]
    have hl : (Bungard.bel_set_spindle_speed speed s).latch1
        = ((s.latch1 &&& (255 ^^^ 0xF)) % 256 ||| ((speed % 256 &&& 0xF) ||| 0x10)) % 256 := by
      rw [e]
      rfl
    refine ⟨hl, fun h => absurd (hl.symm.trans h) hc, fun _ => ?_⟩
    rw [hl]
    exact e

/-- C22: for a byte in the cached `latch1` and every speed, after `bel_set_spindle_speed(speed)`
the low four bits of `latch1` are `speed & 0x0F`, the spindle-enable bit (bit 4) is set
whatever it was before, `bel_get_spindle_enable()` returns true, `spindle_get_state()` returns
SPINDLE_STATE_CW, and bits 5-7 of `latch1` are as before; `latch2`, the override flag and,
when `latch1` does not change, the whole state are left alone; and `bel_write_latch` is
called, once, for latch 1 and with the new cached value, exactly when the cached value
changes. -/
theorem bel_set_spindle_speed_effect (c : Config) (s : Bungard.Bel) (speed : Nat)
    (h : s.latch1 < 256) (hcw : c.SPINDLE_STATE_CW < 256) :
    (Bungard.bel_set_spindle_speed speed s).latch1 &&& 0x0F = speed &&& 0x0F ∧
    (Bungard.bel_set_spindle_speed speed s).latch1 &&& 0x10 = 0x10 ∧
    Bungard.bel_get_spindle_enable (Bungard.bel_set_spindle_speed speed s) = true ∧
    spindle_get_state c (Bungard.bel_set_spindle_speed speed s) = c.SPINDLE_STATE_CW ∧
    (Bungard.bel_set_spindle_speed speed s).latch1 &&& 0xE0 = s.latch1 &&& 0xE0 ∧
    (Bungard.bel_set_spindle_speed speed s).latch2 = s.latch2 ∧
    (Bungard.bel_set_spindle_speed speed s).stepper_limits_override_flag
      = s.stepper_limits_override_flag ∧
    ((Bungard.bel_set_spindle_speed speed s).latch1 = s.latch1 →
      Bungard.bel_set_spindle_speed speed s = s) ∧
    Bungard.latch_writes (Bungard.new_events s (Bungard.bel_set_spindle_speed speed s))
      = (if (Bungard.bel_set_spindle_speed speed s).latch1 ≠ s.latch1
         then [(Bungard.BEL_LATCH1, (Bungard.bel_set_spindle_speed speed s).latch1)]
         else []) := by
  obtain ⟨hl, hsame, hdiff⟩ := bel_set_spindle_speed_latch s speed
  have hk : speed % 256 &&& 0xF < 16 := by
    have := @Nat.and_le_right (speed % 256) 0xF
    omega
  obtain ⟨b1, b2, b3⟩ := byte_spindle_speed ⟨s.latch1, h⟩ ⟨speed % 256 &&& 0xF, hk⟩
  simp only at b1 b2 b3
  rw [← hl] at b1 b2 b3
  have hen : Bungard.bel_get_spindle_enable (Bungard.bel_set_spindle_speed speed s) = true := by
    simp [Bungard.bel_get_spindle_enable, Bungard.BEL_SPINDLE_ENABLE_MASK, b2]
  have hlt : (Bungard.bel_set_spindle_speed speed s).latch1 < 256 := by
    rw [hl]
    exact Nat.mod_lt _ (by decide)
  refine ⟨by rw [b1, speed_low_bits], b2, hen, ?_, b3, ?_, ?_, hsame, ?_⟩
  · simp [spindle_get_state, hen, Nat.mod_eq_of_lt hcw]
  · by_cases hc : (Bungard.bel_set_spindle_speed speed s).latch1 = s.latch1
    · rw [hsame hc]
    · rw [hdiff hc]
      rfl
  · exact Bungard.bel_set_spindle_speed_flag speed s
  · by_cases hc : (Bungard.bel_set_spindle_speed speed s).latch1 = s.latch1
    · rw [if_neg (not_not.mpr hc), hsame hc, Bungard.new_events_append s s [] rfl]
      rfl
    · rw [if_pos hc]
      obtain ⟨a1, a2, a3, a4, a5, a6, a7, a8, ht⟩ := Bungard.bel_write_latch_trace
        Bungard.BEL_LATCH1 (Bungard.bel_set_spindle_speed speed s).latch1
        { s with latch1 := (Bungard.bel_set_spindle_speed speed s).latch1 }
      rw [← hdiff hc] at ht
      rw [Bungard.new_events_append s _ _ ht, Bungard.latch_writes_write,
        Nat.mod_eq_of_lt hlt]
      rfl

/-- The claim C22 from a cached `latch1` of 0xE5 (spindle off) with speed 0x3A: the new
cached value is 0xFA and it is written to latch 1. -/
theorem bel_set_spindle_speed_effect_witness :
    bel_E5.latch1 < 256 ∧ spindle_cfg.SPINDLE_STATE_CW < 256 ∧
    (Bungard.bel_set_spindle_speed 0x3A bel_E5).latch1 = 0xFA ∧
    ((Bungard.bel_set_spindle_speed 0x3A bel_E5).latch1 &&& 0x0F = 0x3A &&& 0x0F ∧
    (Bungard.bel_set_spindle_speed 0x3A bel_E5).latch1 &&& 0x10 = 0x10 ∧
    Bungard.bel_get_spindle_enable (Bungard.bel_set_spindle_speed 0x3A bel_E5) = true ∧
    spindle_get_state spindle_cfg (Bungard.bel_set_spindle_speed 0x3A bel_E5)
      = spindle_cfg.SPINDLE_STATE_CW ∧
    (Bungard.bel_set_spindle_speed 0x3A bel_E5).latch1 &&& 0xE0 = bel_E5.latch1 &&& 0xE0 ∧
    (Bungard.bel_set_spindle_speed 0x3A bel_E5).latch2 = bel_E5.latch2 ∧
    (Bungard.bel_set_spindle_speed 0x3A bel_E5).stepper_limits_override_flag
      = bel_E5.stepper_limits_override_flag ∧
    ((Bungard.bel_set_spindle_speed 0x3A bel_E5).latch1 = bel_E5.latch1 →
      Bungard.bel_set_spindle_speed 0x3A bel_E5 = bel_E5) ∧
    Bungard.latch_writes (Bungard.new_events bel_E5 (Bungard.bel_set_spindle_speed 0x3A bel_E5))
      = (if (Bungard.bel_set_spindle_speed 0x3A bel_E5).latch1 ≠ bel_E5.latch1
         then [(Bungard.BEL_LATCH1, (Bungard.bel_set_spindle_speed 0x3A bel_E5).latch1)]
         else [])) :=
  ⟨by decide, by decide, by decide,
    bel_set_spindle_speed_effect spindle_cfg bel_E5 0x3A (by decide) (by decide)⟩

end Spindle
